import Mathlib

/-! REC-Blockchain chaincode: ledger documents, operations and their properties.

A shallow embedding of the Hyperledger Fabric chaincode of the repository:

* `chaincode/src/energyDataContract.js` and `chaincode/src/certificateContract.js`
  (namespace `REC.Chaincode`), the hash-enabled package;
* `chaincode/rec/src/*.js` (namespace `REC.ChaincodeRec`), the package that holds the
  buy-request contract.

Modelling conventions.

* The world state is a finite map from keys to stored JSON documents. A document is kept
  in the shape `JSON.parse (JSON.stringify doc)` gives it: a number that is not finite is
  stored as `null` (`none`), a member that is `null` or `undefined` is `none`. The
  members that come from the security data of a certificate request hold any JSON value
  and are kept as `JSValue`s.
* A transaction is a function of the committed state: `getState` reads the committed
  state, every `putState` is appended to the write set, and the write set is applied only
  when the function returns (a thrown error discards it).
* Functions of the JavaScript runtime and of Node (`crypto`, `parseFloat`, `Date`,
  `JSON.parse`, Unicode case mapping) are the fields of a `Lib` value, which every
  operation takes as a parameter. `Node.lib` is a reference instance with a real SHA-256
  for evaluating the operations on concrete inputs.
* Transaction arguments are strings (Fabric passes every argument as a string).
* The transaction timestamp and the wall clock are instants in the range of `Date`, where
  `toISOString` does not throw.
-/

namespace REC

/-! ## JavaScript values -/

/-- A JavaScript number. Finite values are carried by the rational they denote
(`-0` and `0` are not distinguished: nothing in the chaincode tells them apart). -/
inductive JSNum where
  | nan
  | posInf
  | negInf
  | fin (q : ℚ)
deriving DecidableEq

/-- The value a number has after `JSON.stringify` and `JSON.parse`: a finite number is
kept, `NaN` and the infinities become `null`. -/
def JSNum.toStored : JSNum → Option ℚ
  | .fin q => some q
  | _ => none

/-- A value held by a member of parsed JSON. -/
inductive JSValue where
  /-- The value `undefined`: the member is absent. -/
  | undefined
  /-- The value `null`. -/
  | null
  /-- A boolean. -/
  | bool (b : Bool)
  /-- A number (a literal beyond the range of a double is read as an infinity). -/
  | number (n : JSNum)
  /-- A string. -/
  | string (s : String)
  /-- An array or an object, given by its text `JSON.stringify(value)` and by the text
  `String(value)` a template literal prints. -/
  | other (json text : String)
deriving DecidableEq

/-- The members read from the object `JSON.parse(securityDataStr)` yields (or from its
`security` member). A member holds any JSON value; one that is absent is `undefined`. -/
structure SecurityFields where
  certificate_hash : JSValue
  serial_number : JSValue
  security_level : JSValue
  anti_duplication_hash : JSValue
  generated_at : JSValue
deriving DecidableEq

/-- What `requestCertificate` sees of `JSON.parse(securityDataStr)`. -/
inductive SecurityJSON where
  /-- The call `JSON.parse` throws. -/
  | invalid
  /-- The text parses to `null`: reading a member of it throws a TypeError. -/
  | nullValue
  /-- Any other value: `own` are its own members, `security` the members of its `security`
  member when that member is truthy. -/
  | value (own : SecurityFields) (security : Option SecurityFields)
deriving DecidableEq

/-- What `confirmPayment` sees of `JSON.parse(paymentDataStr)`. -/
inductive PaymentJSON where
  /-- `JSON.parse` throws: the defaults are kept. -/
  | invalid
  /-- The text parses to `null`: reading `paymentDetails.method` throws a TypeError. -/
  | nullValue
  /-- Any other value, with its `method` and `reference` members. -/
  | value (method reference : Option String)
deriving DecidableEq

/-- The functions of the JavaScript runtime the chaincode calls. -/
structure Lib where
  /-- The hex digest `crypto.createHash('sha256').update(s).digest('hex')`. -/
  sha256Hex : String → String
  /-- The function `parseFloat` on a string. -/
  parseFloat : String → JSNum
  /-- The conversion `Number::toString` of a finite number (also what `JSON.stringify` prints). -/
  numberToString : ℚ → String
  /-- The method `String.prototype.toUpperCase`. -/
  toUpperCase : String → String
  /-- The method `String.prototype.toLowerCase`. -/
  toLowerCase : String → String
  /-- The method `String.prototype.trim`. -/
  trim : String → String
  /-- The text `new Date(ms).toISOString()` for an instant given in milliseconds. -/
  toISOString : Int → String
  /-- The text of `new Date(ms).getFullYear()` as a template literal prints it. -/
  getFullYear : Int → String
  /-- The product of two numbers (IEEE multiplication). -/
  multiply : JSNum → JSNum → JSNum
  /-- The function `JSON.parse` on the security data of `requestCertificate`. -/
  parseSecurityData : String → SecurityJSON
  /-- The function `JSON.parse` on the payment data of `confirmPayment`. -/
  parsePaymentData : String → PaymentJSON

/-- The transaction context: what `ctx.stub` and `ctx.clientIdentity` report, and the
wall clock of the peer (`new Date()`). -/
structure Ctx where
  /-- The member `ctx.stub.getTxTimestamp().seconds`. -/
  txTimestampSeconds : Int
  /-- The value of `ctx.stub.getTxID()`. -/
  txId : String
  /-- The instant `new Date()` gives on the executing peer, in milliseconds. -/
  now : Int
  /-- The value of `ctx.clientIdentity.getMSPID()`. -/
  mspId : String
deriving DecidableEq

/-- The expression `a || d` for a string `a`. -/
def strOr (a d : String) : String := if a = "" then d else a

/-- The expression `a || d` for a string `a` that may be absent. -/
def optOr (a : Option String) (d : String) : String :=
  match a with
  | some s => if s = "" then d else s
  | none => d

/-- The method `substring(0, n)`, on the characters of the string. -/
def substring0 (s : String) (n : Nat) : String := ⟨s.data.take n⟩

/-- The expression `s.split('T')[0]`. -/
def splitT0 (s : String) : String := ⟨s.data.takeWhile (fun c => c ≠ 'T')⟩

/-- How a template literal prints a value that may be `undefined`. -/
def templateText : Option String → String
  | some s => s
  | none => "undefined"

/-- The text of the TypeError Node raises when a member of `undefined` is read. -/
def typeError (member : String) : String :=
  "TypeError: Cannot read properties of undefined (reading " ++ String.singleton (Char.ofNat 39)
    ++ member ++ String.singleton (Char.ofNat 39) ++ ")"

/-- The text of the TypeError Node raises when a member that is not a function is called. -/
def notAFunction (callee : String) : String := "TypeError: " ++ callee ++ " is not a function"

/-- The JavaScript test `if (v)` on a value. -/
def JSValue.truthy : JSValue → Bool
  | .undefined => false
  | .null => false
  | .bool b => b
  | .number (.fin q) => q ≠ 0
  | .number .nan => false
  | .number _ => true
  | .string s => s ≠ ""
  | .other _ _ => true

/-- How a template literal prints a value (`String(v)`). -/
def JSValue.text (L : Lib) : JSValue → String
  | .undefined => "undefined"
  | .null => "null"
  | .bool b => if b then "true" else "false"
  | .number (.fin q) => L.numberToString q
  | .number .nan => "NaN"
  | .number .posInf => "Infinity"
  | .number .negInf => "-Infinity"
  | .string s => s
  | .other _ text => text

/-- The expression `v || d` for a string `d`. -/
def JSValue.or (v : JSValue) (d : String) : JSValue := if v.truthy then v else .string d

/-- The value a member has after `JSON.stringify` and `JSON.parse`: a number that is not
finite becomes `null`, any other value is kept (a member that is `undefined` is left out,
and so is `undefined` again when it is read back). -/
def JSValue.toStored : JSValue → JSValue
  | .number (.fin q) => .number (.fin q)
  | .number _ => .null
  | v => v

/-! ## JSON text -/

/-- A hexadecimal digit. -/
def hexDigit (n : Nat) : Char :=
  if n < 10 then Char.ofNat (48 + n) else Char.ofNat (87 + n)

/-- The escape `JSON.stringify` writes for one character of a string. -/
def jsonEscapeChar (c : Char) : List Char :=
  if c = '"' then ['\\', '"']
  else if c = '\\' then ['\\', '\\']
  else if c.toNat = 8 then ['\\', 'b']
  else if c.toNat = 12 then ['\\', 'f']
  else if c = '\n' then ['\\', 'n']
  else if c = '\r' then ['\\', 'r']
  else if c = '\t' then ['\\', 't']
  else if c.toNat < 32 then ['\\', 'u', '0', '0', hexDigit (c.toNat / 16), hexDigit (c.toNat % 16)]
  else [c]

/-- The text `JSON.stringify(s)` of a string. -/
def jsonString (s : String) : String :=
  ⟨'"' :: (s.data.flatMap jsonEscapeChar ++ ['"'])⟩

/-- The text `JSON.stringify(x)` of a number. -/
def jsonNumber (L : Lib) : JSNum → String
  | .fin q => L.numberToString q
  | _ => "null"

/-- The text `JSON.stringify(x)` of a stored number (`null` when absent). -/
def jsonStored (L : Lib) : Option ℚ → String
  | some q => L.numberToString q
  | none => "null"

/-- The conversion `ToString` of a stored number, as `parseFloat` applies it to its argument. -/
def storedToString (L : Lib) : Option ℚ → String
  | some q => L.numberToString q
  | none => "null"

/-! ## The world state -/

/-- The world state: the committed key/value pairs, in key order. -/
abbrev Ledger (D : Type) := List (String × D)

/-- The call `ctx.stub.getState(key)`: the stored document, `none` for the empty buffer
Fabric returns when the key holds nothing. -/
def getState {D : Type} : Ledger D → String → Option D
  | [], _ => none
  | (k, d) :: rest, key => if k = key then some d else getState rest key

/-- The effect of one committed `putState(key, d)` on the world state. -/
def putState {D : Type} : Ledger D → String → D → Ledger D
  | [], key, d => [(key, d)]
  | (k, d0) :: rest, key, d =>
    if k = key then (key, d) :: rest
    else if key < k then (key, d) :: (k, d0) :: rest
    else (k, d0) :: putState rest key d

/-- A thrown `Error`, or the value the transaction function returns. -/
inductive Outcome (α : Type) where
  | error (message : String)
  | ok (value : α)
deriving DecidableEq

/-- Whether the transaction function returned. -/
def Outcome.isOk {α : Type} : Outcome α → Bool
  | .ok _ => true
  | .error _ => false

/-- What one invocation of a transaction function does: the `putState` calls it made, in
order, and how it ended. -/
structure TxResult (D α : Type) where
  writes : List (String × D)
  result : Outcome α
deriving DecidableEq

/-- A transaction that throws before any `putState`. -/
def TxResult.fail {D α : Type} (message : String) : TxResult D α := ⟨[], .error message⟩

/-- The write set applied to the state, in order. -/
def applyWrites {D : Type} (st : Ledger D) : List (String × D) → Ledger D
  | [] => st
  | (k, d) :: rest => applyWrites (putState st k d) rest

/-- The world state after the transaction: its write set is applied when the function
returned and discarded when it threw. -/
def commit {D α : Type} (st : Ledger D) (r : TxResult D α) : Ledger D :=
  match r.result with
  | .ok _ => applyWrites st r.writes
  | .error _ => st

namespace Chaincode

/-! ## Documents of `chaincode/src` -/

/-- The member `integrity` of an energy record. -/
structure Integrity where
  originalHash : String
  submissionTxId : String
  submissionTimestamp : String
  dataFingerprint : String
deriving DecidableEq

/-- The member `verification` that `verifyEnergyData` adds. -/
structure Verification where
  verifiedAt : String
  verifiedBy : String
  verificationTxId : String
  integrityConfirmed : Bool
  hashValidated : Bool
deriving DecidableEq

/-- The energy record `submitEnergyData` stores under `ENERGY_<id>`. -/
structure EnergyData where
  docType : String
  energyDataId : String
  amount : Option ℚ
  unit : String
  sourceType : String
  generationDate : String
  location : String
  generatorId : String
  status : String
  createdAt : String
  transactionId : String
  energyDataHash : String
  serialNumber : String
  integrity : Integrity
  verifiedAt : Option String
  verifiedBy : Option String
  verificationTxId : Option String
  verification : Option Verification
deriving DecidableEq

/-- The mapping `submitEnergyData` stores under `ENERGY_HASH_<hash>`. -/
structure HashMapping where
  energyDataId : String
  energyDataHash : String
  generatorId : String
  createdAt : String
  originalTxId : String
deriving DecidableEq

/-- The member `certificateInfo` of a certificate. -/
structure CertificateInfo where
  type : String
  status : String
  statusDescription : String
  issuanceStandard : String
deriving DecidableEq

/-- The member `energyReference` of a certificate. -/
structure EnergyReference where
  energyDataId : String
  amount : Option ℚ
  unit : String
  sourceType : String
  location : String
  generationDate : String
  energyDataHash : String
deriving DecidableEq

/-- The member `parties.generator`. -/
structure GeneratorParty where
  generatorId : String
  organizationType : String
  role : String
deriving DecidableEq

/-- The member `parties.issuer`. -/
structure IssuerParty where
  issuerId : String
  organizationType : String
  role : String
deriving DecidableEq

/-- The member `parties.buyer`. -/
structure BuyerParty where
  buyerId : String
  organizationType : String
  role : String
deriving DecidableEq

/-- The member `parties` of a certificate. -/
structure Parties where
  generator : GeneratorParty
  issuer : IssuerParty
  buyer : BuyerParty
deriving DecidableEq

/-- The member `lifecycle` of a certificate. -/
structure Lifecycle where
  requestedAt : String
  requestedBy : String
  paidAt : Option String
  paidBy : Option String
  issuedAt : Option String
  issuedBy : Option String
  completedAt : Option String
  completedBy : Option String
  expiresAt : Option String
deriving DecidableEq

/-- The member `paymentDetails` of a certificate. -/
structure PaymentDetails where
  paymentRequested : Bool
  paymentRequestedAt : String
  paymentConfirmed : Bool
  paymentConfirmedAt : Option String
  paymentConfirmedBy : Option String
  paymentStatus : String
  paymentMethod : Option String
  paymentReference : Option String
  paymentVerified : Bool
  paymentVerifiedAt : Option String
  paymentVerifiedBy : Option String
deriving DecidableEq

/-- The member `security` of a certificate. -/
structure Security where
  certificateHash : JSValue
  serialNumber : JSValue
  antiDuplicationHash : JSValue
  tamperProof : Option Bool
  securityLevel : JSValue
  cryptographicStandard : String
  generatedAt : JSValue
deriving DecidableEq

/-- The member `compliance` of a certificate. -/
structure Compliance where
  regulatoryFramework : String
  certificationBody : String
  trackingSystem : String
  serialNumber : JSValue
  antiDuplicationVerified : Bool
  energyDataValidated : Bool
deriving DecidableEq

/-- The member `auditTrail.transactionConsistency` that `issueCertificate` adds. -/
structure TransactionConsistency where
  txId : String
  timestamp : String
  function : String
  endorser : String
  stateHash : String
deriving DecidableEq

/-- The member `auditTrail` of a certificate. -/
structure AuditTrail where
  createdAt : String
  createdBy : String
  lastModified : String
  transactionId : String
  requestTimestamp : String
  workflowStep : String
  paymentConfirmationTxId : Option String
  issuanceTxId : Option String
  completionTxId : Option String
  transactionConsistency : Option TransactionConsistency
deriving DecidableEq

/-- The certificate `requestCertificate` stores under `CERTIFICATE_<certId>`. -/
structure Certificate where
  documentType : String
  certificateId : String
  version : String
  certificateInfo : CertificateInfo
  energyReference : EnergyReference
  parties : Parties
  lifecycle : Lifecycle
  paymentDetails : PaymentDetails
  security : Security
  compliance : Compliance
  auditTrail : AuditTrail
deriving DecidableEq

/-- The mapping `requestCertificate` stores under `CERT_HASH_<hash>`. -/
structure CertHashMapping where
  certificateId : String
  hash : JSValue
  createdAt : String
  buyerId : String
deriving DecidableEq

/-- A document of the world state of `chaincode/src`: what `JSON.parse` gives for the
bytes stored under a key. -/
inductive Doc where
  | energyData (e : EnergyData)
  | energyHash (m : HashMapping)
  | certificate (c : Certificate)
  | certHash (m : CertHashMapping)
deriving DecidableEq

/-- The member `energyDataId` of a parsed document, `undefined` (`none`) when it has none. -/
def Doc.energyDataId : Doc → Option String
  | .energyData e => some e.energyDataId
  | .energyHash m => some m.energyDataId
  | .certificate _ => none
  | .certHash _ => none

/-! ## `EnergyDataContract` (chaincode/src/energyDataContract.js) -/

/-- The text `JSON.stringify(hashData)` that `generateEnergyDataHash` passes to the digest. -/
def hashDataJSON (L : Lib) (amount_kwh source_type timestamp location generatorId : String) :
    String :=
  "\x7b\"generatorId\":" ++ jsonString generatorId
    ++ ",\"location\":" ++ jsonString (L.trim (L.toLowerCase location))
    ++ ",\"generationDate\":" ++ jsonString timestamp
    ++ ",\"amount\":" ++ jsonNumber L (L.parseFloat amount_kwh)
    ++ ",\"sourceType\":" ++ jsonString (L.toUpperCase source_type) ++ "\x7d"

/-- The method `generateEnergyDataHash`. The argument `amount_kwh` is given as the string
`parseFloat` converts its argument to. -/
def generateEnergyDataHash (L : Lib)
    (amount_kwh source_type timestamp location generatorId : String) : String :=
  L.sha256Hex (hashDataJSON L amount_kwh source_type timestamp location generatorId)

/-- The method `submitEnergyData`. -/
def submitEnergyData (L : Lib) (ctx : Ctx) (st : Ledger Doc)
    (id amount_kwh source_type timestamp location generatorId : String) :
    TxResult Doc EnergyData :=
  let key := "ENERGY_" ++ id
  match getState st key with
  | some _ => .fail ("Energy data with ID " ++ id ++ " already exists")
  | none =>
    let energyDataHash :=
      generateEnergyDataHash L amount_kwh source_type timestamp location generatorId
    let hashKey := "ENERGY_HASH_" ++ energyDataHash
    match getState st hashKey with
    | some existingData =>
      .fail ("Energy data with this generation profile already exists. Existing ID: "
        ++ templateText existingData.energyDataId ++ ", Hash: " ++ energyDataHash)
    | none =>
      let createdAt := L.toISOString (ctx.txTimestampSeconds * 1000)
      let energyData : EnergyData :=
        { docType := "energyData"
          energyDataId := id
          amount := (L.parseFloat amount_kwh).toStored
          unit := "kWh"
          sourceType := L.toUpperCase source_type
          generationDate := timestamp
          location := location
          generatorId := generatorId
          status := "PENDING"
          createdAt := createdAt
          transactionId := ctx.txId
          energyDataHash := energyDataHash
          serialNumber := "ENERGY-" ++ generatorId ++ "-" ++ substring0 energyDataHash 8
          integrity :=
            { originalHash := energyDataHash
              submissionTxId := ctx.txId
              submissionTimestamp := createdAt
              dataFingerprint := energyDataHash }
          verifiedAt := none
          verifiedBy := none
          verificationTxId := none
          verification := none }
      let hashMapping : HashMapping :=
        { energyDataId := id
          energyDataHash := energyDataHash
          generatorId := generatorId
          createdAt := createdAt
          originalTxId := ctx.txId }
      ⟨[(key, .energyData energyData), (hashKey, .energyHash hashMapping)], .ok energyData⟩

/-- The hash `verifyEnergyData` and `verifyEnergyDataIntegrity` recompute from the stored
members of a record. -/
def recalculateHash (L : Lib) (energyData : EnergyData) : String :=
  generateEnergyDataHash L (storedToString L energyData.amount) energyData.sourceType
    energyData.generationDate energyData.location energyData.generatorId

/-- The value `verifyEnergyData` returns. -/
structure VerifyResult where
  message : String
  energyData : EnergyData
deriving DecidableEq

/-- The method `verifyEnergyData`. -/
def verifyEnergyData (L : Lib) (ctx : Ctx) (st : Ledger Doc) (energyId issuerId : String) :
    TxResult Doc VerifyResult :=
  let energyKey := "ENERGY_" ++ energyId
  match getState st energyKey with
  | none => .fail ("Energy data with ID " ++ energyId ++ " does not exist")
  | some (.energyData energyData) =>
    if energyData.status ≠ "PENDING" then
      .fail ("Energy data " ++ energyId ++ " must be in PENDING status for verification")
    else if energyData.energyDataHash ≠ "" ∧
        recalculateHash L energyData ≠ energyData.energyDataHash then
      .fail ("Energy data integrity check FAILED. Original hash: " ++ energyData.energyDataHash
        ++ ", Calculated: " ++ recalculateHash L energyData
        ++ ". Data may have been tampered with.")
    else
      let verifiedAt := L.toISOString (ctx.txTimestampSeconds * 1000)
      let verified : EnergyData :=
        { energyData with
          status := "VERIFIED"
          verifiedAt := some verifiedAt
          verifiedBy := some issuerId
          verificationTxId := some ctx.txId
          verification := some
            { verifiedAt := verifiedAt
              verifiedBy := issuerId
              verificationTxId := ctx.txId
              integrityConfirmed := true
              hashValidated := decide (energyData.energyDataHash ≠ "") } }
      ⟨[(energyKey, .energyData verified)],
        .ok ⟨"Energy data verified successfully with integrity confirmation", verified⟩⟩
  | some _ =>
    -- any other document has no member `status`: `undefined !== 'PENDING'`
    .fail ("Energy data " ++ energyId ++ " must be in PENDING status for verification")

/-- The method `getEnergyDataById`. -/
def getEnergyDataById (st : Ledger Doc) (id : String) : TxResult Doc Doc :=
  match getState st ("ENERGY_" ++ id) with
  | none => .fail ("Energy data with ID " ++ id ++ " does not exist")
  | some d => ⟨[], .ok d⟩

/-- The value `verifyEnergyDataIntegrity` returns. -/
structure IntegrityReport where
  isValid : Bool
  originalHash : Option String
  recalculatedHash : Option String
  message : String
deriving DecidableEq

/-- The report for a document without a truthy `energyDataHash`. -/
def legacyReport : IntegrityReport :=
  { isValid := false
    originalHash := none
    recalculatedHash := none
    message := "Energy data does not have hash - legacy data" }

/-- The method `verifyEnergyDataIntegrity`. -/
def verifyEnergyDataIntegrity (L : Lib) (st : Ledger Doc) (energyId : String) :
    TxResult Doc IntegrityReport :=
  match getState st ("ENERGY_" ++ energyId) with
  | none => .fail ("Energy data with ID " ++ energyId ++ " does not exist")
  | some (.energyData energyData) =>
    if energyData.energyDataHash = "" then ⟨[], .ok legacyReport⟩
    else
      let recalculatedHash := recalculateHash L energyData
      let isValid := decide (recalculatedHash = energyData.energyDataHash)
      ⟨[], .ok
        { isValid := isValid
          originalHash := some energyData.energyDataHash
          recalculatedHash := some recalculatedHash
          message :=
            if isValid then "Energy data integrity verified"
            else "Energy data integrity FAILED - data tampering detected" }⟩
  | some (.energyHash m) =>
    -- a hash mapping has `energyDataHash` but no `location`
    if m.energyDataHash = "" then ⟨[], .ok legacyReport⟩ else .fail (typeError "toLowerCase")
  | some _ => ⟨[], .ok legacyReport⟩

/-- The value `checkEnergyDataDuplication` returns. -/
structure DuplicationReport where
  isDuplicate : Bool
  existingEnergyDataId : Option String
  hash : String
  message : String
deriving DecidableEq

/-- The method `checkEnergyDataDuplication`. -/
def checkEnergyDataDuplication (L : Lib) (st : Ledger Doc)
    (amount_kwh source_type timestamp location generatorId : String) :
    TxResult Doc DuplicationReport :=
  let energyDataHash :=
    generateEnergyDataHash L amount_kwh source_type timestamp location generatorId
  match getState st ("ENERGY_HASH_" ++ energyDataHash) with
  | some existingData =>
    ⟨[], .ok
      { isDuplicate := true
        existingEnergyDataId := existingData.energyDataId
        hash := energyDataHash
        message := "Energy data with identical generation profile already exists" }⟩
  | none =>
    ⟨[], .ok
      { isDuplicate := false
        existingEnergyDataId := none
        hash := energyDataHash
        message := "Energy data is unique" }⟩

/-! ## `CertificateContract` (chaincode/src/certificateContract.js) -/

/-- The method `calculateEnergyDataHash`. -/
def calculateEnergyDataHash (L : Lib) (energyData : EnergyData) : String :=
  L.sha256Hex
    ("\x7b\"generatorId\":" ++ jsonString energyData.generatorId
      ++ ",\"location\":" ++ jsonString energyData.location
      ++ ",\"generationDate\":" ++ jsonString energyData.generationDate
      ++ ",\"amount\":" ++ jsonStored L energyData.amount
      ++ ",\"sourceType\":" ++ jsonString energyData.sourceType ++ "\x7d")

/-- The text `JSON.stringify` prints for a string member that may be `null`. -/
def jsonOptString : Option String → String
  | some s => jsonString s
  | none => "null"

/-- The method `calculateStateHash`. -/
def calculateStateHash (L : Lib) (certificate : Certificate) : String :=
  L.sha256Hex
    ("\x7b\"status\":" ++ jsonString certificate.certificateInfo.status
      ++ ",\"issuedAt\":" ++ jsonOptString certificate.lifecycle.issuedAt
      ++ ",\"issuedBy\":" ++ jsonOptString certificate.lifecycle.issuedBy
      ++ ",\"workflowStep\":" ++ jsonString certificate.auditTrail.workflowStep ++ "\x7d")

/-- The local object `parsedSecurity` of `requestCertificate`. -/
structure ParsedSecurity where
  certificate_hash : JSValue
  serial_number : JSValue
  security_level : JSValue
  anti_duplication_hash : JSValue
  tamper_proof : Option Bool
  generated_at : JSValue
deriving DecidableEq

/-- The `try`/`catch` block of `requestCertificate` that fills `parsedSecurity`. -/
def parseSecurity (L : Lib) (ctx : Ctx) (certId securityDataStr : String) : ParsedSecurity :=
  if securityDataStr = "" then
    { certificate_hash := .undefined, serial_number := .undefined, security_level := .undefined,
      anti_duplication_hash := .undefined, tamper_proof := none, generated_at := .undefined }
  else
    match L.parseSecurityData securityDataStr with
    | .value _ (some f) =>
      { certificate_hash := f.certificate_hash
        serial_number := f.serial_number
        security_level := f.security_level.or "HIGH"
        anti_duplication_hash := f.anti_duplication_hash
        tamper_proof := some true
        generated_at := f.generated_at.or (L.toISOString ctx.now) }
    | .value f none =>
      { certificate_hash := f.certificate_hash
        serial_number := f.serial_number
        security_level := f.security_level.or "HIGH"
        anti_duplication_hash := .null
        tamper_proof := some true
        generated_at := .string (L.toISOString ctx.now) }
    | _ =>
      -- `JSON.parse` threw, or reading `securityData.security` of `null` threw
      { certificate_hash := .null
        serial_number := .string certId
        security_level := .string "MEDIUM"
        anti_duplication_hash := .null
        tamper_proof := some false
        generated_at := .string (L.toISOString ctx.now) }

/-- The certificate document `requestCertificate` builds. -/
def newCertificate (L : Lib) (ctx : Ctx) (certId energyId buyerId purchasedAmount : String)
    (energyData : EnergyData) (parsedSecurity : ParsedSecurity) : Certificate :=
  let energyDataHash := calculateEnergyDataHash L energyData
  let requestedAt := L.toISOString (ctx.txTimestampSeconds * 1000)
  let txId := ctx.txId
  let serialNumber :=
    parsedSecurity.serial_number.or
      ("REC-" ++ L.getFullYear ctx.now ++ "-" ++ substring0 txId 12)
  { documentType := "RENEWABLE_ENERGY_CERTIFICATE"
    certificateId := certId
    version := "1.0"
    certificateInfo :=
      { type := "REC"
        status := "CERTIFICATE_REQUESTED"
        statusDescription := "Certificate request submitted by buyer"
        issuanceStandard := "INTERNATIONAL_REC_STANDARD_V2.0" }
    energyReference :=
      { energyDataId := energyId
        amount := (L.parseFloat purchasedAmount).toStored
        unit := strOr energyData.unit "kWh"
        sourceType := strOr energyData.sourceType "SOLAR"
        location := strOr energyData.location "Indonesia"
        generationDate := strOr energyData.generationDate (splitT0 (L.toISOString ctx.now))
        energyDataHash := energyDataHash }
    parties :=
      { generator :=
          { generatorId := energyData.generatorId
            organizationType := "RENEWABLE_ENERGY_GENERATOR"
            role := "ENERGY_PRODUCER" }
        issuer :=
          { issuerId := "ISSUER001"
            organizationType := "AUTHORIZED_CERTIFICATE_ISSUER"
            role := "CERTIFICATE_AUTHORITY" }
        buyer :=
          { buyerId := buyerId
            organizationType := "ENERGY_BUYER"
            role := "CERTIFICATE_PURCHASER" } }
    lifecycle :=
      { requestedAt := requestedAt
        requestedBy := buyerId
        paidAt := none
        paidBy := none
        issuedAt := none
        issuedBy := none
        completedAt := none
        completedBy := none
        expiresAt := none }
    paymentDetails :=
      { paymentRequested := true
        paymentRequestedAt := requestedAt
        paymentConfirmed := false
        paymentConfirmedAt := none
        paymentConfirmedBy := none
        paymentStatus := "PENDING"
        paymentMethod := none
        paymentReference := none
        paymentVerified := false
        paymentVerifiedAt := none
        paymentVerifiedBy := none }
    security :=
      { certificateHash := parsedSecurity.certificate_hash.toStored
        serialNumber := serialNumber.toStored
        antiDuplicationHash := parsedSecurity.anti_duplication_hash.toStored
        tamperProof := parsedSecurity.tamper_proof
        securityLevel := parsedSecurity.security_level.toStored
        cryptographicStandard := "SHA-256"
        generatedAt := parsedSecurity.generated_at.toStored }
    compliance :=
      { regulatoryFramework := "INTERNATIONAL_REC_STANDARD"
        certificationBody := "AUTHORIZED_ISSUER"
        trackingSystem := "BLOCKCHAIN_FABRIC"
        serialNumber := serialNumber.toStored
        antiDuplicationVerified := parsedSecurity.certificate_hash.truthy
        energyDataValidated := true }
    auditTrail :=
      { createdAt := requestedAt
        createdBy := buyerId
        lastModified := requestedAt
        transactionId := txId
        requestTimestamp := requestedAt
        workflowStep := "STEP_1_CERTIFICATE_REQUESTED"
        paymentConfirmationTxId := none
        issuanceTxId := none
        completionTxId := none
        transactionConsistency := none } }

/-- The `putState` calls of `requestCertificate`: the certificate, then the hash mapping
when a truthy certificate hash was supplied. -/
def requestWrites (L : Lib) (ctx : Ctx) (certId buyerId : String) (certificate : Certificate)
    (parsedSecurity : ParsedSecurity) : List (String × Doc) :=
  ("CERTIFICATE_" ++ certId, Doc.certificate certificate) ::
    (if parsedSecurity.certificate_hash.truthy then
      [("CERT_HASH_" ++ parsedSecurity.certificate_hash.text L,
        Doc.certHash
          { certificateId := certId
            hash := parsedSecurity.certificate_hash.toStored
            createdAt := L.toISOString (ctx.txTimestampSeconds * 1000)
            buyerId := buyerId })]
    else [])

/-- The error `requestCertificate` throws when the key of the supplied certificate hash
is in use: the message is built with `certificate_hash.substring(0, 16)`, and only a string
has the method `substring`. -/
def duplicationError : JSValue → String
  | .string hash =>
    "DUPLICATION DETECTED: Certificate with hash " ++ substring0 hash 16 ++ "... already exists"
  | _ => notAFunction "parsedSecurity.certificate_hash.substring"

/-- The method `requestCertificate`. -/
def requestCertificate (L : Lib) (ctx : Ctx) (st : Ledger Doc)
    (certId energyId buyerId purchasedAmount securityDataStr : String) :
    TxResult Doc Certificate :=
  let certKey := "CERTIFICATE_" ++ certId
  match getState st certKey with
  | some _ => .fail ("Certificate " ++ certId ++ " already exists")
  | none =>
    let energyKey := "ENERGY_" ++ energyId
    match getState st energyKey with
    | none => .fail ("EnergyData " ++ energyId ++ " does not exist")
    | some (.energyData energyData) =>
      if energyData.status ≠ "VERIFIED" then
        .fail ("EnergyData " ++ energyId ++ " must be VERIFIED before certificate request")
      else
        let parsedSecurity := parseSecurity L ctx certId securityDataStr
        if parsedSecurity.certificate_hash.truthy ∧
            (getState st ("CERT_HASH_" ++ parsedSecurity.certificate_hash.text L)).isSome
        then .fail (duplicationError parsedSecurity.certificate_hash)
        else
          let certificate :=
            newCertificate L ctx certId energyId buyerId purchasedAmount energyData parsedSecurity
          ⟨requestWrites L ctx certId buyerId certificate parsedSecurity, .ok certificate⟩
    | some _ =>
      -- any other document has no member `status`: `undefined !== 'VERIFIED'`
      .fail ("EnergyData " ++ energyId ++ " must be VERIFIED before certificate request")

/-- The payment details `confirmPayment` works with: the defaults, or what the payment
data parses to; `none` when reading `paymentDetails.method` throws. -/
def paymentDetailsOf (L : Lib) (certId paymentDataStr : String) :
    Option (Option String × Option String) :=
  if paymentDataStr = "" then some (some "bank_transfer", some ("PAY_" ++ certId))
  else
    match L.parsePaymentData paymentDataStr with
    | .invalid => some (some "bank_transfer", some ("PAY_" ++ certId))
    | .nullValue => none
    | .value method reference => some (method, reference)

/-- The method `confirmPayment`. -/
def confirmPayment (L : Lib) (ctx : Ctx) (st : Ledger Doc)
    (certId buyerId paymentDataStr : String) : TxResult Doc Certificate :=
  let certKey := "CERTIFICATE_" ++ certId
  match getState st certKey with
  | none => .fail ("Certificate " ++ certId ++ " does not exist")
  | some (.certificate certificate) =>
    if certificate.certificateInfo.status ≠ "CERTIFICATE_REQUESTED" then
      .fail ("Certificate " ++ certId ++ " must be in CERTIFICATE_REQUESTED status. Current: "
        ++ certificate.certificateInfo.status)
    else if certificate.parties.buyer.buyerId ≠ buyerId then
      .fail "Only the buyer can confirm payment"
    else
      match paymentDetailsOf L certId paymentDataStr with
      | none => .fail (typeError "method")
      | some (method, reference) =>
        let paidAt := L.toISOString (ctx.txTimestampSeconds * 1000)
        let txId := ctx.txId
        let paid : Certificate :=
          { certificate with
            lifecycle := { certificate.lifecycle with paidAt := some paidAt, paidBy := some buyerId }
            paymentDetails :=
              { certificate.paymentDetails with
                paymentConfirmed := true
                paymentConfirmedAt := some paidAt
                paymentConfirmedBy := some buyerId
                paymentStatus := "CONFIRMED"
                paymentMethod := method
                paymentReference := reference }
            certificateInfo :=
              { certificate.certificateInfo with
                status := "CERTIFICATE_PAID"
                statusDescription :=
                  "Payment confirmed by buyer - waiting for issuer verification" }
            auditTrail :=
              { certificate.auditTrail with
                lastModified := paidAt
                paymentConfirmationTxId := some txId
                workflowStep := "STEP_2_CERTIFICATE_PAID" } }
        ⟨[(certKey, .certificate paid)], .ok paid⟩
  | some _ => .fail (typeError "status")

/-- The method `issueCertificate`. -/
def issueCertificate (L : Lib) (ctx : Ctx) (st : Ledger Doc) (certId issuerId : String) :
    TxResult Doc Certificate :=
  let certKey := "CERTIFICATE_" ++ certId
  match getState st certKey with
  | none => .fail ("Certificate " ++ certId ++ " does not exist")
  | some (.certificate certificate) =>
    if certificate.certificateInfo.status ≠ "CERTIFICATE_PAID" then
      .fail ("Certificate " ++ certId ++ " must be CERTIFICATE_PAID before issuance. Current: "
        ++ certificate.certificateInfo.status)
    else
      let issuedAt := L.toISOString (ctx.txTimestampSeconds * 1000)
      let expiresAt := L.toISOString (ctx.txTimestampSeconds * 1000 + 365 * 24 * 60 * 60 * 1000)
      let txId := ctx.txId
      let updated : Certificate :=
        { certificate with
          lifecycle :=
            { certificate.lifecycle with
              issuedAt := some issuedAt
              issuedBy := some issuerId
              expiresAt := some expiresAt }
          paymentDetails :=
            { certificate.paymentDetails with
              paymentVerified := true
              paymentVerifiedAt := some issuedAt
              paymentVerifiedBy := some issuerId
              paymentStatus := "VERIFIED" }
          parties :=
            { certificate.parties with
              issuer := { certificate.parties.issuer with issuerId := issuerId } }
          certificateInfo :=
            { certificate.certificateInfo with
              status := "CERTIFICATE_ISSUED"
              statusDescription :=
                "Certificate issued by authorized issuer after payment verification" }
          auditTrail :=
            { certificate.auditTrail with
              lastModified := issuedAt
              issuanceTxId := some txId
              workflowStep := "STEP_3_CERTIFICATE_ISSUED" } }
      let issued : Certificate :=
        { updated with
          auditTrail :=
            { updated.auditTrail with
              transactionConsistency := some
                { txId := txId
                  timestamp := issuedAt
                  function := "issueCertificate"
                  endorser := ctx.mspId
                  stateHash := calculateStateHash L updated } } }
      ⟨[(certKey, .certificate issued)], .ok issued⟩
  | some _ => .fail (typeError "status")

/-- The method `completeCertificate`. -/
def completeCertificate (L : Lib) (ctx : Ctx) (st : Ledger Doc) (certId buyerId : String) :
    TxResult Doc Certificate :=
  let certKey := "CERTIFICATE_" ++ certId
  match getState st certKey with
  | none => .fail ("Certificate " ++ certId ++ " does not exist")
  | some (.certificate certificate) =>
    if certificate.certificateInfo.status ≠ "CERTIFICATE_ISSUED" then
      .fail ("Certificate " ++ certId ++ " must be CERTIFICATE_ISSUED before completion. Current: "
        ++ certificate.certificateInfo.status)
    else if certificate.parties.buyer.buyerId ≠ buyerId then
      .fail "Only the buyer can complete this certificate"
    else
      let completedAt := L.toISOString (ctx.txTimestampSeconds * 1000)
      let txId := ctx.txId
      let completed : Certificate :=
        { certificate with
          lifecycle :=
            { certificate.lifecycle with
              completedAt := some completedAt
              completedBy := some buyerId }
          certificateInfo :=
            { certificate.certificateInfo with
              status := "COMPLETED"
              statusDescription := "Certificate completed and activated by buyer" }
          auditTrail :=
            { certificate.auditTrail with
              lastModified := completedAt
              completionTxId := some txId
              workflowStep := "STEP_4_COMPLETED" } }
      ⟨[(certKey, .certificate completed)], .ok completed⟩
  | some _ => .fail (typeError "status")

/-- The method `getCertificateById`. -/
def getCertificateById (st : Ledger Doc) (certId : String) : TxResult Doc Doc :=
  match getState st ("CERTIFICATE_" ++ certId) with
  | none => .fail ("Certificate " ++ certId ++ " does not exist")
  | some d => ⟨[], .ok d⟩

/-- An invocation of a state-changing method of `chaincode/src`. -/
inductive Op where
  | submitEnergyData (id amount_kwh source_type timestamp location generatorId : String)
  | verifyEnergyData (energyId issuerId : String)
  | requestCertificate (certId energyId buyerId purchasedAmount securityDataStr : String)
  | confirmPayment (certId buyerId paymentDataStr : String)
  | issueCertificate (certId issuerId : String)
  | completeCertificate (certId buyerId : String)
deriving DecidableEq

/-- The world state after one invocation is committed. -/
def step (L : Lib) (ctx : Ctx) (st : Ledger Doc) : Op → Ledger Doc
  | .submitEnergyData id amount_kwh source_type timestamp location generatorId =>
    commit st (submitEnergyData L ctx st id amount_kwh source_type timestamp location generatorId)
  | .verifyEnergyData energyId issuerId => commit st (verifyEnergyData L ctx st energyId issuerId)
  | .requestCertificate certId energyId buyerId purchasedAmount securityDataStr =>
    commit st (requestCertificate L ctx st certId energyId buyerId purchasedAmount securityDataStr)
  | .confirmPayment certId buyerId paymentDataStr =>
    commit st (confirmPayment L ctx st certId buyerId paymentDataStr)
  | .issueCertificate certId issuerId => commit st (issueCertificate L ctx st certId issuerId)
  | .completeCertificate certId buyerId => commit st (completeCertificate L ctx st certId buyerId)

/-- The world state after a sequence of invocations, each with its transaction context. -/
def run (L : Lib) (st : Ledger Doc) : List (Ctx × Op) → Ledger Doc
  | [] => st
  | (ctx, op) :: rest => run L (step L ctx st op) rest

end Chaincode

namespace ChaincodeRec

/-! ## Documents of `chaincode/rec/src` -/

/-- The member `energyGeneration` of an energy record. -/
structure EnergyGeneration where
  amount : Option ℚ
  unit : String
  sourceType : String
  generationDate : String
  location : String
deriving DecidableEq

/-- The member `generator` of an energy record. -/
structure Generator where
  generatorId : String
  organizationType : String
deriving DecidableEq

/-- The member `certificationStatus` of an energy record. -/
structure CertificationStatus where
  status : String
  statusDescription : String
  submittedAt : String
  verifiedAt : Option String
  verifiedBy : Option String
  verificationNotes : Option String
deriving DecidableEq

/-- The member `auditTrail` of an energy record. -/
structure EnergyAuditTrail where
  createdAt : String
  createdBy : String
  lastModified : String
  transactionId : String
  verificationTxId : Option String
deriving DecidableEq

/-- The member `compliance` of an energy record. -/
structure EnergyCompliance where
  regulatoryFramework : String
  certificationBody : String
  validityPeriod : String
deriving DecidableEq

/-- The energy record `submitEnergyData` stores under `ENERGY_<id>`. -/
structure EnergyData where
  documentType : String
  energyDataId : String
  version : String
  energyGeneration : EnergyGeneration
  generator : Generator
  certificationStatus : CertificationStatus
  auditTrail : EnergyAuditTrail
  compliance : EnergyCompliance
deriving DecidableEq

/-- The member `certificateInfo` of a certificate. -/
structure CertificateInfo where
  status : String
  statusDescription : String
  amount : Option ℚ
  unit : String
  sourceType : String
  location : String
deriving DecidableEq

/-- The member `parties.generator` of a certificate. -/
structure GeneratorParty where
  generatorId : Option String
  role : String
deriving DecidableEq

/-- The member `parties.issuer` of a certificate. -/
structure IssuerParty where
  issuerId : String
  role : String
deriving DecidableEq

/-- The member `parties.buyer` of a certificate. -/
structure BuyerParty where
  buyerId : String
  role : String
deriving DecidableEq

/-- The member `parties` of a certificate. -/
structure Parties where
  generator : GeneratorParty
  issuer : IssuerParty
  buyer : BuyerParty
deriving DecidableEq

/-- The member `security` of a certificate. -/
structure Security where
  certificate_hash : JSValue
  serial_number : JSValue
  security_level : JSValue
deriving DecidableEq

/-- The member `auditTrail` of a certificate. -/
structure CertificateAuditTrail where
  createdAt : String
  createdBy : String
  lastModified : String
  transactionId : String
  paymentTxId : Option String
  issuanceTxId : Option String
  completionTxId : Option String
deriving DecidableEq

/-- The certificate `requestCertificate` stores under `CERTIFICATE_<certId>`. -/
structure Certificate where
  documentType : String
  certificateId : String
  version : String
  certificateInfo : CertificateInfo
  parties : Parties
  security : Security
  auditTrail : CertificateAuditTrail
deriving DecidableEq

/-- The member `requestDetails` of a buy request. -/
structure RequestDetails where
  energyDataId : String
  requestedAmount : Option ℚ
  unit : String
  pricePerKwh : Option ℚ
  totalPrice : Option ℚ
  currency : String
deriving DecidableEq

/-- A member of `parties` of a buy request. -/
structure BuyerRef where
  buyerId : String
  organizationType : String
deriving DecidableEq

/-- The member `parties` of a buy request. -/
structure RequestParties where
  buyer : BuyerRef
  generator : Generator
deriving DecidableEq

/-- The member `requestStatus` of a buy request. -/
structure RequestStatus where
  status : String
  statusDescription : String
  createdAt : String
  paidAt : Option String
  verifiedAt : Option String
  completedAt : Option String
deriving DecidableEq

/-- The member `paymentInfo` of a buy request. -/
structure PaymentInfo where
  paymentStatus : String
  paymentMethod : Option String
  paymentReference : Option String
  paymentVerifiedBy : Option String
  paidAt : Option String
  verificationNotes : Option String
deriving DecidableEq

/-- The member `auditTrail` of a buy request. -/
structure RequestAuditTrail where
  createdAt : String
  createdBy : String
  lastModified : String
  transactionId : String
  paymentTxId : Option String
  verificationTxId : Option String
  completionTxId : Option String
deriving DecidableEq

/-- The buy request `createBuyRequest` stores under `BUY_REQUEST_<requestId>`. -/
structure BuyRequest where
  documentType : String
  requestId : String
  version : String
  requestDetails : RequestDetails
  parties : RequestParties
  requestStatus : RequestStatus
  paymentInfo : PaymentInfo
  auditTrail : RequestAuditTrail
  certificateId : Option String
deriving DecidableEq

/-- A document of the world state of `chaincode/rec`. -/
inductive Doc where
  | energyData (e : EnergyData)
  | certificate (c : Certificate)
  | buyRequest (b : BuyRequest)
deriving DecidableEq

/-- The members `requestCertificate` reads at the top level of the document stored under
`ENERGY_<energyId>`. -/
structure TopLevel where
  status : Option String
  amount : Option ℚ
  unit : Option String
  sourceType : Option String
  location : Option String
  generatorId : Option String
deriving DecidableEq

/-- The top-level members of a stored document. No document of this package has a member
`status`, `amount`, `unit`, `sourceType`, `location` or `generatorId` at its top level:
the energy record keeps them inside `energyGeneration`, `generator` and
`certificationStatus`. -/
def Doc.topLevel : Doc → TopLevel
  | .energyData _ => ⟨none, none, none, none, none, none⟩
  | .certificate _ => ⟨none, none, none, none, none, none⟩
  | .buyRequest _ => ⟨none, none, none, none, none, none⟩

/-! ## `EnergyDataContract` (chaincode/rec/src/energyDataContract.js) -/

/-- The method `submitEnergyData`. -/
def submitEnergyData (L : Lib) (ctx : Ctx) (st : Ledger Doc)
    (id amount_kwh source_type timestamp location generatorId : String) :
    TxResult Doc EnergyData :=
  let key := "ENERGY_" ++ id
  match getState st key with
  | some _ => .fail ("EnergyData " ++ id ++ " already exists")
  | none =>
    let createdAt := L.toISOString (ctx.txTimestampSeconds * 1000)
    let energyData : EnergyData :=
      { documentType := "RENEWABLE_ENERGY_DATA"
        energyDataId := id
        version := "1.0"
        energyGeneration :=
          { amount := (L.parseFloat amount_kwh).toStored
            unit := "kWh"
            sourceType := L.toUpperCase source_type
            generationDate := timestamp
            location := location }
        generator :=
          { generatorId := generatorId
            organizationType := "RENEWABLE_ENERGY_GENERATOR" }
        certificationStatus :=
          { status := "PENDING_VERIFICATION"
            statusDescription := "Awaiting verification by authorized issuer"
            submittedAt := createdAt
            verifiedAt := none
            verifiedBy := none
            verificationNotes := none }
        auditTrail :=
          { createdAt := createdAt
            createdBy := generatorId
            lastModified := createdAt
            transactionId := ctx.txId
            verificationTxId := none }
        compliance :=
          { regulatoryFramework := "INTERNATIONAL_REC_STANDARD"
            certificationBody := "AUTHORIZED_ISSUER"
            validityPeriod := "12_MONTHS" } }
    ⟨[(key, .energyData energyData)], .ok energyData⟩

/-- The method `verifyEnergyData`. -/
def verifyEnergyData (L : Lib) (ctx : Ctx) (st : Ledger Doc) (id issuerId : String) :
    TxResult Doc EnergyData :=
  let key := "ENERGY_" ++ id
  match getState st key with
  | none => .fail ("EnergyData " ++ id ++ " does not exist")
  | some (.energyData energyData) =>
    if energyData.certificationStatus.status ≠ "PENDING_VERIFICATION" then
      .fail ("EnergyData " ++ id ++ " sudah diverifikasi atau tidak dalam status pending")
    else
      let verifiedAt := L.toISOString (ctx.txTimestampSeconds * 1000)
      let verified : EnergyData :=
        { energyData with
          certificationStatus :=
            { status := "VERIFIED"
              statusDescription := "Energy data successfully verified by authorized issuer"
              submittedAt := energyData.certificationStatus.submittedAt
              verifiedAt := some verifiedAt
              verifiedBy := some issuerId
              verificationNotes :=
                some "Data telah diverifikasi sesuai standar REC internasional" }
          auditTrail :=
            { energyData.auditTrail with
              lastModified := verifiedAt
              verificationTxId := some ctx.txId } }
      ⟨[(key, .energyData verified)], .ok verified⟩
  | some _ => .fail (typeError "status")

/-! ## `CertificateContract` (chaincode/rec/src/certificateContract.js) -/

/-- The local object `securityData` of `requestCertificate`: `none` when the text parses
to `null`, so that reading a member of it throws. -/
def securityDataOf (L : Lib) (securityDataStr : String) : Option SecurityFields :=
  if securityDataStr = "" then
    some ⟨.undefined, .undefined, .undefined, .undefined, .undefined⟩
  else
    match L.parseSecurityData securityDataStr with
    | .invalid => some ⟨.undefined, .undefined, .undefined, .undefined, .undefined⟩
    | .nullValue => none
    | .value own _ => some own

/-- The method `requestCertificate`. -/
def requestCertificate (L : Lib) (ctx : Ctx) (st : Ledger Doc)
    (certId energyId buyerId securityDataStr : String) : TxResult Doc Certificate :=
  let certKey := "CERTIFICATE_" ++ certId
  match getState st certKey with
  | some _ => .fail ("Certificate " ++ certId ++ " already exists")
  | none =>
    let energyKey := "ENERGY_" ++ energyId
    match getState st energyKey with
    | none => .fail ("EnergyData " ++ energyId ++ " does not exist")
    | some energyDoc =>
      let energyData := energyDoc.topLevel
      if energyData.status ≠ some "VERIFIED" then
        .fail ("EnergyData " ++ energyId ++ " must be VERIFIED before certificate request")
      else
        match securityDataOf L securityDataStr with
        | none => .fail (typeError "certificate_hash")
        | some securityData =>
          let requestedAt := L.toISOString (ctx.txTimestampSeconds * 1000)
          let certificate : Certificate :=
            { documentType := "RENEWABLE_ENERGY_CERTIFICATE"
              certificateId := certId
              version := "1.0"
              certificateInfo :=
                { status := "CERTIFICATE_REQUESTED"
                  statusDescription := "Certificate request submitted by buyer"
                  amount := energyData.amount
                  unit := optOr energyData.unit "MWh"
                  sourceType := optOr energyData.sourceType "SOLAR"
                  location := optOr energyData.location "Indonesia" }
              parties :=
                { generator := { generatorId := energyData.generatorId, role := "GENERATOR" }
                  issuer := { issuerId := "ISSUER001", role := "ISSUER" }
                  buyer := { buyerId := buyerId, role := "BUYER" } }
              security :=
                { certificate_hash := securityData.certificate_hash.toStored
                  serial_number := securityData.serial_number.toStored
                  security_level := (securityData.security_level.or "HIGH").toStored }
              auditTrail :=
                { createdAt := requestedAt
                  createdBy := buyerId
                  lastModified := requestedAt
                  transactionId := ctx.txId
                  paymentTxId := none
                  issuanceTxId := none
                  completionTxId := none } }
          ⟨[(certKey, .certificate certificate)], .ok certificate⟩

/-- The method `confirmPayment`. -/
def confirmPayment (L : Lib) (ctx : Ctx) (st : Ledger Doc) (certId buyerId : String) :
    TxResult Doc Certificate :=
  let certKey := "CERTIFICATE_" ++ certId
  match getState st certKey with
  | none => .fail ("Certificate " ++ certId ++ " does not exist")
  | some (.certificate certificate) =>
    if certificate.certificateInfo.status ≠ "CERTIFICATE_REQUESTED" then
      .fail ("Certificate " ++ certId ++ " must be in CERTIFICATE_REQUESTED status")
    else if certificate.parties.buyer.buyerId ≠ buyerId then
      .fail "Only the buyer can confirm payment"
    else
      let paidAt := L.toISOString (ctx.txTimestampSeconds * 1000)
      let paid : Certificate :=
        { certificate with
          certificateInfo :=
            { certificate.certificateInfo with
              status := "CERTIFICATE_PAID"
              statusDescription := "Payment confirmed by buyer" }
          auditTrail :=
            { certificate.auditTrail with
              lastModified := paidAt
              paymentTxId := some ctx.txId } }
      ⟨[(certKey, .certificate paid)], .ok paid⟩
  | some _ => .fail (typeError "status")

/-- The method `issueCertificate`. -/
def issueCertificate (L : Lib) (ctx : Ctx) (st : Ledger Doc) (certId issuerId : String) :
    TxResult Doc Certificate :=
  let certKey := "CERTIFICATE_" ++ certId
  match getState st certKey with
  | none => .fail ("Certificate " ++ certId ++ " does not exist")
  | some (.certificate certificate) =>
    if certificate.certificateInfo.status ≠ "CERTIFICATE_PAID" then
      .fail ("Certificate " ++ certId ++ " must be CERTIFICATE_PAID before issuance")
    else
      let issuedAt := L.toISOString (ctx.txTimestampSeconds * 1000)
      let issued : Certificate :=
        { certificate with
          certificateInfo :=
            { certificate.certificateInfo with
              status := "CERTIFICATE_ISSUED"
              statusDescription := "Certificate issued by authorized issuer" }
          parties :=
            { certificate.parties with
              issuer := { certificate.parties.issuer with issuerId := issuerId } }
          auditTrail :=
            { certificate.auditTrail with
              lastModified := issuedAt
              issuanceTxId := some ctx.txId } }
      ⟨[(certKey, .certificate issued)], .ok issued⟩
  | some _ => .fail (typeError "status")

/-- The method `completeCertificate`. -/
def completeCertificate (L : Lib) (ctx : Ctx) (st : Ledger Doc) (certId buyerId : String) :
    TxResult Doc Certificate :=
  let certKey := "CERTIFICATE_" ++ certId
  match getState st certKey with
  | none => .fail ("Certificate " ++ certId ++ " does not exist")
  | some (.certificate certificate) =>
    if certificate.certificateInfo.status ≠ "CERTIFICATE_ISSUED" then
      .fail ("Certificate " ++ certId ++ " must be CERTIFICATE_ISSUED before completion")
    else if certificate.parties.buyer.buyerId ≠ buyerId then
      .fail "Only the buyer can complete this certificate"
    else
      let completedAt := L.toISOString (ctx.txTimestampSeconds * 1000)
      let completed : Certificate :=
        { certificate with
          certificateInfo :=
            { certificate.certificateInfo with
              status := "COMPLETED"
              statusDescription := "Certificate completed by buyer" }
          auditTrail :=
            { certificate.auditTrail with
              lastModified := completedAt
              completionTxId := some ctx.txId } }
      ⟨[(certKey, .certificate completed)], .ok completed⟩
  | some _ => .fail (typeError "status")

/-! ## `BuyRequestContract` (chaincode/rec/src/buyRequestContract.js) -/

/-- The comparison `x > y` of a number with a stored number (`null` converts to `0`). -/
def jsGreater : JSNum → Option ℚ → Bool
  | .nan, _ => false
  | .posInf, _ => true
  | .negInf, _ => false
  | .fin a, some b => decide (b < a)
  | .fin a, none => decide (0 < a)

/-- The method `createBuyRequest`. -/
def createBuyRequest (L : Lib) (ctx : Ctx) (st : Ledger Doc)
    (requestId energyDataId buyerId requestedAmount pricePerKwh : String) :
    TxResult Doc BuyRequest :=
  let requestKey := "BUY_REQUEST_" ++ requestId
  match getState st requestKey with
  | some _ => .fail ("Buy request " ++ requestId ++ " already exists")
  | none =>
    let energyKey := "ENERGY_" ++ energyDataId
    match getState st energyKey with
    | none => .fail ("Energy data " ++ energyDataId ++ " does not exist")
    | some (.energyData energyData) =>
      if energyData.certificationStatus.status ≠ "VERIFIED" then
        .fail ("Energy data " ++ energyDataId ++ " has not been verified yet")
      else
        let requestedAmountFloat := L.parseFloat requestedAmount
        if jsGreater requestedAmountFloat energyData.energyGeneration.amount then
          .fail ("Requested amount (" ++ requestedAmount ++ " kWh) exceeds available amount ("
            ++ storedToString L energyData.energyGeneration.amount ++ " kWh)")
        else
          let createdAt := L.toISOString (ctx.txTimestampSeconds * 1000)
          let totalPrice := L.multiply requestedAmountFloat (L.parseFloat pricePerKwh)
          let buyRequest : BuyRequest :=
            { documentType := "BUY_REQUEST"
              requestId := requestId
              version := "1.0"
              requestDetails :=
                { energyDataId := energyDataId
                  requestedAmount := requestedAmountFloat.toStored
                  unit := "kWh"
                  pricePerKwh := (L.parseFloat pricePerKwh).toStored
                  totalPrice := totalPrice.toStored
                  currency := "USD" }
              parties :=
                { buyer := { buyerId := buyerId, organizationType := "ENERGY_BUYER" }
                  generator :=
                    { generatorId := energyData.generator.generatorId
                      organizationType := "RENEWABLE_ENERGY_GENERATOR" } }
              requestStatus :=
                { status := "PENDING_PAYMENT"
                  statusDescription := "Buy request created, awaiting payment"
                  createdAt := createdAt
                  paidAt := none
                  verifiedAt := none
                  completedAt := none }
              paymentInfo :=
                { paymentStatus := "PENDING"
                  paymentMethod := none
                  paymentReference := none
                  paymentVerifiedBy := none
                  paidAt := none
                  verificationNotes := none }
              auditTrail :=
                { createdAt := createdAt
                  createdBy := buyerId
                  lastModified := createdAt
                  transactionId := ctx.txId
                  paymentTxId := none
                  verificationTxId := none
                  completionTxId := none }
              certificateId := none }
          ⟨[(requestKey, .buyRequest buyRequest)], .ok buyRequest⟩
    | some _ => .fail (typeError "status")

/-- The method `makePayment`. -/
def makePayment (L : Lib) (ctx : Ctx) (st : Ledger Doc)
    (requestId paymentMethod paymentReference : String) : TxResult Doc BuyRequest :=
  let requestKey := "BUY_REQUEST_" ++ requestId
  match getState st requestKey with
  | none => .fail ("Buy request " ++ requestId ++ " does not exist")
  | some (.buyRequest buyRequest) =>
    if buyRequest.requestStatus.status ≠ "PENDING_PAYMENT" then
      .fail ("Buy request " ++ requestId ++ " is not in pending payment status")
    else
      let paidAt := L.toISOString (ctx.txTimestampSeconds * 1000)
      let paid : BuyRequest :=
        { buyRequest with
          paymentInfo :=
            { paymentStatus := "PAID"
              paymentMethod := some paymentMethod
              paymentReference := some paymentReference
              paymentVerifiedBy := none
              paidAt := some paidAt
              verificationNotes := none }
          requestStatus :=
            { buyRequest.requestStatus with
              status := "PAYMENT_VERIFICATION"
              statusDescription := "Payment made, awaiting verification by issuer"
              paidAt := some paidAt }
          auditTrail :=
            { buyRequest.auditTrail with
              lastModified := paidAt
              paymentTxId := some ctx.txId } }
      ⟨[(requestKey, .buyRequest paid)], .ok paid⟩
  | some _ => .fail (typeError "status")

/-- The method `verifyPayment`. -/
def verifyPayment (L : Lib) (ctx : Ctx) (st : Ledger Doc)
    (requestId issuerId verificationNotes : String) : TxResult Doc BuyRequest :=
  let requestKey := "BUY_REQUEST_" ++ requestId
  match getState st requestKey with
  | none => .fail ("Buy request " ++ requestId ++ " does not exist")
  | some (.buyRequest buyRequest) =>
    if buyRequest.requestStatus.status ≠ "PAYMENT_VERIFICATION" then
      .fail ("Buy request " ++ requestId ++ " is not in payment verification status")
    else
      let verifiedAt := L.toISOString (ctx.txTimestampSeconds * 1000)
      let verified : BuyRequest :=
        { buyRequest with
          paymentInfo :=
            { buyRequest.paymentInfo with
              paymentVerifiedBy := some issuerId
              verificationNotes := some verificationNotes }
          requestStatus :=
            { buyRequest.requestStatus with
              status := "VERIFIED"
              statusDescription := "Payment verified, ready for certificate issuance"
              verifiedAt := some verifiedAt }
          auditTrail :=
            { buyRequest.auditTrail with
              lastModified := verifiedAt
              verificationTxId := some ctx.txId } }
      ⟨[(requestKey, .buyRequest verified)], .ok verified⟩
  | some _ => .fail (typeError "status")

/-- The method `completeBuyRequest`. -/
def completeBuyRequest (L : Lib) (ctx : Ctx) (st : Ledger Doc)
    (requestId certificateId : String) : TxResult Doc BuyRequest :=
  let requestKey := "BUY_REQUEST_" ++ requestId
  match getState st requestKey with
  | none => .fail ("Buy request " ++ requestId ++ " does not exist")
  | some (.buyRequest buyRequest) =>
    if buyRequest.requestStatus.status ≠ "VERIFIED" then
      .fail ("Buy request " ++ requestId ++ " is not in verified status")
    else
      let completedAt := L.toISOString (ctx.txTimestampSeconds * 1000)
      let completed : BuyRequest :=
        { buyRequest with
          requestStatus :=
            { buyRequest.requestStatus with
              status := "COMPLETED"
              statusDescription := "Buy request completed, certificate issued"
              completedAt := some completedAt }
          certificateId := some certificateId
          auditTrail :=
            { buyRequest.auditTrail with
              lastModified := completedAt
              completionTxId := some ctx.txId } }
      ⟨[(requestKey, .buyRequest completed)], .ok completed⟩
  | some _ => .fail (typeError "status")

/-- An invocation of a state-changing method of `chaincode/rec`. -/
inductive Op where
  | submitEnergyData (id amount_kwh source_type timestamp location generatorId : String)
  | verifyEnergyData (id issuerId : String)
  | requestCertificate (certId energyId buyerId securityDataStr : String)
  | confirmPayment (certId buyerId : String)
  | issueCertificate (certId issuerId : String)
  | completeCertificate (certId buyerId : String)
  | createBuyRequest (requestId energyDataId buyerId requestedAmount pricePerKwh : String)
  | makePayment (requestId paymentMethod paymentReference : String)
  | verifyPayment (requestId issuerId verificationNotes : String)
  | completeBuyRequest (requestId certificateId : String)
deriving DecidableEq

/-- The world state after one invocation is committed. -/
def step (L : Lib) (ctx : Ctx) (st : Ledger Doc) : Op → Ledger Doc
  | .submitEnergyData id amount_kwh source_type timestamp location generatorId =>
    commit st (submitEnergyData L ctx st id amount_kwh source_type timestamp location generatorId)
  | .verifyEnergyData id issuerId => commit st (verifyEnergyData L ctx st id issuerId)
  | .requestCertificate certId energyId buyerId securityDataStr =>
    commit st (requestCertificate L ctx st certId energyId buyerId securityDataStr)
  | .confirmPayment certId buyerId => commit st (confirmPayment L ctx st certId buyerId)
  | .issueCertificate certId issuerId => commit st (issueCertificate L ctx st certId issuerId)
  | .completeCertificate certId buyerId => commit st (completeCertificate L ctx st certId buyerId)
  | .createBuyRequest requestId energyDataId buyerId requestedAmount pricePerKwh =>
    commit st (createBuyRequest L ctx st requestId energyDataId buyerId requestedAmount pricePerKwh)
  | .makePayment requestId paymentMethod paymentReference =>
    commit st (makePayment L ctx st requestId paymentMethod paymentReference)
  | .verifyPayment requestId issuerId verificationNotes =>
    commit st (verifyPayment L ctx st requestId issuerId verificationNotes)
  | .completeBuyRequest requestId certificateId =>
    commit st (completeBuyRequest L ctx st requestId certificateId)

/-- The world state after a sequence of invocations, each with its transaction context. -/
def run (L : Lib) (st : Ledger Doc) : List (Ctx × Op) → Ledger Doc
  | [] => st
  | (ctx, op) :: rest => run L (step L ctx st op) rest

end ChaincodeRec

/-! ## A reference instance of the runtime

`Node.lib` implements the runtime functions for evaluating the operations on concrete
inputs: SHA-256 as specified in FIPS 180-4 over the UTF-8 bytes of the text; `parseFloat`
and `Number::toString` on decimal numerals (exact on the numerals used here, which have
few digits); ASCII case mapping and whitespace; `Date` in UTC; `JSON.parse` on payment
data that are objects whose members are strings or objects of strings, and on security data
that are strings, numbers, literals or objects whose members are strings, numbers, literals
or objects of those. -/

namespace Node

/-- The UTF-8 bytes of a character. -/
def utf8Char (c : Char) : List Nat :=
  let n := c.toNat
  if n < 128 then [n]
  else if n < 2048 then [192 + n / 64, 128 + n % 64]
  else if n < 65536 then [224 + n / 4096, 128 + n / 64 % 64, 128 + n % 64]
  else [240 + n / 262144, 128 + n / 4096 % 64, 128 + n / 64 % 64, 128 + n % 64]

/-- The UTF-8 bytes of a text. -/
def utf8 (s : String) : List Nat := s.data.flatMap utf8Char

/-- The modulus of 32-bit words. -/
def word : Nat := 4294967296

/-- Rotation of a 32-bit word to the right. -/
def rotr (x n : Nat) : Nat := ((x >>> n) ||| (x <<< (32 - n))) % word

/-- The round constants of SHA-256. -/
def roundConstants : List Nat :=
  [0x428a2f98, 0x71374491, 0xb5c0fbcf, 0xe9b5dba5, 0x3956c25b, 0x59f111f1, 0x923f82a4, 0xab1c5ed5,
   0xd807aa98, 0x12835b01, 0x243185be, 0x550c7dc3, 0x72be5d74, 0x80deb1fe, 0x9bdc06a7, 0xc19bf174,
   0xe49b69c1, 0xefbe4786, 0x0fc19dc6, 0x240ca1cc, 0x2de92c6f, 0x4a7484aa, 0x5cb0a9dc, 0x76f988da,
   0x983e5152, 0xa831c66d, 0xb00327c8, 0xbf597fc7, 0xc6e00bf3, 0xd5a79147, 0x06ca6351, 0x14292967,
   0x27b70a85, 0x2e1b2138, 0x4d2c6dfc, 0x53380d13, 0x650a7354, 0x766a0abb, 0x81c2c92e, 0x92722c85,
   0xa2bfe8a1, 0xa81a664b, 0xc24b8b70, 0xc76c51a3, 0xd192e819, 0xd6990624, 0xf40e3585, 0x106aa070,
   0x19a4c116, 0x1e376c08, 0x2748774c, 0x34b0bcb5, 0x391c0cb3, 0x4ed8aa4a, 0x5b9cca4f, 0x682e6ff3,
   0x748f82ee, 0x78a5636f, 0x84c87814, 0x8cc70208, 0x90befffa, 0xa4506ceb, 0xbef9a3f7, 0xc67178f2]

/-- The message schedule, newest word first: `n` more words after the ones given. -/
def schedule : Nat → List Nat → List Nat
  | 0, ws => ws
  | n + 1, ws =>
    match ws with
    | _ :: w2 :: _ :: _ :: _ :: _ :: w7 :: _ :: _ :: _ :: _ :: _ :: _ :: _ :: w15 :: w16 :: _ =>
      let s0 := rotr w15 7 ^^^ rotr w15 18 ^^^ (w15 >>> 3)
      let s1 := rotr w2 17 ^^^ rotr w2 19 ^^^ (w2 >>> 10)
      schedule n (((w16 + s0 + w7 + s1) % word) :: ws)
    | _ => ws

/-- The eight working variables of SHA-256. -/
structure Vars where
  a : Nat
  b : Nat
  c : Nat
  d : Nat
  e : Nat
  f : Nat
  g : Nat
  h : Nat
deriving DecidableEq

/-- One round of the compression function, with its constant and schedule word. -/
def shaRound (s : Vars) (kw : Nat × Nat) : Vars :=
  let s1 := rotr s.e 6 ^^^ rotr s.e 11 ^^^ rotr s.e 25
  let ch := (s.e &&& s.f) ^^^ ((4294967295 - s.e) &&& s.g)
  let t1 := (s.h + s1 + ch + kw.1 + kw.2) % word
  let s0 := rotr s.a 2 ^^^ rotr s.a 13 ^^^ rotr s.a 22
  let mj := (s.a &&& s.b) ^^^ (s.a &&& s.c) ^^^ (s.b &&& s.c)
  let t2 := (s0 + mj) % word
  ⟨(t1 + t2) % word, s.a, s.b, s.c, (s.d + t1) % word, s.e, s.f, s.g⟩

/-- The compression function on one block of sixteen words. -/
def compress (s : Vars) (block : List Nat) : Vars :=
  let ws := (schedule 48 block.reverse).reverse
  let r := (roundConstants.zip ws).foldl shaRound s
  ⟨(s.a + r.a) % word, (s.b + r.b) % word, (s.c + r.c) % word, (s.d + r.d) % word,
   (s.e + r.e) % word, (s.f + r.f) % word, (s.g + r.g) % word, (s.h + r.h) % word⟩

/-- The initial hash value of SHA-256. -/
def initialVars : Vars :=
  ⟨0x6a09e667, 0xbb67ae85, 0x3c6ef372, 0xa54ff53a, 0x510e527f, 0x9b05688c, 0x1f83d9ab, 0x5be0cd19⟩

/-- Big-endian 32-bit words of a byte string. -/
def toWords : List Nat → List Nat
  | a :: b :: c :: d :: rest => (a * 16777216 + b * 65536 + c * 256 + d) :: toWords rest
  | _ => []

/-- The first `n` blocks of sixteen words. -/
def toBlocks : Nat → List Nat → List (List Nat)
  | 0, _ => []
  | n + 1, ws => ws.take 16 :: toBlocks n (ws.drop 16)

/-- The padded message: a `1` bit, zeros, and the bit length in 64 bits. -/
def pad (bytes : List Nat) : List Nat :=
  let l := bytes.length
  let bits := l * 8
  bytes ++ [128] ++ List.replicate ((119 - l % 64) % 64) 0 ++
    [bits / 72057594037927936 % 256, bits / 281474976710656 % 256, bits / 1099511627776 % 256,
     bits / 4294967296 % 256, bits / 16777216 % 256, bits / 65536 % 256, bits / 256 % 256,
     bits % 256]

/-- The SHA-256 state after the whole message. -/
def sha256 (bytes : List Nat) : Vars :=
  let p := pad bytes
  (toBlocks (p.length / 64) (toWords p)).foldl compress initialVars

/-- The eight hexadecimal digits of a 32-bit word. -/
def hexWord (w : Nat) : List Char :=
  [hexDigit (w / 268435456 % 16), hexDigit (w / 16777216 % 16), hexDigit (w / 1048576 % 16),
   hexDigit (w / 65536 % 16), hexDigit (w / 4096 % 16), hexDigit (w / 256 % 16),
   hexDigit (w / 16 % 16), hexDigit (w % 16)]

/-- The hex digest of the UTF-8 bytes of a text. -/
def sha256Hex (s : String) : String :=
  let v := sha256 (utf8 s)
  ⟨hexWord v.a ++ hexWord v.b ++ hexWord v.c ++ hexWord v.d
    ++ hexWord v.e ++ hexWord v.f ++ hexWord v.g ++ hexWord v.h⟩

/-- A decimal digit. -/
def isDigit (c : Char) : Bool := decide (48 ≤ c.toNat ∧ c.toNat ≤ 57)

/-- White space that `trim` and `parseFloat` skip. -/
def isSpace (c : Char) : Bool :=
  decide (c.toNat = 32 ∨ (9 ≤ c.toNat ∧ c.toNat ≤ 13) ∨ c.toNat = 160 ∨ c.toNat = 5760
    ∨ (8192 ≤ c.toNat ∧ c.toNat ≤ 8202) ∨ c.toNat = 8232 ∨ c.toNat = 8233 ∨ c.toNat = 8239
    ∨ c.toNat = 8287 ∨ c.toNat = 12288 ∨ c.toNat = 65279)

/-- The number a string of decimal digits denotes. -/
def digitsValue (cs : List Char) : Nat := cs.foldl (fun n c => 10 * n + (c.toNat - 48)) 0

/-- The exponent part of a decimal literal: `e` or `E`, an optional sign and digits;
`0` when there is none. -/
def exponentOf : List Char → Int
  | c :: rest =>
    if c = 'e' ∨ c = 'E' then
      match rest with
      | '-' :: ds => if (ds.takeWhile isDigit).isEmpty then 0 else - (digitsValue (ds.takeWhile isDigit) : Int)
      | '+' :: ds => (digitsValue (ds.takeWhile isDigit) : Int)
      | ds => (digitsValue (ds.takeWhile isDigit) : Int)
    else 0
  | [] => 0

/-- The rational `m * 10 ^ e`. -/
def scale10 (m : Nat) (e : Int) : ℚ :=
  match e with
  | .ofNat k => ((m * 10 ^ k : Nat) : ℚ)
  | .negSucc k => mkRat m (10 ^ (k + 1))

/-- The value of an unsigned decimal literal at the front of the text, `NaN` when the text
does not start with one. -/
def parseUnsigned (cs : List Char) : JSNum :=
  if "Infinity".data.isPrefixOf cs then .posInf
  else
    let ip := cs.takeWhile isDigit
    let r1 := cs.dropWhile isDigit
    let fp := match r1 with
      | '.' :: r => r.takeWhile isDigit
      | _ => []
    let r2 := match r1 with
      | '.' :: r => r.dropWhile isDigit
      | r => r
    if ip.isEmpty ∧ fp.isEmpty then .nan
    else .fin (scale10 (digitsValue (ip ++ fp)) (exponentOf r2 - fp.length))

/-- The negation of a number. -/
def negate : JSNum → JSNum
  | .nan => .nan
  | .posInf => .negInf
  | .negInf => .posInf
  | .fin q => .fin (-q)

/-- The function `parseFloat`: leading white space is skipped and the longest decimal
literal at the front is read. -/
def parseFloat (s : String) : JSNum :=
  match s.data.dropWhile isSpace with
  | '-' :: r => negate (parseUnsigned r)
  | '+' :: r => parseUnsigned r
  | r => parseUnsigned r

/-- The fraction digits of `r / d` by long division, at most `fuel` of them. -/
def fractionDigits : Nat → Nat → Nat → List Char
  | 0, _, _ => []
  | fuel + 1, r, d =>
    if r = 0 then [] else hexDigit (r * 10 / d) :: fractionDigits fuel (r * 10 % d) d

/-- The text of a finite number: the integer part and, when there is one, the decimal
fraction. -/
def numberToString (q : ℚ) : String :=
  let n := q.num.natAbs
  let sign := if q.num < 0 then "-" else ""
  if q.den = 1 then sign ++ Nat.repr n
  else sign ++ Nat.repr (n / q.den) ++ "." ++ ⟨fractionDigits 30 (n % q.den) q.den⟩

/-- Upper case of an ASCII letter. -/
def upperChar (c : Char) : Char :=
  if 97 ≤ c.toNat ∧ c.toNat ≤ 122 then Char.ofNat (c.toNat - 32) else c

/-- Lower case of an ASCII letter. -/
def lowerChar (c : Char) : Char :=
  if 65 ≤ c.toNat ∧ c.toNat ≤ 90 then Char.ofNat (c.toNat + 32) else c

/-- The method `toUpperCase` on ASCII letters. -/
def toUpperCase (s : String) : String := ⟨s.data.map upperChar⟩

/-- The method `toLowerCase` on ASCII letters. -/
def toLowerCase (s : String) : String := ⟨s.data.map lowerChar⟩

/-- The method `trim`. -/
def trim (s : String) : String :=
  ⟨((s.data.dropWhile isSpace).reverse.dropWhile isSpace).reverse⟩

/-- A natural number in decimal, padded with zeros to `width` digits. -/
def padded (width n : Nat) : String :=
  ⟨List.replicate (width - (Nat.repr n).length) '0'⟩ ++ Nat.repr n

/-- The civil date (year, month, day) of a day count from 1970-01-01. -/
def civilFromDays (days : Int) : Int × Int × Int :=
  let z := days + 719468
  let era := z / 146097
  let doe := z - era * 146097
  let yoe := (doe - doe / 1460 + doe / 36524 - doe / 146096) / 365
  let doy := doe - (365 * yoe + yoe / 4 - yoe / 100)
  let mp := (5 * doy + 2) / 153
  let d := doy - (153 * mp + 2) / 5 + 1
  let m := if mp < 10 then mp + 3 else mp - 9
  (yoe + era * 400 + (if m ≤ 2 then 1 else 0), m, d)

/-- The year of an instant, in UTC, as a template literal prints it. -/
def getFullYear (ms : Int) : String :=
  let y := (civilFromDays (ms / 86400000)).1
  if y < 0 then "-" ++ Nat.repr y.natAbs else Nat.repr y.natAbs

/-- The year as `toISOString` prints it: four digits, or a sign and six digits. -/
def isoYear (y : Int) : String :=
  if y < 0 then "-" ++ padded 6 y.natAbs
  else if y ≤ 9999 then padded 4 y.natAbs
  else "+" ++ padded 6 y.natAbs

/-- The method `toISOString` of the instant `ms` milliseconds after the epoch. -/
def toISOString (ms : Int) : String :=
  let date := civilFromDays (ms / 86400000)
  let t := (ms % 86400000).natAbs
  isoYear date.1 ++ "-" ++ padded 2 date.2.1.natAbs ++ "-" ++ padded 2 date.2.2.natAbs
    ++ "T" ++ padded 2 (t / 3600000) ++ ":" ++ padded 2 (t / 60000 % 60) ++ ":"
    ++ padded 2 (t / 1000 % 60) ++ "." ++ padded 3 (t % 1000) ++ "Z"

/-- The product of two numbers, exact on finite operands. -/
def multiply : JSNum → JSNum → JSNum
  | .fin a, .fin b => .fin (a * b)
  | .nan, _ => .nan
  | _, .nan => .nan
  | .fin a, .posInf => if a = 0 then .nan else if 0 < a then .posInf else .negInf
  | .fin a, .negInf => if a = 0 then .nan else if 0 < a then .negInf else .posInf
  | .posInf, .fin b => if b = 0 then .nan else if 0 < b then .posInf else .negInf
  | .negInf, .fin b => if b = 0 then .nan else if 0 < b then .negInf else .posInf
  | .posInf, .posInf => .posInf
  | .negInf, .negInf => .posInf
  | .posInf, .negInf => .negInf
  | .negInf, .posInf => .negInf

/-- White space of JSON texts. -/
def isJsonSpace (c : Char) : Bool := decide (c = ' ' ∨ c = '\t' ∨ c = '\n' ∨ c = '\r')

/-- The rest of a JSON string literal after its opening quote: the string it denotes and
the text after the closing quote. -/
def readString : List Char → List Char → Option (String × List Char)
  | [], _ => none
  | '"' :: rest, acc => some (⟨acc.reverse⟩, rest)
  | '\\' :: c :: rest, acc =>
    if c = '"' ∨ c = '\\' ∨ c = '/' then readString rest (c :: acc)
    else if c = 'n' then readString rest ('\n' :: acc)
    else if c = 't' then readString rest ('\t' :: acc)
    else if c = 'r' then readString rest ('\r' :: acc)
    else none
  | c :: rest, acc => if c.toNat < 32 then none else readString rest (c :: acc)

/-- The members of an object whose members are all strings, after its opening brace. -/
def readStringMembers : Nat → List Char → List (String × String) →
    Option (List (String × String) × List Char)
  | 0, _, _ => none
  | fuel + 1, cs, acc =>
    match cs.dropWhile isJsonSpace with
    | '}' :: rest => if acc.isEmpty then some ([], rest) else none
    | '"' :: rest =>
      match readString rest [] with
      | none => none
      | some (k, r1) =>
        match r1.dropWhile isJsonSpace with
        | ':' :: r2 =>
          match r2.dropWhile isJsonSpace with
          | '"' :: r3 =>
            match readString r3 [] with
            | none => none
            | some (v, r4) =>
              match r4.dropWhile isJsonSpace with
              | ',' :: r5 => readStringMembers fuel r5 (acc ++ [(k, v)])
              | '}' :: r5 => some (acc ++ [(k, v)], r5)
              | _ => none
          | _ => none
        | _ => none
    | _ => none

/-- A member of a parsed object: a string, or an object of strings. -/
inductive Member where
  | str (s : String)
  | obj (members : List (String × String))

/-- The members of an object, after its opening brace. -/
def readMembers : Nat → List Char → List (String × Member) →
    Option (List (String × Member) × List Char)
  | 0, _, _ => none
  | fuel + 1, cs, acc =>
    match cs.dropWhile isJsonSpace with
    | '}' :: rest => if acc.isEmpty then some ([], rest) else none
    | '"' :: rest =>
      match readString rest [] with
      | none => none
      | some (k, r1) =>
        match r1.dropWhile isJsonSpace with
        | ':' :: r2 =>
          let value : Option (Member × List Char) :=
            match r2.dropWhile isJsonSpace with
            | '"' :: r3 => (readString r3 []).map (fun p => (Member.str p.1, p.2))
            | '{' :: r3 => (readStringMembers (r3.length + 1) r3 []).map (fun p => (Member.obj p.1, p.2))
            | _ => none
          match value with
          | none => none
          | some (v, r4) =>
            match r4.dropWhile isJsonSpace with
            | ',' :: r5 => readMembers fuel r5 (acc ++ [(k, v)])
            | '}' :: r5 => some (acc ++ [(k, v)], r5)
            | _ => none
        | _ => none
    | _ => none

/-- The value of the last member named `k` that is a string. -/
def stringMember (ms : List (String × Member)) (k : String) : Option String :=
  match ms.reverse.find? (fun m => m.1 = k) with
  | some (_, .str s) => some s
  | _ => none

/-- The object a JSON text denotes, for a text that is one object whose members are strings
or objects of strings. -/
def parseObject (s : String) : Option (List (String × Member)) :=
  match s.data.dropWhile isJsonSpace with
  | '{' :: rest =>
    match readMembers (rest.length + 1) rest [] with
    | some (ms, r) => if (r.dropWhile isJsonSpace).isEmpty then some ms else none
    | none => none
  | _ => none

/-- Whether the text is the JSON literal `null`. -/
def isNullText (s : String) : Bool :=
  ((s.data.dropWhile isJsonSpace).reverse.dropWhile isJsonSpace).reverse = "null".data

/-- The exponent part of a JSON number and the text after it: `e` or `E`, an optional sign
and at least one digit; the exponent `0` when the text does not start with `e` or `E`. -/
def readExponent : List Char → Option (Int × List Char)
  | [] => some (0, [])
  | c :: rest =>
    if c = 'e' ∨ c = 'E' then
      let digits := match rest with
        | '-' :: ds => ds
        | '+' :: ds => ds
        | ds => ds
      if (digits.takeWhile isDigit).isEmpty then none
      else
        some (match rest with
          | '-' :: _ => - (digitsValue (digits.takeWhile isDigit) : Int)
          | _ => (digitsValue (digits.takeWhile isDigit) : Int),
          digits.dropWhile isDigit)
    else some (0, c :: rest)

/-- The unsigned JSON number at the front of a text and the text after it: an integer part
without a superfluous leading zero, an optional fraction and an optional exponent. The
number is read exactly (the rounding to a double is not applied). -/
def readUnsignedNumber (cs : List Char) : Option (JSNum × List Char) :=
  let ip := cs.takeWhile isDigit
  let r1 := cs.dropWhile isDigit
  if ip.isEmpty ∨ (1 < ip.length ∧ ip.head? = some '0') then none
  else
    let fraction : Option (List Char × List Char) :=
      match r1 with
      | '.' :: r =>
        if (r.takeWhile isDigit).isEmpty then none
        else some (r.takeWhile isDigit, r.dropWhile isDigit)
      | r => some ([], r)
    match fraction with
    | none => none
    | some (fp, r2) =>
      match readExponent r2 with
      | none => none
      | some (e, r3) => some (.fin (scale10 (digitsValue (ip ++ fp)) (e - fp.length)), r3)

/-- The JSON number at the front of a text and the text after it. -/
def readNumber : List Char → Option (JSNum × List Char)
  | '-' :: r => (readUnsignedNumber r).map (fun p => (negate p.1, p.2))
  | r => readUnsignedNumber r

/-- The JSON value at the front of a text that is a string, a number or one of the literals
`true`, `false` and `null`, and the text after it. -/
def readScalar : List Char → Option (JSValue × List Char)
  | '"' :: r => (readString r []).map (fun p => (JSValue.string p.1, p.2))
  | 't' :: 'r' :: 'u' :: 'e' :: r => some (.bool true, r)
  | 'f' :: 'a' :: 'l' :: 's' :: 'e' :: r => some (.bool false, r)
  | 'n' :: 'u' :: 'l' :: 'l' :: r => some (.null, r)
  | r => (readNumber r).map (fun p => (JSValue.number p.1, p.2))

/-- The members of an object whose members are all strings, numbers or literals, after its
opening brace. -/
def readScalarMembers : Nat → List Char → List (String × JSValue) →
    Option (List (String × JSValue) × List Char)
  | 0, _, _ => none
  | fuel + 1, cs, acc =>
    match cs.dropWhile isJsonSpace with
    | '}' :: rest => if acc.isEmpty then some ([], rest) else none
    | '"' :: rest =>
      match readString rest [] with
      | none => none
      | some (k, r1) =>
        match r1.dropWhile isJsonSpace with
        | ':' :: r2 =>
          match readScalar (r2.dropWhile isJsonSpace) with
          | none => none
          | some (v, r4) =>
            match r4.dropWhile isJsonSpace with
            | ',' :: r5 => readScalarMembers fuel r5 (acc ++ [(k, v)])
            | '}' :: r5 => some (acc ++ [(k, v)], r5)
            | _ => none
        | _ => none
    | _ => none

/-- A member of parsed security data: a string, number or literal, or an object of
those. -/
inductive SecurityMember where
  | scalar (v : JSValue)
  | obj (members : List (String × JSValue))

/-- The members of the security data, after the opening brace. -/
def readSecurityMembers : Nat → List Char → List (String × SecurityMember) →
    Option (List (String × SecurityMember) × List Char)
  | 0, _, _ => none
  | fuel + 1, cs, acc =>
    match cs.dropWhile isJsonSpace with
    | '}' :: rest => if acc.isEmpty then some ([], rest) else none
    | '"' :: rest =>
      match readString rest [] with
      | none => none
      | some (k, r1) =>
        match r1.dropWhile isJsonSpace with
        | ':' :: r2 =>
          let value : Option (SecurityMember × List Char) :=
            match r2.dropWhile isJsonSpace with
            | '{' :: r3 =>
              (readScalarMembers (r3.length + 1) r3 []).map
                (fun p => (SecurityMember.obj p.1, p.2))
            | r3 => (readScalar r3).map (fun p => (SecurityMember.scalar p.1, p.2))
          match value with
          | none => none
          | some (v, r4) =>
            match r4.dropWhile isJsonSpace with
            | ',' :: r5 => readSecurityMembers fuel r5 (acc ++ [(k, v)])
            | '}' :: r5 => some (acc ++ [(k, v)], r5)
            | _ => none
        | _ => none
    | _ => none

/-- The security data a JSON text denotes, for a text that is one object whose members are
strings, numbers, literals or objects of those. -/
def parseSecurityObject (s : String) : Option (List (String × SecurityMember)) :=
  match s.data.dropWhile isJsonSpace with
  | '{' :: rest =>
    match readSecurityMembers (rest.length + 1) rest [] with
    | some (ms, r) => if (r.dropWhile isJsonSpace).isEmpty then some ms else none
    | none => none
  | _ => none

/-- The value of the member named `k` of an object of strings, numbers and literals (the
last one of that name), `undefined` when there is none. -/
def scalarMember (ms : List (String × JSValue)) (k : String) : JSValue :=
  match ms.reverse.find? (fun m => m.1 = k) with
  | some (_, v) => v
  | none => .undefined

/-- The security fields among the members of an object of strings, numbers and literals. -/
def fieldsOfScalars (ms : List (String × JSValue)) : SecurityFields :=
  ⟨scalarMember ms "certificate_hash", scalarMember ms "serial_number",
    scalarMember ms "security_level", scalarMember ms "anti_duplication_hash",
    scalarMember ms "generated_at"⟩

/-- The value of the member named `k` of the security data (the last one of that name):
`undefined` when there is none, `none` when it is an object. -/
def securityMember (ms : List (String × SecurityMember)) (k : String) : Option JSValue :=
  match ms.reverse.find? (fun m => m.1 = k) with
  | some (_, .scalar v) => some v
  | some (_, .obj _) => none
  | none => some .undefined

/-- The security fields among the members of the security data, `none` when one of them is
an object. -/
def fieldsOfMembers (ms : List (String × SecurityMember)) : Option SecurityFields :=
  match securityMember ms "certificate_hash", securityMember ms "serial_number",
    securityMember ms "security_level", securityMember ms "anti_duplication_hash",
    securityMember ms "generated_at" with
  | some h, some n, some l, some a, some g => some ⟨h, n, l, a, g⟩
  | _, _, _, _, _ => none

/-- The function `JSON.parse` on security data, on the texts that are a string, a number,
a literal, or an object `parseSecurityObject` reads whose five security members at the top
level are not objects; any other text is reported as one `JSON.parse` rejects. -/
def parseSecurityData (s : String) : SecurityJSON :=
  if isNullText s then .nullValue
  else
    match parseSecurityObject s with
    | none =>
      -- a string, a number or a boolean has none of the members
      match readScalar (s.data.dropWhile isJsonSpace) with
      | some (_, r) =>
        if (r.dropWhile isJsonSpace).isEmpty then
          .value ⟨.undefined, .undefined, .undefined, .undefined, .undefined⟩ none
        else .invalid
      | none => .invalid
    | some ms =>
      match fieldsOfMembers ms with
      | none => .invalid
      | some own =>
        match ms.reverse.find? (fun m => m.1 = "security") with
        | some (_, .obj inner) => .value own (some (fieldsOfScalars inner))
        | some (_, .scalar v) =>
          .value own
            (if v.truthy then
              some ⟨.undefined, .undefined, .undefined, .undefined, .undefined⟩
            else none)
        | none => .value own none

/-- The function `JSON.parse` on payment data, on the texts `parseObject` reads; any other
text is reported as one `JSON.parse` rejects. -/
def parsePaymentData (s : String) : PaymentJSON :=
  if isNullText s then .nullValue
  else
    match parseObject s with
    | none => .invalid
    | some ms => .value (stringMember ms "method") (stringMember ms "reference")

/-- The reference runtime. -/
def lib : Lib :=
  { sha256Hex := sha256Hex
    parseFloat := parseFloat
    numberToString := numberToString
    toUpperCase := toUpperCase
    toLowerCase := toLowerCase
    trim := trim
    toISOString := toISOString
    getFullYear := getFullYear
    multiply := multiply
    parseSecurityData := parseSecurityData
    parsePaymentData := parsePaymentData }

end Node

end REC

namespace REC
namespace Chaincode

/-- The certificate statuses in lifecycle order. -/
def lifecycle : List String :=
  ["CERTIFICATE_REQUESTED", "CERTIFICATE_PAID", "CERTIFICATE_ISSUED", "COMPLETED"]

/-- One step forward in the certificate lifecycle. -/
def NextStatus (s s' : String) : Prop :=
  (s = "CERTIFICATE_REQUESTED" ∧ s' = "CERTIFICATE_PAID")
    ∨ (s = "CERTIFICATE_PAID" ∧ s' = "CERTIFICATE_ISSUED")
    ∨ (s = "CERTIFICATE_ISSUED" ∧ s' = "COMPLETED")

/-- What `confirmPayment`, `issueCertificate` and `completeCertificate` do to a stored
certificate: the status moves one step forward, and the identity of the certificate, its
buyer and generator, its energy reference and its security data stay as they are. -/
structure Advance (c c' : Certificate) : Prop where
  status : NextStatus c.certificateInfo.status c'.certificateInfo.status
  documentType : c'.documentType = c.documentType
  certificateId : c'.certificateId = c.certificateId
  buyer : c'.parties.buyer = c.parties.buyer
  generator : c'.parties.generator = c.parties.generator
  energyReference : c'.energyReference = c.energyReference
  security : c'.security = c.security

/-- What `verifyEnergyData` does to a stored record: only the status and the verification
members change. -/
def Verified (e e' : EnergyData) : Prop :=
  e.status = "PENDING" ∧
    ∃ verifiedAt verifiedBy verificationTxId verification,
      e' = { e with
        status := "VERIFIED"
        verifiedAt := verifiedAt
        verifiedBy := verifiedBy
        verificationTxId := verificationTxId
        verification := verification }

/-- How one committed invocation changes the world state, on a runtime `L`. -/
inductive Effect (L : Lib) (st st' : Ledger Doc) : Prop where
  /-- The invocation failed, or wrote nothing. -/
  | unchanged (h : st' = st)
  /-- A successful `submitEnergyData`: the record and its hash mapping are written under
  two keys that held nothing. -/
  | submitted (id hash : String) (e : EnergyData) (m : HashMapping)
      (hkey : getState st ("ENERGY_" ++ id) = none)
      (hhash : getState st ("ENERGY_HASH_" ++ hash) = none)
      (hid : e.energyDataId = id) (heh : e.energyDataHash = hash)
      (hstatus : e.status = "PENDING")
      (hmid : m.energyDataId = id) (hmh : m.energyDataHash = hash)
      (hst : st' = putState (putState st ("ENERGY_" ++ id) (.energyData e))
        ("ENERGY_HASH_" ++ hash) (.energyHash m))
  /-- A successful `verifyEnergyData`: a pending record is replaced by its verified form. -/
  | verified (id : String) (e e' : EnergyData)
      (hkey : getState st ("ENERGY_" ++ id) = some (.energyData e))
      (hver : Verified e e')
      (hst : st' = putState st ("ENERGY_" ++ id) (.energyData e'))
  /-- A successful `requestCertificate`: a certificate in status CERTIFICATE_REQUESTED is
  written under a key that held nothing, and, when its certificate hash is truthy, a hash
  mapping that names it under the key of that hash, which held nothing; a stored hash that
  is falsy and not `null` has no mapping (a supplied number that is not finite is stored as
  `null` and has one). -/
  | requested (certId : String) (c : Certificate) (ws : List (String × Doc))
      (hkey : getState st ("CERTIFICATE_" ++ certId) = none)
      (hstatus : c.certificateInfo.status = "CERTIFICATE_REQUESTED")
      (hws : ws = [] ∨ ∃ hk m, ws = [(hk, Doc.certHash m)] ∧ getState st hk = none)
      (hst : st' = applyWrites (putState st ("CERTIFICATE_" ++ certId) (.certificate c)) ws)
      (hcid : c.certificateId = certId)
      (hsupplied : c.security.certificateHash.truthy = true →
        ∃ m : CertHashMapping, m.certificateId = certId ∧
          ws = [("CERT_HASH_" ++ c.security.certificateHash.text L, Doc.certHash m)])
      (hunsupplied : c.security.certificateHash.truthy = false →
        c.security.certificateHash ≠ .null → ws = [])
  /-- A successful `confirmPayment`, `issueCertificate` or `completeCertificate`. -/
  | advanced (certId : String) (c c' : Certificate)
      (hkey : getState st ("CERTIFICATE_" ++ certId) = some (.certificate c))
      (hadv : Advance c c')
      (hst : st' = putState st ("CERTIFICATE_" ++ certId) (.certificate c'))

/-- Every stored energy record has its hash mapping: the key `ENERGY_HASH_<hash>` of its
hash holds a mapping that names the id of the record. -/
def HashIndexed (st : Ledger Doc) : Prop :=
  ∀ k e, getState st k = some (.energyData e) →
    ∃ m : HashMapping, getState st ("ENERGY_HASH_" ++ e.energyDataHash) = some (.energyHash m)
      ∧ m.energyDataId = e.energyDataId

end Chaincode
end REC

namespace REC
namespace Chaincode

/-! ## Sample values for evaluating the operations -/

/-- A transaction context: 2024-01-01T00:00:00Z, on a peer whose clock is half a second ahead. -/
def sampleCtx : Ctx :=
  { txTimestampSeconds := 1704067200, txId := "a3f1c29b7d5e4f60", now := 1704067200500,
    mspId := "IssuerMSP" }

/-- The submission of the sample energy record `E1`. -/
def submitE1 : TxResult Doc EnergyData :=
  submitEnergyData Node.lib sampleCtx [] "E1" "100" "SOLAR" "2024-01-01" "Jakarta" "G1"

/-- The world state that holds the energy record `E1`, pending. -/
def ledgerE1 : Ledger Doc := commit [] submitE1

/-- The world state that holds the energy record `E1`, verified by `I1`. -/
def ledgerVerified : Ledger Doc :=
  commit ledgerE1 (verifyEnergyData Node.lib sampleCtx ledgerE1 "E1" "I1")

/-- The record `submitE1` stores and returns. -/
def recordE1 : EnergyData :=
  { docType := "energyData"
    energyDataId := "E1"
    amount := some 100
    unit := "kWh"
    sourceType := "SOLAR"
    generationDate := "2024-01-01"
    location := "Jakarta"
    generatorId := "G1"
    status := "PENDING"
    createdAt := "2024-01-01T00:00:00.000Z"
    transactionId := "a3f1c29b7d5e4f60"
    energyDataHash := "93b9c20ebbf212d4de6972ba1ce8b40380798d7986b6ea8b15edd9adbcea6039"
    serialNumber := "ENERGY-G1-93b9c20e"
    integrity :=
      { originalHash := "93b9c20ebbf212d4de6972ba1ce8b40380798d7986b6ea8b15edd9adbcea6039"
        submissionTxId := "a3f1c29b7d5e4f60"
        submissionTimestamp := "2024-01-01T00:00:00.000Z"
        dataFingerprint := "93b9c20ebbf212d4de6972ba1ce8b40380798d7986b6ea8b15edd9adbcea6039" }
    verifiedAt := none
    verifiedBy := none
    verificationTxId := none
    verification := none }

/-- A second record, of another generator. -/
def recordE2 : EnergyData :=
  { docType := "energyData"
    energyDataId := "E2"
    amount := some 250
    unit := "kWh"
    sourceType := "WIND"
    generationDate := "2024-01-02"
    location := "Bandung"
    generatorId := "G2"
    status := "PENDING"
    createdAt := "2024-01-01T00:00:00.000Z"
    transactionId := "a3f1c29b7d5e4f60"
    energyDataHash := "77d7bbb5c77c59563e55e562b68bf39aa2f831c7ab1e29db30cc131d4c1a4a5c"
    serialNumber := "ENERGY-G2-77d7bbb5"
    integrity :=
      { originalHash := "77d7bbb5c77c59563e55e562b68bf39aa2f831c7ab1e29db30cc131d4c1a4a5c"
        submissionTxId := "a3f1c29b7d5e4f60"
        submissionTimestamp := "2024-01-01T00:00:00.000Z"
        dataFingerprint := "77d7bbb5c77c59563e55e562b68bf39aa2f831c7ab1e29db30cc131d4c1a4a5c" }
    verifiedAt := none
    verifiedBy := none
    verificationTxId := none
    verification := none }

/-- Two submissions, of `E1` and of `E2`. -/
def twoSubmissions : List (Ctx × Op) :=
  [(sampleCtx, .submitEnergyData "E1" "100" "SOLAR" "2024-01-01" "Jakarta" "G1"),
   (sampleCtx, .submitEnergyData "E2" "250" "wind" "2024-01-02" "Bandung" "G2")]

end Chaincode
end REC

namespace REC
namespace Chaincode

/-- The status of the certificate stored under a key, when the key holds a certificate. -/
def statusAt (st : Ledger Doc) (k : String) : Option String :=
  match getState st k with
  | some (.certificate c) => some c.certificateInfo.status
  | _ => none

/-- The world states a sequence of invocations visits, the first one included. -/
def trace (L : Lib) (st : Ledger Doc) : List (Ctx × Op) → List (Ledger Doc)
  | [] => [st]
  | (ctx, op) :: rest => st :: trace L (step L ctx st op) rest

/-- The statuses the certificate under key `k` takes over time, one for each visited state
in which the certificate exists. -/
def statusHistory (L : Lib) (st : Ledger Doc) (txs : List (Ctx × Op)) (k : String) :
    List String :=
  (trace L st txs).filterMap (fun s => statusAt s k)

/-- A list with consecutive repetitions removed. -/
def squash : List String → List String
  | a :: b :: rest => if a = b then squash (b :: rest) else a :: squash (b :: rest)
  | l => l

/-- The part of the lifecycle that starts at a status. -/
def lifecycleFrom (s : String) : List String := lifecycle.dropWhile (fun x => x ≠ s)

/-- The sample certificate workflow: `E1` is submitted and verified, certificate `C1` is
requested by buyer `B1`, paid, issued by `I1` and completed. -/
def sampleWorkflow : List (Ctx × Op) :=
  [(sampleCtx, .submitEnergyData "E1" "100" "SOLAR" "2024-01-01" "Jakarta" "G1"),
   (sampleCtx, .verifyEnergyData "E1" "I1"),
   (sampleCtx, .requestCertificate "C1" "E1" "B1" "50" ""),
   (sampleCtx, .confirmPayment "C1" "B1" ""),
   (sampleCtx, .issueCertificate "C1" "I1"),
   (sampleCtx, .completeCertificate "C1" "B1")]

end Chaincode
end REC

namespace REC
namespace Chaincode

/-- The certificate stored under a key, when the key holds a certificate. -/
def certificateAt (st : Ledger Doc) (k : String) : Option Certificate :=
  match getState st k with
  | some (.certificate c) => some c
  | _ => none

/-- The world state in which certificate `C1` of buyer `B1` has been requested against the
verified record `E1`: the first three invocations of the sample workflow. -/
def ledgerRequested : Ledger Doc := run Node.lib [] (sampleWorkflow.take 3)

/-- The record `E1` as `verifyEnergyData` stores it. -/
def verifiedE1 : EnergyData :=
  { recordE1 with
    status := "VERIFIED"
    verifiedAt := some "2024-01-01T00:00:00.000Z"
    verifiedBy := some "I1"
    verificationTxId := some "a3f1c29b7d5e4f60"
    verification := some
      { verifiedAt := "2024-01-01T00:00:00.000Z"
        verifiedBy := "I1"
        verificationTxId := "a3f1c29b7d5e4f60"
        integrityConfirmed := true
        hashValidated := true } }

/-- The certificate `C1` as `requestCertificate` stores it in `ledgerRequested`. -/
def certificateC1 : Certificate :=
  newCertificate Node.lib sampleCtx "C1" "E1" "B1" "50" verifiedE1
    (parseSecurity Node.lib sampleCtx "C1" "")

end Chaincode

namespace ChaincodeRec

/-- The world state of `chaincode/rec` that holds the energy record `E1` of 100 kWh,
verified by `I1`. -/
def ledgerVerified : Ledger Doc :=
  run Node.lib []
    [(Chaincode.sampleCtx, .submitEnergyData "E1" "100" "SOLAR" "2024-01-01" "Jakarta" "G1"),
     (Chaincode.sampleCtx, .verifyEnergyData "E1" "I1")]

end ChaincodeRec
end REC

namespace REC
namespace Chaincode

/-- The members of an energy record that identify it: its id, the five hashed members and
the stored hash. -/
def SameIdentity (e e' : EnergyData) : Prop :=
  e'.energyDataId = e.energyDataId ∧ e'.amount = e.amount ∧ e'.sourceType = e.sourceType
    ∧ e'.generationDate = e.generationDate ∧ e'.location = e.location
    ∧ e'.generatorId = e.generatorId ∧ e'.energyDataHash = e.energyDataHash

/-- The world state `ledgerVerified` after an out-of-band change of the stored location of
`E1` from "Jakarta" to "JAKARTA". -/
def tamperedLocation : Ledger Doc :=
  putState ledgerVerified "ENERGY_E1" (.energyData { verifiedE1 with location := "JAKARTA" })

/-- The world state `ledgerVerified` after an out-of-band change of the stored amount of
`E1` from 100 to 999. -/
def tamperedAmount : Ledger Doc :=
  putState ledgerVerified "ENERGY_E1" (.energyData { verifiedE1 with amount := some 999 })

end Chaincode
end REC

namespace REC
namespace Chaincode

/-- The member `status` at the top level of a parsed document, `undefined` (`none`) when it
has none: only an energy record has one. -/
def Doc.status : Doc → Option String
  | .energyData e => some e.status
  | .energyHash _ => none
  | .certificate _ => none
  | .certHash _ => none

/-- Every stored certificate with a truthy certificate hash has its hash mapping: the key
`CERT_HASH_<hash>` holds a mapping that names the id of the certificate. -/
def CertHashIndexed (L : Lib) (st : Ledger Doc) : Prop :=
  ∀ k c, getState st k = some (.certificate c) → c.security.certificateHash.truthy = true →
    ∃ m : CertHashMapping,
      getState st ("CERT_HASH_" ++ c.security.certificateHash.text L) = some (.certHash m)
        ∧ m.certificateId = c.certificateId

/-- The id whose key `ENERGY_<id>` is the hash key of the sample tuple. -/
def collidingId : String :=
  "HASH_93b9c20ebbf212d4de6972ba1ce8b40380798d7986b6ea8b15edd9adbcea6039"

/-- The submission of the sample tuple under `collidingId`, on the empty ledger. -/
def submitColliding : TxResult Doc EnergyData :=
  submitEnergyData Node.lib sampleCtx [] collidingId "100" "SOLAR" "2024-01-01" "Jakarta" "G1"

/-- A pending record without a stored hash. -/
def legacyRecord : EnergyData :=
  { recordE1 with energyDataId := "L1", energyDataHash := "" }

/-- A world state that holds the pending record `L1`, which has no stored hash. -/
def legacyLedger : Ledger Doc := putState [] "ENERGY_L1" (.energyData legacyRecord)

/-- The world state `ledgerE1` after an out-of-band change of the stored amount of the
pending record `E1` from 100 to 999. -/
def tamperedPending : Ledger Doc :=
  putState ledgerE1 "ENERGY_E1" (.energyData { recordE1 with amount := some 999 })

/-- Security data that supply the certificate hash `abc123` in a `security` member. -/
def hashSecurity : String :=
  "\x7b\"security\":\x7b\"certificate_hash\":\"abc123\"\x7d\x7d"

/-- Security data that supply the certificate hash `abc123` at the top level. -/
def flatHashSecurity : String := "\x7b\"certificate_hash\":\"abc123\"\x7d"

/-- Security data whose certificate hash is the empty string. -/
def emptyHashSecurity : String := "\x7b\"certificate_hash\":\"\"\x7d"

/-- Two certificate requests against `E1` whose security data carry the empty string as
certificate hash, after `E1` is submitted and verified. -/
def emptyHashWorkflow : List (Ctx × Op) :=
  [(sampleCtx, .submitEnergyData "E1" "100" "SOLAR" "2024-01-01" "Jakarta" "G1"),
   (sampleCtx, .verifyEnergyData "E1" "I1"),
   (sampleCtx, .requestCertificate "C1" "E1" "B1" "50" emptyHashSecurity),
   (sampleCtx, .requestCertificate "C2" "E1" "B2" "10" emptyHashSecurity)]

/-- Two certificate requests against `E1` with different supplied certificate hashes, after
`E1` is submitted and verified. -/
def twoHashWorkflow : List (Ctx × Op) :=
  [(sampleCtx, .submitEnergyData "E1" "100" "SOLAR" "2024-01-01" "Jakarta" "G1"),
   (sampleCtx, .verifyEnergyData "E1" "I1"),
   (sampleCtx, .requestCertificate "C1" "E1" "B1" "50" hashSecurity),
   (sampleCtx, .requestCertificate "C2" "E1" "B2" "10"
      "\x7b\"security\":\x7b\"certificate_hash\":\"def456\"\x7d\x7d")]

/-- The certificate `C1` as the third invocation of `twoHashWorkflow` stores it. -/
def hashCertificateC1 : Certificate :=
  newCertificate Node.lib sampleCtx "C1" "E1" "B1" "50" verifiedE1
    (parseSecurity Node.lib sampleCtx "C1" hashSecurity)

/-- The certificate `C2` as the fourth invocation of `twoHashWorkflow` stores it. -/
def hashCertificateC2 : Certificate :=
  newCertificate Node.lib sampleCtx "C2" "E1" "B2" "10" verifiedE1
    (parseSecurity Node.lib sampleCtx "C2"
      "\x7b\"security\":\x7b\"certificate_hash\":\"def456\"\x7d\x7d")

end Chaincode
end REC

namespace REC

/-- An invocation is atomic on error: when it fails it has made no `putState` call, and
the world state after it is the state before. -/
def Atomic {D α : Type} (st : Ledger D) (r : TxResult D α) : Prop :=
  r.result.isOk = false → r.writes = [] ∧ commit st r = st

/-- Two transaction contexts that agree on everything the ledger supplies (transaction
timestamp, transaction id, caller identity); they may differ in the wall clock of the
executing peer. -/
def SameTransaction (ctx ctx' : Ctx) : Prop :=
  ctx.txTimestampSeconds = ctx'.txTimestampSeconds ∧ ctx.txId = ctx'.txId
    ∧ ctx.mspId = ctx'.mspId

namespace Chaincode

/-- The world state in which certificate `C1` of buyer `B1` is paid: the first four
invocations of the sample workflow. -/
def ledgerPaid : Ledger Doc := run Node.lib [] (sampleWorkflow.take 4)

/-- The world state after the whole sample workflow: certificate `C1` is COMPLETED. -/
def ledgerCompleted : Ledger Doc := run Node.lib [] sampleWorkflow

/-- The sample transaction, invoked by a client of the buyer organisation. -/
def buyerCtx : Ctx := { sampleCtx with mspId := "BuyerMSP" }

/-- The sample transaction, executed on a peer whose wall clock is one millisecond ahead. -/
def laterCtx : Ctx := { sampleCtx with now := 1704067200501 }

/-- The sample transaction, executed on a peer whose wall clock reads 2023-12-31T23:59:59.999Z. -/
def lastYearCtx : Ctx := { sampleCtx with now := 1704067199999 }

end Chaincode

namespace ChaincodeRec

/-- The buy request statuses in lifecycle order. -/
def requestLifecycle : List String :=
  ["PENDING_PAYMENT", "PAYMENT_VERIFICATION", "VERIFIED", "COMPLETED"]

/-- One step forward in the buy request lifecycle. -/
def NextRequestStatus (s s' : String) : Prop :=
  (s = "PENDING_PAYMENT" ∧ s' = "PAYMENT_VERIFICATION")
    ∨ (s = "PAYMENT_VERIFICATION" ∧ s' = "VERIFIED")
    ∨ (s = "VERIFIED" ∧ s' = "COMPLETED")

/-- The status of the buy request stored under a key, when the key holds a buy request. -/
def requestStatusAt (st : Ledger Doc) (k : String) : Option String :=
  match getState st k with
  | some (.buyRequest b) => some b.requestStatus.status
  | _ => none

/-- The world states a sequence of invocations visits, the first one included. -/
def trace (L : Lib) (st : Ledger Doc) : List (Ctx × Op) → List (Ledger Doc)
  | [] => [st]
  | (ctx, op) :: rest => st :: trace L (step L ctx st op) rest

/-- The statuses the buy request under key `k` takes over time, one for each visited state
in which the buy request exists. -/
def requestStatusHistory (L : Lib) (st : Ledger Doc) (txs : List (Ctx × Op)) (k : String) :
    List String :=
  (trace L st txs).filterMap (fun s => requestStatusAt s k)

/-- The part of the buy request lifecycle that starts at a status. -/
def requestLifecycleFrom (s : String) : List String :=
  requestLifecycle.dropWhile (fun x => x ≠ s)

/-- The sample buy request workflow: `E1` is submitted and verified, buy request `R1` of
buyer `B1` for 50 kWh is created, paid, verified by `I1` and completed with certificate
`C1`. -/
def sampleBuyWorkflow : List (Ctx × Op) :=
  [(Chaincode.sampleCtx, .submitEnergyData "E1" "100" "SOLAR" "2024-01-01" "Jakarta" "G1"),
   (Chaincode.sampleCtx, .verifyEnergyData "E1" "I1"),
   (Chaincode.sampleCtx, .createBuyRequest "R1" "E1" "B1" "50" "2"),
   (Chaincode.sampleCtx, .makePayment "R1" "bank_transfer" "REF1"),
   (Chaincode.sampleCtx, .verifyPayment "R1" "I1" "checked"),
   (Chaincode.sampleCtx, .completeBuyRequest "R1" "C1")]

/-- The world state in which buy request `R1` of buyer `B1` awaits payment: the first three
invocations of the sample buy request workflow. -/
def ledgerBuyRequested : Ledger Doc := run Node.lib [] (sampleBuyWorkflow.take 3)

/-- The buy request stored under a key, when the key holds a buy request. -/
def buyRequestAt (st : Ledger Doc) (k : String) : Option BuyRequest :=
  match getState st k with
  | some (.buyRequest b) => some b
  | _ => none

/-- The sample transaction, invoked by a client of the generator organisation. -/
def generatorCtx : Ctx := { Chaincode.sampleCtx with mspId := "GeneratorMSP" }

/-- The world state of `chaincode/rec` that holds the energy record `E1`, submitted and not
yet verified. -/
def ledgerSubmitted : Ledger Doc := run Node.lib [] (sampleBuyWorkflow.take 1)

/-- How a document that replaces a stored one relates to it: it is of the same kind, and
the status of a buy request has moved one step forward. -/
def Replaces : Doc → Doc → Prop
  | .energyData _, .energyData _ => True
  | .certificate _, .certificate _ => True
  | .buyRequest b, .buyRequest b' =>
    NextRequestStatus b.requestStatus.status b'.requestStatus.status
  | _, _ => False

/-- How one committed invocation of `chaincode/rec` changes the world state. -/
inductive RecEffect (st st' : Ledger Doc) : Prop where
  /-- The invocation failed. -/
  | unchanged (h : st' = st)
  /-- A successful create: a document is written under a key that held nothing; a buy
  request starts in status PENDING_PAYMENT. -/
  | created (k : String) (d : Doc) (hkey : getState st k = none)
      (hnew : ∀ b, d = .buyRequest b → b.requestStatus.status = "PENDING_PAYMENT")
      (hst : st' = putState st k d)
  /-- A successful update: the document under a key is replaced. -/
  | replaced (k : String) (d d' : Doc) (hkey : getState st k = some d) (hrel : Replaces d d')
      (hst : st' = putState st k d')

end ChaincodeRec
end REC

namespace REC

/-- The entries `ctx.stub.getStateByRange(startKey, endKey)` iterates over: those with
`startKey ≤ key < endKey`, in the key order of the world state. -/
def getStateByRange {D : Type} (st : Ledger D) (startKey endKey : String) : Ledger D :=
  st.filter (fun p => decide (startKey ≤ p.1) && decide (p.1 < endKey))

namespace Chaincode

/-- The method `getCertificatesByStatus`: of the documents in the key range
`CERTIFICATE_` to `CERTIFICATE_~`, those whose `documentType` is
RENEWABLE_ENERGY_CERTIFICATE and whose `certificateInfo.status` is the given one. A
document that is not a certificate has no `documentType`. -/
def getCertificatesByStatus (st : Ledger Doc) (status : String) :
    TxResult Doc (List Certificate) :=
  ⟨[], .ok
    ((getStateByRange st "CERTIFICATE_" "CERTIFICATE_~").filterMap (fun p =>
      match p.2 with
      | .certificate record =>
        if record.documentType = "RENEWABLE_ENERGY_CERTIFICATE"
            ∧ record.certificateInfo.status = status then some record
        else none
      | _ => none))⟩

/-- Two certificate requests against the verified `E1`, one under the id `~1` and one
under the id `C1`. -/
def tildeWorkflow : List (Ctx × Op) :=
  [(sampleCtx, .submitEnergyData "E1" "100" "SOLAR" "2024-01-01" "Jakarta" "G1"),
   (sampleCtx, .verifyEnergyData "E1" "I1"),
   (sampleCtx, .requestCertificate "~1" "E1" "B1" "50" ""),
   (sampleCtx, .requestCertificate "C1" "E1" "B2" "10" "")]

/-- Payment data that name a method and a reference. -/
def paymentJson : String := "\x7b\"method\":\"card\",\"reference\":\"PAY1\"\x7d"

/-- The end-to-end scenario: `E1` is submitted and verified, certificate `C1` is requested
by buyer `B1` for 50 kWh with security data that carry a certificate hash, paid, issued by
`I1` and completed. -/
def hashWorkflow : List (Ctx × Op) :=
  [(sampleCtx, .submitEnergyData "E1" "100" "SOLAR" "2024-01-01" "Jakarta" "G1"),
   (sampleCtx, .verifyEnergyData "E1" "I1"),
   (sampleCtx, .requestCertificate "C1" "E1" "B1" "50" hashSecurity),
   (sampleCtx, .confirmPayment "C1" "B1" paymentJson),
   (sampleCtx, .issueCertificate "C1" "I1"),
   (sampleCtx, .completeCertificate "C1" "B1")]

/-- The status `getCertificateById` shows for a certificate, `none` when the call fails or
returns a document that is not a certificate. -/
def observedStatus (st : Ledger Doc) (certId : String) : Option String :=
  match (getCertificateById st certId).result with
  | .ok (.certificate c) => some c.certificateInfo.status
  | _ => none

/-- The sum of `energyReference.amount` over the stored certificates that reference an
energy record (an amount stored as `null` counts as 0). -/
def allocated (st : Ledger Doc) (energyId : String) : ℚ :=
  (st.filterMap (fun p =>
    match p.2 with
    | .certificate c =>
      if c.energyReference.energyDataId = energyId then some (c.energyReference.amount.getD 0)
      else none
    | _ => none)).sum

/-- Two certificate requests of 60 kWh each against the verified `E1` of 100 kWh. -/
def overAllocation : List (Ctx × Op) :=
  [(sampleCtx, .submitEnergyData "E1" "100" "SOLAR" "2024-01-01" "Jakarta" "G1"),
   (sampleCtx, .verifyEnergyData "E1" "I1"),
   (sampleCtx, .requestCertificate "C1" "E1" "B1" "60" ""),
   (sampleCtx, .requestCertificate "C2" "E1" "B2" "60" "")]

/-- The world state after the tuple of `E2` is submitted under the id `collidingId`, whose
key `ENERGY_<id>` is the hash key of the tuple of `E1`. -/
def ledgerSquatted : Ledger Doc :=
  run Node.lib []
    [(sampleCtx, .submitEnergyData collidingId "250" "WIND" "2024-01-02" "Bandung" "G2")]

/-- Security data that are not JSON. -/
def malformedSecurity : String := "not json"

/-- Two certificates agree on what binds a certificate to its parties and its energy: the
certificate id, the buyer, the generator, the energy reference and the security data. -/
structure SameBinding (c c' : Certificate) : Prop where
  certificateId : c'.certificateId = c.certificateId
  buyer : c'.parties.buyer = c.parties.buyer
  generator : c'.parties.generator = c.parties.generator
  energyReference : c'.energyReference = c.energyReference
  security : c'.security = c.security

end Chaincode
end REC

namespace REC
namespace Chaincode

/-- Security data whose certificate hash is the number 123. -/
def numberHashSecurity : String := "\x7b\"certificate_hash\":123\x7d"

/-- Security data whose certificate hash is the number 0. -/
def zeroHashSecurity : String := "\x7b\"certificate_hash\":0\x7d"

/-- Security data whose certificate hash is the literal `false`, in a `security` member. -/
def falseHashSecurity : String := "\x7b\"security\":\x7b\"certificate_hash\":false\x7d\x7d"

/-- Two certificate requests against `E1` whose security data carry the number 0 as
certificate hash, after `E1` is submitted and verified. -/
def zeroHashWorkflow : List (Ctx × Op) :=
  [(sampleCtx, .submitEnergyData "E1" "100" "SOLAR" "2024-01-01" "Jakarta" "G1"),
   (sampleCtx, .verifyEnergyData "E1" "I1"),
   (sampleCtx, .requestCertificate "C1" "E1" "B1" "50" zeroHashSecurity),
   (sampleCtx, .requestCertificate "C2" "E1" "B2" "10" zeroHashSecurity)]

/-- Two certificate requests against `E1` whose security data carry the literal `false` as
certificate hash, after `E1` is submitted and verified. -/
def falseHashWorkflow : List (Ctx × Op) :=
  [(sampleCtx, .submitEnergyData "E1" "100" "SOLAR" "2024-01-01" "Jakarta" "G1"),
   (sampleCtx, .verifyEnergyData "E1" "I1"),
   (sampleCtx, .requestCertificate "C1" "E1" "B1" "50" falseHashSecurity),
   (sampleCtx, .requestCertificate "C2" "E1" "B2" "10" falseHashSecurity)]

/-- The world state after certificate `C1` is requested against the verified record `E1`
with the security data `sec`. -/
def ledgerRequestedWith (sec : String) : Ledger Doc :=
  commit ledgerVerified
    (requestCertificate Node.lib sampleCtx ledgerVerified "C1" "E1" "B1" "50" sec)

/-- The world state after the tuple of `E1` with the generator `G2` is submitted under the
id `collidingId`, whose key `ENERGY_<id>` is the hash key of the tuple of `E1`. -/
def ledgerOneFieldSquatted : Ledger Doc :=
  commit []
    (submitEnergyData Node.lib sampleCtx [] collidingId "100" "SOLAR" "2024-01-01" "Jakarta"
      "G2")

end Chaincode
end REC

namespace REC
namespace ChaincodeRec

/-- The energy record stored under a key, when the key holds an energy record. -/
def energyDataAt (st : Ledger Doc) (k : String) : Option EnergyData :=
  match getState st k with
  | some (.energyData e) => some e
  | _ => none

end ChaincodeRec
end REC

/-! ## Properties

All definitions are above this line; what follows are lemmas and theorems about the operations. -/

namespace REC

/-! ### The world state: reading after writing -/

theorem getState_putState {D : Type} (st : Ledger D) (k k' : String) (d : D) :
    getState (putState st k d) k' = if k = k' then some d else getState st k' := by
  induction st with
  | nil => simp [putState, getState]
  | cons p rest ih =>
    obtain ⟨k0, d0⟩ := p
    simp only [putState]
    by_cases h0 : k0 = k
    · subst h0
      by_cases h1 : k0 = k' <;> simp [getState, h1]
    · simp only [h0, if_false]
      by_cases h2 : k < k0
      · simp only [h2, if_true, getState]
      · simp only [h2, if_false, getState, ih]
        by_cases h3 : k0 = k'
        · subst h3
          have h4 : ¬ k = k0 := fun h => h0 h.symm
          simp [h4]
        · simp [h3]

theorem getState_putState_same {D : Type} (st : Ledger D) (k : String) (d : D) :
    getState (putState st k d) k = some d := by
  simp [getState_putState]

theorem getState_putState_other {D : Type} (st : Ledger D) (k k' : String) (d : D)
    (h : k ≠ k') : getState (putState st k d) k' = getState st k' := by
  simp [getState_putState, h]

/-- A key that holds a document still holds one after any write set is applied. -/
theorem getState_applyWrites_isSome {D : Type} (ws : List (String × D)) (st : Ledger D)
    (k : String) (h : (getState st k).isSome) : (getState (applyWrites st ws) k).isSome := by
  induction ws generalizing st with
  | nil => simpa [applyWrites] using h
  | cons w rest ih =>
    obtain ⟨k0, d0⟩ := w
    simp only [applyWrites]
    apply ih
    rw [getState_putState]
    by_cases h0 : k0 = k <;> simp [h0, h]

/-- A key that holds a document still holds one after any transaction is committed. -/
theorem getState_commit_isSome {D α : Type} (st : Ledger D) (r : TxResult D α) (k : String)
    (h : (getState st k).isSome) : (getState (commit st r) k).isSome := by
  unfold commit
  cases r.result with
  | error _ => exact h
  | ok _ => exact getState_applyWrites_isSome _ _ _ h

theorem commit_fail {D α : Type} (st : Ledger D) (msg : String) :
    commit st (TxResult.fail msg : TxResult D α) = st := rfl

end REC

namespace REC

/-- A value is stored as it is, or as `null`. -/
theorem JSValue.toStored_eq_or (v : JSValue) : v.toStored = v ∨ v.toStored = .null := by
  rcases v with _ | _ | b | n | s | ⟨j, t⟩
  · exact Or.inl rfl
  · exact Or.inl rfl
  · exact Or.inl rfl
  · cases n
    · exact Or.inr rfl
    · exact Or.inr rfl
    · exact Or.inr rfl
    · exact Or.inl rfl
  · exact Or.inl rfl
  · exact Or.inl rfl

/-- A value whose stored form is truthy is truthy. -/
theorem JSValue.truthy_of_toStored {v : JSValue} (h : v.toStored.truthy = true) :
    v.truthy = true := by
  rcases JSValue.toStored_eq_or v with h1 | h1
  · rw [← h1]; exact h
  · rw [h1] at h; cases h

/-- A value whose stored form is truthy is stored as it is. -/
theorem JSValue.toStored_of_truthy {v : JSValue} (h : v.toStored.truthy = true) :
    v.toStored = v := by
  rcases JSValue.toStored_eq_or v with h1 | h1
  · exact h1
  · rw [h1] at h; cases h

/-- A stored value is stored as it is. -/
theorem JSValue.toStored_toStored (v : JSValue) : v.toStored.toStored = v.toStored := by
  rcases v with _ | _ | b | n | s | ⟨j, t⟩
  · rfl
  · rfl
  · rfl
  · cases n <;> rfl
  · rfl
  · rfl

/-- A string is stored as it is. -/
theorem JSValue.toStored_string (s : String) : (JSValue.string s).toStored = .string s := rfl

namespace Chaincode

theorem effect_submitEnergyData (L : Lib) (ctx : Ctx) (st : Ledger Doc)
    (id a s t l g : String) :
    Effect L st (commit st (submitEnergyData L ctx st id a s t l g)) := by
  simp only [submitEnergyData]
  cases hk : getState st ("ENERGY_" ++ id) with
  | some d => exact .unchanged rfl
  | none =>
    cases hh : getState st ("ENERGY_HASH_" ++ generateEnergyDataHash L a s t l g) with
    | some d => exact .unchanged rfl
    | none =>
      exact .submitted id (generateEnergyDataHash L a s t l g) _ _ hk hh rfl rfl rfl rfl rfl rfl

theorem effect_verifyEnergyData (L : Lib) (ctx : Ctx) (st : Ledger Doc) (id issuer : String) :
    Effect L st (commit st (verifyEnergyData L ctx st id issuer)) := by
  simp only [verifyEnergyData]
  cases hk : getState st ("ENERGY_" ++ id) with
  | none => exact .unchanged rfl
  | some d =>
    cases d with
    | energyData e =>
      simp only
      split_ifs with h1 h2
      · exact .unchanged rfl
      · exact .unchanged rfl
      · exact .verified id e _ hk ⟨by simpa using h1, _, _, _, _, rfl⟩ rfl
    | energyHash m => exact .unchanged rfl
    | certificate c => exact .unchanged rfl
    | certHash m => exact .unchanged rfl

theorem effect_requestCertificate (L : Lib) (ctx : Ctx) (st : Ledger Doc)
    (certId energyId buyerId amount sec : String) :
    Effect L st (commit st (requestCertificate L ctx st certId energyId buyerId amount sec)) := by
  simp only [requestCertificate]
  cases hk : getState st ("CERTIFICATE_" ++ certId) with
  | some d => exact .unchanged rfl
  | none =>
    cases he : getState st ("ENERGY_" ++ energyId) with
    | none => exact .unchanged rfl
    | some d =>
      cases d with
      | energyData e =>
        simp only
        split_ifs with h1 h2
        · exact .unchanged rfl
        · exact .unchanged rfl
        · by_cases ht : (parseSecurity L ctx certId sec).certificate_hash.truthy = true
          · have h3 : getState st ("CERT_HASH_" ++
                (parseSecurity L ctx certId sec).certificate_hash.text L) = none := by
              cases hg : getState st ("CERT_HASH_" ++
                (parseSecurity L ctx certId sec).certificate_hash.text L) with
              | none => rfl
              | some d => exact absurd ⟨ht, by simp [hg]⟩ h2
            simp only [requestWrites, ht, if_true]
            refine .requested certId _ _ hk rfl (Or.inr ⟨_, _, rfl, h3⟩) rfl rfl ?_ ?_
            · intro hs
              have hs' : (parseSecurity L ctx certId sec).certificate_hash.toStored.truthy
                  = true := by simpa [newCertificate] using hs
              refine ⟨{ certificateId := certId
                        hash := (parseSecurity L ctx certId sec).certificate_hash.toStored
                        createdAt := L.toISOString (ctx.txTimestampSeconds * 1000)
                        buyerId := buyerId }, rfl, ?_⟩
              simp only [newCertificate, JSValue.toStored_of_truthy hs']
            · intro hf hn
              have hf' : (parseSecurity L ctx certId sec).certificate_hash.toStored.truthy
                  = false := by simpa [newCertificate] using hf
              have hn' : (parseSecurity L ctx certId sec).certificate_hash.toStored ≠ .null := by
                simpa [newCertificate] using hn
              rcases JSValue.toStored_eq_or (parseSecurity L ctx certId sec).certificate_hash
                with h | h
              · rw [h, ht] at hf'
                cases hf'
              · exact absurd h hn'
          · simp only [requestWrites, ht]
            refine .requested certId _ [] hk rfl (Or.inl rfl) rfl rfl ?_ (fun _ _ => rfl)
            intro hf
            exact absurd (JSValue.truthy_of_toStored (by simpa [newCertificate] using hf)) ht
      | energyHash m => exact .unchanged rfl
      | certificate c => exact .unchanged rfl
      | certHash m => exact .unchanged rfl

theorem effect_confirmPayment (L : Lib) (ctx : Ctx) (st : Ledger Doc)
    (certId buyerId pay : String) :
    Effect L st (commit st (confirmPayment L ctx st certId buyerId pay)) := by
  simp only [confirmPayment]
  cases hk : getState st ("CERTIFICATE_" ++ certId) with
  | none => exact .unchanged rfl
  | some d =>
    cases d with
    | certificate c =>
      simp only
      split_ifs with h1 h2
      · exact .unchanged rfl
      · exact .unchanged rfl
      · cases hp : paymentDetailsOf L certId pay with
        | none => exact .unchanged rfl
        | some p =>
          obtain ⟨method, reference⟩ := p
          dsimp only
          refine .advanced certId c _ hk ?_ rfl
          exact ⟨Or.inl ⟨by simpa using h1, rfl⟩, rfl, rfl, rfl, rfl, rfl, rfl⟩
    | energyData e => exact .unchanged rfl
    | energyHash m => exact .unchanged rfl
    | certHash m => exact .unchanged rfl

theorem effect_issueCertificate (L : Lib) (ctx : Ctx) (st : Ledger Doc)
    (certId issuerId : String) :
    Effect L st (commit st (issueCertificate L ctx st certId issuerId)) := by
  simp only [issueCertificate]
  cases hk : getState st ("CERTIFICATE_" ++ certId) with
  | none => exact .unchanged rfl
  | some d =>
    cases d with
    | certificate c =>
      simp only
      split_ifs with h1
      · exact .unchanged rfl
      · refine .advanced certId c _ hk ?_ rfl
        exact ⟨Or.inr (Or.inl ⟨by simpa using h1, rfl⟩), rfl, rfl, rfl, rfl, rfl, rfl⟩
    | energyData e => exact .unchanged rfl
    | energyHash m => exact .unchanged rfl
    | certHash m => exact .unchanged rfl

theorem effect_completeCertificate (L : Lib) (ctx : Ctx) (st : Ledger Doc)
    (certId buyerId : String) :
    Effect L st (commit st (completeCertificate L ctx st certId buyerId)) := by
  simp only [completeCertificate]
  cases hk : getState st ("CERTIFICATE_" ++ certId) with
  | none => exact .unchanged rfl
  | some d =>
    cases d with
    | certificate c =>
      simp only
      split_ifs with h1 h2
      · exact .unchanged rfl
      · exact .unchanged rfl
      · refine .advanced certId c _ hk ?_ rfl
        exact ⟨Or.inr (Or.inr ⟨by simpa using h1, rfl⟩), rfl, rfl, rfl, rfl, rfl, rfl⟩
    | energyData e => exact .unchanged rfl
    | energyHash m => exact .unchanged rfl
    | certHash m => exact .unchanged rfl

/-- Every committed invocation has one of the five effects. -/
theorem effect_step (L : Lib) (ctx : Ctx) (st : Ledger Doc) (op : Op) :
    Effect L st (step L ctx st op) := by
  cases op with
  | submitEnergyData id a s t l g => exact effect_submitEnergyData L ctx st id a s t l g
  | verifyEnergyData id issuer => exact effect_verifyEnergyData L ctx st id issuer
  | requestCertificate certId energyId buyerId amount sec =>
    exact effect_requestCertificate L ctx st certId energyId buyerId amount sec
  | confirmPayment certId buyerId pay => exact effect_confirmPayment L ctx st certId buyerId pay
  | issueCertificate certId issuerId => exact effect_issueCertificate L ctx st certId issuerId
  | completeCertificate certId buyerId =>
    exact effect_completeCertificate L ctx st certId buyerId

end Chaincode
end REC

namespace REC
namespace Chaincode

/-- What a committed invocation does to a key that holds a document: the document stays, or
a pending energy record is verified, or a certificate moves one step forward. -/
theorem Effect.get_some {L : Lib} {st st' : Ledger Doc} (h : Effect L st st') {k : String} {d : Doc}
    (hk : getState st k = some d) :
    getState st' k = some d
      ∨ (∃ e e', d = .energyData e ∧ Verified e e' ∧ getState st' k = some (.energyData e'))
      ∨ (∃ c c', d = .certificate c ∧ Advance c c' ∧ getState st' k = some (.certificate c')) := by
  cases h with
  | unchanged h => left; rw [h]; exact hk
  | submitted id hash e m hkey hhash hid heh hstatus hmid hmh hst =>
    left
    have h1 : "ENERGY_" ++ id ≠ k := fun h => by rw [h, hk] at hkey; cases hkey
    have h2 : "ENERGY_HASH_" ++ hash ≠ k := fun h => by rw [h, hk] at hhash; cases hhash
    rw [hst, getState_putState_other _ _ _ _ h2, getState_putState_other _ _ _ _ h1, hk]
  | verified id e e' hkey hver hst =>
    by_cases h1 : "ENERGY_" ++ id = k
    · right; left
      rw [h1, hk] at hkey
      refine ⟨e, e', by injection hkey, hver, ?_⟩
      rw [hst, h1, getState_putState_same]
    · left
      rw [hst, getState_putState_other _ _ _ _ h1, hk]
  | requested certId c ws hkey hstatus hws hst hcid hsup hunsup =>
    left
    have h1 : "CERTIFICATE_" ++ certId ≠ k := fun h => by rw [h, hk] at hkey; cases hkey
    rcases hws with hws | ⟨hk', m, hws, hfree⟩
    · rw [hst, hws]
      simp only [applyWrites]
      rw [getState_putState_other _ _ _ _ h1, hk]
    · have h2 : hk' ≠ k := fun h => by rw [h, hk] at hfree; cases hfree
      rw [hst, hws]
      simp only [applyWrites]
      rw [getState_putState_other _ _ _ _ h2, getState_putState_other _ _ _ _ h1, hk]
  | advanced certId c c' hkey hadv hst =>
    by_cases h1 : "CERTIFICATE_" ++ certId = k
    · right; right
      rw [h1, hk] at hkey
      refine ⟨c, c', by injection hkey, hadv, ?_⟩
      rw [hst, h1, getState_putState_same]
    · left
      rw [hst, getState_putState_other _ _ _ _ h1, hk]

/-- What a committed invocation does to a key that holds nothing: it stays empty, or it
receives a new pending energy record, a hash mapping, a new certificate in status
CERTIFICATE_REQUESTED, or a certificate hash mapping. -/
theorem Effect.get_none {L : Lib} {st st' : Ledger Doc} (h : Effect L st st') {k : String}
    (hk : getState st k = none) :
    getState st' k = none
      ∨ (∃ e, e.status = "PENDING" ∧ getState st' k = some (.energyData e))
      ∨ (∃ m, getState st' k = some (.energyHash m))
      ∨ (∃ c, c.certificateInfo.status = "CERTIFICATE_REQUESTED"
          ∧ getState st' k = some (.certificate c))
      ∨ (∃ m, getState st' k = some (.certHash m)) := by
  cases h with
  | unchanged h => left; rw [h]; exact hk
  | submitted id hash e m hkey hhash hid heh hstatus hmid hmh hst =>
    by_cases h2 : "ENERGY_HASH_" ++ hash = k
    · right; right; left
      exact ⟨m, by rw [hst, h2, getState_putState_same]⟩
    · by_cases h1 : "ENERGY_" ++ id = k
      · right; left
        refine ⟨e, hstatus, ?_⟩
        rw [hst, getState_putState_other _ _ _ _ h2, h1, getState_putState_same]
      · left
        rw [hst, getState_putState_other _ _ _ _ h2, getState_putState_other _ _ _ _ h1, hk]
  | verified id e e' hkey hver hst =>
    have h1 : "ENERGY_" ++ id ≠ k := fun h => by rw [h, hk] at hkey; cases hkey
    left
    rw [hst, getState_putState_other _ _ _ _ h1, hk]
  | requested certId c ws hkey hstatus hws hst hcid hsup hunsup =>
    rcases hws with hws | ⟨hk', m, hws, hfree⟩
    · rw [hst, hws]
      simp only [applyWrites]
      by_cases h1 : "CERTIFICATE_" ++ certId = k
      · right; right; right; left
        exact ⟨c, hstatus, by rw [h1, getState_putState_same]⟩
      · left
        rw [getState_putState_other _ _ _ _ h1, hk]
    · rw [hst, hws]
      simp only [applyWrites]
      by_cases h2 : hk' = k
      · right; right; right; right
        exact ⟨m, by rw [h2, getState_putState_same]⟩
      · by_cases h1 : "CERTIFICATE_" ++ certId = k
        · right; right; right; left
          refine ⟨c, hstatus, ?_⟩
          rw [getState_putState_other _ _ _ _ h2, h1, getState_putState_same]
        · left
          rw [getState_putState_other _ _ _ _ h2, getState_putState_other _ _ _ _ h1, hk]
  | advanced certId c c' hkey hadv hst =>
    have h1 : "CERTIFICATE_" ++ certId ≠ k := fun h => by rw [h, hk] at hkey; cases hkey
    left
    rw [hst, getState_putState_other _ _ _ _ h1, hk]

/-- A stored hash mapping is never changed by a committed invocation. -/
theorem step_energyHash (L : Lib) (ctx : Ctx) (st : Ledger Doc) (op : Op) {k : String}
    {m : HashMapping} (hk : getState st k = some (.energyHash m)) :
    getState (step L ctx st op) k = some (.energyHash m) := by
  rcases (effect_step L ctx st op).get_some hk with h | ⟨e, e', h, _⟩ | ⟨c, c', h, _⟩
  · exact h
  · cases h
  · cases h

/-- A stored hash mapping is never changed by a sequence of committed invocations. -/
theorem run_energyHash (L : Lib) (txs : List (Ctx × Op)) (st : Ledger Doc) {k : String}
    {m : HashMapping} (hk : getState st k = some (.energyHash m)) :
    getState (run L st txs) k = some (.energyHash m) := by
  induction txs generalizing st with
  | nil => exact hk
  | cons tx rest ih =>
    obtain ⟨ctx, op⟩ := tx
    exact ih _ (step_energyHash L ctx st op hk)

/-- A key that holds a document still holds one after a committed invocation. -/
theorem step_isSome (L : Lib) (ctx : Ctx) (st : Ledger Doc) (op : Op) {k : String}
    (hk : (getState st k).isSome) : (getState (step L ctx st op) k).isSome := by
  cases op <;> exact getState_commit_isSome _ _ _ hk

/-- A key that holds a document still holds one after a sequence of committed invocations. -/
theorem run_isSome (L : Lib) (txs : List (Ctx × Op)) (st : Ledger Doc) {k : String}
    (hk : (getState st k).isSome) : (getState (run L st txs) k).isSome := by
  induction txs generalizing st with
  | nil => exact hk
  | cons tx rest ih =>
    obtain ⟨ctx, op⟩ := tx
    exact ih _ (step_isSome L ctx st op hk)

/-- The shape of a successful `submitEnergyData`: both keys held nothing, and the record and
its hash mapping are written in this order. -/
theorem submitEnergyData_ok {L : Lib} {ctx : Ctx} {st : Ledger Doc} {id a s t l g : String}
    (h : (submitEnergyData L ctx st id a s t l g).result.isOk = true) :
    getState st ("ENERGY_" ++ id) = none
      ∧ getState st ("ENERGY_HASH_" ++ generateEnergyDataHash L a s t l g) = none
      ∧ ∃ e m, m.energyDataId = id ∧ m.energyDataHash = generateEnergyDataHash L a s t l g
          ∧ e.energyDataId = id ∧ e.energyDataHash = generateEnergyDataHash L a s t l g
          ∧ submitEnergyData L ctx st id a s t l g =
            ⟨[("ENERGY_" ++ id, .energyData e),
              ("ENERGY_HASH_" ++ generateEnergyDataHash L a s t l g, .energyHash m)], .ok e⟩ := by
  simp only [submitEnergyData] at h ⊢
  cases hk : getState st ("ENERGY_" ++ id) with
  | some d => simp [hk, TxResult.fail, Outcome.isOk] at h
  | none =>
    cases hh : getState st ("ENERGY_HASH_" ++ generateEnergyDataHash L a s t l g) with
    | some d => simp [hk, hh, TxResult.fail, Outcome.isOk] at h
    | none => exact ⟨rfl, rfl, _, _, rfl, rfl, rfl, rfl, rfl⟩

/-- After a successful `submitEnergyData` the hash key holds the mapping to the new id. -/
theorem submitEnergyData_hashKey {L : Lib} {ctx : Ctx} {st : Ledger Doc} {id a s t l g : String}
    (h : (submitEnergyData L ctx st id a s t l g).result.isOk = true) :
    ∃ m : HashMapping, m.energyDataId = id ∧
      getState (commit st (submitEnergyData L ctx st id a s t l g))
        ("ENERGY_HASH_" ++ generateEnergyDataHash L a s t l g) = some (.energyHash m) := by
  obtain ⟨_, _, e, m, hm, _, _, _, heq⟩ := submitEnergyData_ok h
  refine ⟨m, hm, ?_⟩
  rw [heq]
  simp only [commit, applyWrites]
  rw [getState_putState_same]

end Chaincode
end REC

namespace REC
namespace Chaincode

/-- C1 (content-dedup). Once `submitEnergyData(id1, tuple)` has succeeded, in every later
state (after any sequence of invocations of the two contracts) `submitEnergyData(id2, tuple)`
with the same five fields and a key `ENERGY_<id2>` that holds nothing writes nothing and
fails with the duplicate error, which names `id1` and the hash. -/
theorem content_dedup (L : Lib) (ctx1 ctx2 : Ctx) (st : Ledger Doc)
    (id1 id2 a s t l g : String) (txs : List (Ctx × Op))
    (h1 : (submitEnergyData L ctx1 st id1 a s t l g).result.isOk = true)
    (h2 : getState (run L (commit st (submitEnergyData L ctx1 st id1 a s t l g)) txs)
      ("ENERGY_" ++ id2) = none) :
    submitEnergyData L ctx2 (run L (commit st (submitEnergyData L ctx1 st id1 a s t l g)) txs)
        id2 a s t l g =
      ⟨[], .error ("Energy data with this generation profile already exists. Existing ID: "
        ++ id1 ++ ", Hash: " ++ generateEnergyDataHash L a s t l g)⟩ := by
  obtain ⟨m, hm, hget⟩ := submitEnergyData_hashKey h1
  have hlater := run_energyHash L txs _ hget
  generalize run L (commit st (submitEnergyData L ctx1 st id1 a s t l g)) txs = st2 at h2 hlater ⊢
  simp only [submitEnergyData, h2, hlater, TxResult.fail, Doc.energyDataId, templateText, hm]

/-- The sample record `E1` submitted, then verified, then submitted again as `E2`. -/
theorem content_dedup_witness :
    (submitEnergyData Node.lib sampleCtx [] "E1" "100" "SOLAR" "2024-01-01" "Jakarta"
        "G1").result.isOk = true
    ∧ getState (run Node.lib (commit [] (submitEnergyData Node.lib sampleCtx [] "E1" "100"
        "SOLAR" "2024-01-01" "Jakarta" "G1")) [(sampleCtx, .verifyEnergyData "E1" "I1")])
        ("ENERGY_" ++ "E2") = none
    ∧ submitEnergyData Node.lib sampleCtx
        (run Node.lib (commit [] (submitEnergyData Node.lib sampleCtx [] "E1" "100" "SOLAR"
          "2024-01-01" "Jakarta" "G1")) [(sampleCtx, .verifyEnergyData "E1" "I1")])
        "E2" "100" "SOLAR" "2024-01-01" "Jakarta" "G1" =
      ⟨[], .error ("Energy data with this generation profile already exists. Existing ID: "
        ++ "E1" ++ ", Hash: "
        ++ generateEnergyDataHash Node.lib "100" "SOLAR" "2024-01-01" "Jakarta" "G1")⟩ :=
  ⟨by decide!, by decide!,
    content_dedup Node.lib sampleCtx sampleCtx [] "E1" "E2" "100" "SOLAR" "2024-01-01" "Jakarta"
      "G1" [(sampleCtx, .verifyEnergyData "E1" "I1")] (by decide!) (by decide!)⟩

end Chaincode
end REC

namespace REC
namespace Chaincode

/-- A stored hash mapping is never changed by a committed invocation. -/
theorem Effect.get_energyHash {L : Lib} {st st' : Ledger Doc} (h : Effect L st st') {k : String}
    {m : HashMapping} (hk : getState st k = some (.energyHash m)) :
    getState st' k = some (.energyHash m) := by
  rcases h.get_some hk with h | ⟨e, e', h, _⟩ | ⟨c, c', h, _⟩
  · exact h
  · cases h
  · cases h

/-- Where a stored energy record comes from: it was stored under the same key with the same
id and hash, or the invocation wrote it together with its hash mapping. -/
theorem Effect.energyData_origin {L : Lib} {st st' : Ledger Doc} (h : Effect L st st') {k : String}
    {e : EnergyData} (hk : getState st' k = some (.energyData e)) :
    (∃ e0, getState st k = some (.energyData e0) ∧ e.energyDataId = e0.energyDataId
        ∧ e.energyDataHash = e0.energyDataHash)
      ∨ ∃ m : HashMapping,
          getState st' ("ENERGY_HASH_" ++ e.energyDataHash) = some (.energyHash m)
            ∧ m.energyDataId = e.energyDataId := by
  cases h with
  | unchanged h => left; rw [h] at hk; exact ⟨e, hk, rfl, rfl⟩
  | submitted id hash e0 m0 hkey hhash hid heh hstatus hmid hmh hst =>
    rw [hst, getState_putState] at hk
    by_cases h2 : "ENERGY_HASH_" ++ hash = k
    · simp [h2] at hk
    · simp only [h2, if_false, getState_putState] at hk
      by_cases h1 : "ENERGY_" ++ id = k
      · right
        simp only [h1, if_true] at hk
        have he : e0 = e := by injection hk with hk; injection hk
        subst he
        refine ⟨m0, ?_, by rw [hmid, hid]⟩
        rw [hst, heh, getState_putState_same]
      · left
        simp only [h1, if_false] at hk
        exact ⟨e, hk, rfl, rfl⟩
  | verified id e0 e0' hkey hver hst =>
    left
    rw [hst, getState_putState] at hk
    by_cases h1 : "ENERGY_" ++ id = k
    · simp only [h1, if_true] at hk
      have he : e0' = e := by injection hk with hk; injection hk
      subst he
      obtain ⟨_, va, vb, vt, vv, heq⟩ := hver
      refine ⟨e0, by rw [← h1]; exact hkey, ?_, ?_⟩ <;> rw [heq]
    · simp only [h1, if_false] at hk
      exact ⟨e, hk, rfl, rfl⟩
  | requested certId c ws hkey hstatus hws hst hcid hsup hunsup =>
    left
    rcases hws with hws | ⟨hk', m, hws, hfree⟩
    · rw [hst, hws] at hk
      simp only [applyWrites, getState_putState] at hk
      by_cases h1 : "CERTIFICATE_" ++ certId = k
      · simp [h1] at hk
      · simp only [h1, if_false] at hk
        exact ⟨e, hk, rfl, rfl⟩
    · rw [hst, hws] at hk
      simp only [applyWrites, getState_putState] at hk
      by_cases h2 : hk' = k
      · simp [h2] at hk
      · simp only [h2, if_false] at hk
        by_cases h1 : "CERTIFICATE_" ++ certId = k
        · simp [h1] at hk
        · simp only [h1, if_false] at hk
          exact ⟨e, hk, rfl, rfl⟩
  | advanced certId c c' hkey hadv hst =>
    left
    rw [hst, getState_putState] at hk
    by_cases h1 : "CERTIFICATE_" ++ certId = k
    · simp [h1] at hk
    · simp only [h1, if_false] at hk
      exact ⟨e, hk, rfl, rfl⟩

/-- The hash index is kept by every committed invocation. -/
theorem Effect.hashIndexed {L : Lib} {st st' : Ledger Doc} (h : Effect L st st') (hinv : HashIndexed st) :
    HashIndexed st' := by
  intro k e hk
  rcases h.energyData_origin hk with ⟨e0, hk0, hid, hh⟩ | hnew
  · obtain ⟨m, hm, hmid⟩ := hinv k e0 hk0
    exact ⟨m, by rw [hh]; exact h.get_energyHash hm, by rw [hmid, hid]⟩
  · exact hnew

/-- The hash index holds in every state reached from the empty ledger. -/
theorem hashIndexed_run (L : Lib) (txs : List (Ctx × Op)) (st : Ledger Doc)
    (hinv : HashIndexed st) : HashIndexed (run L st txs) := by
  induction txs generalizing st with
  | nil => exact hinv
  | cons tx rest ih =>
    obtain ⟨ctx, op⟩ := tx
    exact ih _ ((effect_step L ctx st op).hashIndexed hinv)

theorem hashIndexed_empty : HashIndexed ([] : Ledger Doc) := by
  intro k e hk
  simp [getState] at hk

/-- C2 (contentHash uniqueness). In every world state reached from the empty ledger by
invocations of `EnergyDataContract` and `CertificateContract`, two stored energy records
with different `energyDataId` have different `energyDataHash`. -/
theorem energyDataHash_unique (L : Lib) (txs : List (Ctx × Op)) (k1 k2 : String)
    (e1 e2 : EnergyData)
    (h1 : getState (run L [] txs) k1 = some (.energyData e1))
    (h2 : getState (run L [] txs) k2 = some (.energyData e2))
    (hne : e1.energyDataId ≠ e2.energyDataId) :
    e1.energyDataHash ≠ e2.energyDataHash := by
  intro heq
  have hinv := hashIndexed_run L txs [] hashIndexed_empty
  obtain ⟨m1, hm1, hid1⟩ := hinv k1 e1 h1
  obtain ⟨m2, hm2, hid2⟩ := hinv k2 e2 h2
  rw [heq, hm2] at hm1
  have : m2 = m1 := by injection hm1 with hm1; injection hm1
  exact hne (by rw [← hid1, ← hid2, this])

/-- The two sample records, stored by two submissions, have different ids and different
hashes. -/
theorem energyDataHash_unique_witness :
    getState (run Node.lib [] twoSubmissions) "ENERGY_E1" = some (.energyData recordE1)
      ∧ getState (run Node.lib [] twoSubmissions) "ENERGY_E2" = some (.energyData recordE2)
      ∧ recordE1.energyDataId ≠ recordE2.energyDataId
      ∧ recordE1.energyDataHash ≠ recordE2.energyDataHash :=
  ⟨by decide!, by decide!, by decide!,
    energyDataHash_unique Node.lib twoSubmissions "ENERGY_E1" "ENERGY_E2" recordE1 recordE2
      (by decide!) (by decide!) (by decide!)⟩

end Chaincode
end REC

namespace REC
namespace Chaincode

theorem squash_same (s : String) (h : List String) : squash (s :: s :: h) = squash (s :: h) := by
  simp [squash]

theorem squash_next {s s' : String} (hne : s ≠ s') (h : List String) :
    squash (s :: s' :: h) = s :: squash (s' :: h) := by
  simp [squash, hne]

theorem nextStatus_mem {s s' : String} (h : NextStatus s s') : s' ∈ lifecycle := by
  rcases h with ⟨_, h⟩ | ⟨_, h⟩ | ⟨_, h⟩ <;> subst h <;> decide

theorem nextStatus_chain {s s' : String} (h : NextStatus s s') :
    s ≠ s' ∧ lifecycleFrom s = s :: lifecycleFrom s' := by
  rcases h with ⟨h1, h2⟩ | ⟨h1, h2⟩ | ⟨h1, h2⟩ <;> subst h1 <;> subst h2 <;>
    exact ⟨by decide, by decide⟩

theorem lifecycleFrom_head {s : String} (h : s ∈ lifecycle) :
    [s] <+: lifecycleFrom s := by
  simp only [lifecycle, List.mem_cons, List.mem_singleton, List.not_mem_nil, or_false] at h
  rcases h with h | h | h | h <;> subst h <;> decide

/-- One committed invocation leaves the status of a stored certificate as it is or moves it
one step forward. -/
theorem step_statusAt (L : Lib) (ctx : Ctx) (st : Ledger Doc) (op : Op) {k s : String}
    (hs : statusAt st k = some s) :
    statusAt (step L ctx st op) k = some s
      ∨ ∃ s', NextStatus s s' ∧ statusAt (step L ctx st op) k = some s' := by
  unfold statusAt at hs
  cases hk : getState st k with
  | none => simp [hk] at hs
  | some d =>
    cases d with
    | certificate c =>
      simp only [hk, Option.some.injEq] at hs
      rcases (effect_step L ctx st op).get_some hk with h | ⟨e, e', h, _⟩ | ⟨c0, c', h, hadv, hget⟩
      · left; simp [statusAt, h, hs]
      · cases h
      · right
        have hc : c = c0 := by injection h
        subst hc
        exact ⟨c'.certificateInfo.status, by rw [← hs]; exact hadv.status, by simp [statusAt, hget]⟩
    | energyData e => simp [hk] at hs
    | energyHash m => simp [hk] at hs
    | certHash m => simp [hk] at hs

/-- A key that holds a document other than a certificate never holds a certificate later. -/
theorem step_notCertificate (L : Lib) (ctx : Ctx) (st : Ledger Doc) (op : Op) {k : String}
    (hk : (getState st k).isSome) (hs : statusAt st k = none) :
    (getState (step L ctx st op) k).isSome ∧ statusAt (step L ctx st op) k = none := by
  refine ⟨step_isSome L ctx st op hk, ?_⟩
  cases hd : getState st k with
  | none => simp [hd] at hk
  | some d =>
    rcases (effect_step L ctx st op).get_some hd with h | ⟨e, e', h, _, hget⟩ | ⟨c0, c', h, _⟩
    · unfold statusAt at hs ⊢
      rw [h]; rw [hd] at hs; exact hs
    · simp [statusAt, hget]
    · subst h
      simp [statusAt, hd] at hs

/-- A key that holds nothing holds nothing after one committed invocation, or a document
other than a certificate, or a certificate in status CERTIFICATE_REQUESTED. -/
theorem step_fresh (L : Lib) (ctx : Ctx) (st : Ledger Doc) (op : Op) {k : String}
    (hk : getState st k = none) :
    getState (step L ctx st op) k = none
      ∨ ((getState (step L ctx st op) k).isSome ∧ statusAt (step L ctx st op) k = none)
      ∨ statusAt (step L ctx st op) k = some "CERTIFICATE_REQUESTED" := by
  rcases (effect_step L ctx st op).get_none hk with h | ⟨e, _, h⟩ | ⟨m, h⟩ | ⟨c, hc, h⟩ | ⟨m, h⟩
  · exact Or.inl h
  · exact Or.inr (Or.inl (by simp [statusAt, h]))
  · exact Or.inr (Or.inl (by simp [statusAt, h]))
  · exact Or.inr (Or.inr (by simp [statusAt, h, hc]))
  · exact Or.inr (Or.inl (by simp [statusAt, h]))

theorem statusHistory_cons (L : Lib) (st : Ledger Doc) (ctx : Ctx) (op : Op)
    (rest : List (Ctx × Op)) (k : String) :
    statusHistory L st ((ctx, op) :: rest) k =
      (statusAt st k).toList ++ statusHistory L (step L ctx st op) rest k := by
  simp only [statusHistory, trace, List.filterMap_cons]
  cases statusAt st k <;> simp

theorem statusHistory_nil (L : Lib) (st : Ledger Doc) (k : String) :
    statusHistory L st [] k = (statusAt st k).toList := by
  simp only [statusHistory, trace, List.filterMap_cons, List.filterMap_nil]
  cases statusAt st k <;> simp

/-- No status is observed under a key that holds a document other than a certificate. -/
theorem statusHistory_notCertificate (L : Lib) (txs : List (Ctx × Op)) (st : Ledger Doc)
    {k : String} (hk : (getState st k).isSome) (hs : statusAt st k = none) :
    statusHistory L st txs k = [] := by
  induction txs generalizing st with
  | nil => simp [statusHistory_nil, hs]
  | cons tx rest ih =>
    obtain ⟨ctx, op⟩ := tx
    obtain ⟨h1, h2⟩ := step_notCertificate L ctx st op hk hs
    simp [statusHistory_cons, hs, ih _ h1 h2]

/-- From a state in which the certificate has lifecycle status `s`, the observed statuses
start with `s` and, repetitions removed, run along the lifecycle from `s`. -/
theorem statusHistory_certificate (L : Lib) (txs : List (Ctx × Op)) (st : Ledger Doc)
    {k s : String} (hmem : s ∈ lifecycle) (hs : statusAt st k = some s) :
    ∃ h, statusHistory L st txs k = s :: h ∧ squash (s :: h) <+: lifecycleFrom s := by
  induction txs generalizing st s with
  | nil =>
    refine ⟨[], by simp [statusHistory_nil, hs], ?_⟩
    simpa [squash] using lifecycleFrom_head hmem
  | cons tx rest ih =>
    obtain ⟨ctx, op⟩ := tx
    rcases step_statusAt L ctx st op hs with h1 | ⟨s', hnext, h1⟩
    · obtain ⟨h, hh, hp⟩ := ih _ hmem h1
      refine ⟨s :: h, by simp [statusHistory_cons, hs, hh], ?_⟩
      rw [squash_same]; exact hp
    · obtain ⟨h, hh, hp⟩ := ih _ (nextStatus_mem hnext) h1
      obtain ⟨hne, hchain⟩ := nextStatus_chain hnext
      refine ⟨s' :: h, by simp [statusHistory_cons, hs, hh], ?_⟩
      rw [squash_next hne, hchain]
      exact (List.prefix_cons_inj s).mpr hp

/-- From a state in which the key holds nothing, the observed statuses, repetitions removed,
are a prefix of the lifecycle. -/
theorem statusHistory_fresh (L : Lib) (txs : List (Ctx × Op)) (st : Ledger Doc) {k : String}
    (hk : getState st k = none) : squash (statusHistory L st txs k) <+: lifecycle := by
  have hnone : statusAt st k = none := by simp [statusAt, hk]
  induction txs generalizing st with
  | nil => simp [statusHistory_nil, hnone, squash]
  | cons tx rest ih =>
    obtain ⟨ctx, op⟩ := tx
    rw [statusHistory_cons, hnone]
    simp only [Option.toList, List.nil_append]
    rcases step_fresh L ctx st op hk with h | ⟨h1, h2⟩ | h
    · exact ih _ h (by simp [statusAt, h])
    · rw [statusHistory_notCertificate L rest _ h1 h2]
      simp [squash]
    · obtain ⟨h', hh, hp⟩ := statusHistory_certificate L rest _ (by decide) h
      rw [hh]
      exact hp

/-- C3 (monotonic certificate lifecycle). For every sequence of invocations from the empty
ledger and every key, the statuses the certificate stored under the key takes over time
are, repetitions removed, a prefix of [CERTIFICATE_REQUESTED, CERTIFICATE_PAID,
CERTIFICATE_ISSUED, COMPLETED]; and in any world state one committed invocation leaves the
status of a stored certificate as it is or moves it exactly one step forward. -/
theorem lifecycle_monotonic (L : Lib) :
    (∀ (txs : List (Ctx × Op)) (k : String),
        squash (statusHistory L [] txs k) <+: lifecycle)
      ∧ ∀ (ctx : Ctx) (st : Ledger Doc) (op : Op) (k : String) (c : Certificate),
          getState st k = some (.certificate c) →
            ∃ c', getState (step L ctx st op) k = some (.certificate c')
              ∧ (c'.certificateInfo.status = c.certificateInfo.status
                ∨ NextStatus c.certificateInfo.status c'.certificateInfo.status) := by
  refine ⟨fun txs k => statusHistory_fresh L txs [] rfl, ?_⟩
  intro ctx st op k c hk
  rcases (effect_step L ctx st op).get_some hk with h | ⟨e, e', h, _⟩ | ⟨c0, c', h, hadv, hget⟩
  · exact ⟨c, h, Or.inl rfl⟩
  · cases h
  · have hc : c = c0 := by injection h
    subst hc
    exact ⟨c', hget, Or.inr hadv.status⟩

/-- The sample workflow visits the four statuses in order. -/
theorem lifecycle_monotonic_witness :
    statusHistory Node.lib [] sampleWorkflow "CERTIFICATE_C1" =
        ["CERTIFICATE_REQUESTED", "CERTIFICATE_PAID", "CERTIFICATE_ISSUED", "COMPLETED"]
      ∧ squash (statusHistory Node.lib [] sampleWorkflow "CERTIFICATE_C1") <+: lifecycle :=
  ⟨by decide!, (lifecycle_monotonic Node.lib).1 sampleWorkflow "CERTIFICATE_C1"⟩

end Chaincode
end REC

namespace REC

/-- A key written by a write set holds a document once the write set is applied. -/
theorem getState_applyWrites_mem {D : Type} (ws : List (String × D)) (st : Ledger D)
    (k : String) (d : D) (h : (k, d) ∈ ws) : (getState (applyWrites st ws) k).isSome := by
  induction ws generalizing st with
  | nil => cases h
  | cons w rest ih =>
    obtain ⟨k0, d0⟩ := w
    simp only [applyWrites]
    rcases List.mem_cons.mp h with h | h
    · injection h with h1 h2
      subst h1
      exact getState_applyWrites_isSome _ _ _ (by simp [getState_putState_same])
    · exact ih _ h

namespace Chaincode

/-- C4 (buyer authorization), as the code has it. For a stored certificate and a `buyerId`
other than its recorded buyer, `confirmPayment` and `completeCertificate` write nothing and
throw: the error is "Only the buyer can ..." when the certificate is in the status the
operation expects, and the status error of the operation otherwise, because the status is
checked before the buyer. The world state after the invocation is the one before. -/
theorem buyer_authorization (L : Lib) (ctx : Ctx) (st : Ledger Doc)
    (certId buyerId paymentDataStr : String) (c : Certificate)
    (hc : getState st ("CERTIFICATE_" ++ certId) = some (.certificate c))
    (hb : c.parties.buyer.buyerId ≠ buyerId) :
    confirmPayment L ctx st certId buyerId paymentDataStr =
        ⟨[], .error
          (if c.certificateInfo.status = "CERTIFICATE_REQUESTED" then
            "Only the buyer can confirm payment"
          else "Certificate " ++ certId ++ " must be in CERTIFICATE_REQUESTED status. Current: "
            ++ c.certificateInfo.status)⟩
      ∧ completeCertificate L ctx st certId buyerId =
        ⟨[], .error
          (if c.certificateInfo.status = "CERTIFICATE_ISSUED" then
            "Only the buyer can complete this certificate"
          else "Certificate " ++ certId ++ " must be CERTIFICATE_ISSUED before completion. Current: "
            ++ c.certificateInfo.status)⟩
      ∧ commit st (confirmPayment L ctx st certId buyerId paymentDataStr) = st
      ∧ commit st (completeCertificate L ctx st certId buyerId) = st := by
  have h1 : confirmPayment L ctx st certId buyerId paymentDataStr =
      ⟨[], .error
        (if c.certificateInfo.status = "CERTIFICATE_REQUESTED" then
          "Only the buyer can confirm payment"
        else "Certificate " ++ certId ++ " must be in CERTIFICATE_REQUESTED status. Current: "
          ++ c.certificateInfo.status)⟩ := by
    simp only [confirmPayment, hc, TxResult.fail]
    by_cases hs : c.certificateInfo.status = "CERTIFICATE_REQUESTED" <;> simp [hs, hb]
  have h2 : completeCertificate L ctx st certId buyerId =
      ⟨[], .error
        (if c.certificateInfo.status = "CERTIFICATE_ISSUED" then
          "Only the buyer can complete this certificate"
        else "Certificate " ++ certId ++ " must be CERTIFICATE_ISSUED before completion. Current: "
          ++ c.certificateInfo.status)⟩ := by
    simp only [completeCertificate, hc, TxResult.fail]
    by_cases hs : c.certificateInfo.status = "CERTIFICATE_ISSUED" <;> simp [hs, hb]
  refine ⟨h1, h2, ?_, ?_⟩
  · rw [h1]; rfl
  · rw [h2]; rfl

/-- In the state where `C1` of buyer `B1` is requested, another buyer `B2` is turned away by
both operations: by `confirmPayment` with the buyer error, by `completeCertificate` with
the status error. -/
theorem buyer_authorization_witness :
    getState ledgerRequested ("CERTIFICATE_" ++ "C1") = some (.certificate certificateC1)
      ∧ certificateC1.parties.buyer.buyerId ≠ "B2"
      ∧ confirmPayment Node.lib sampleCtx ledgerRequested "C1" "B2" "" =
        ⟨[], .error
          (if certificateC1.certificateInfo.status = "CERTIFICATE_REQUESTED" then
            "Only the buyer can confirm payment"
          else "Certificate " ++ "C1" ++ " must be in CERTIFICATE_REQUESTED status. Current: "
            ++ certificateC1.certificateInfo.status)⟩
      ∧ commit ledgerRequested (completeCertificate Node.lib sampleCtx ledgerRequested "C1" "B2")
          = ledgerRequested :=
  have h := buyer_authorization Node.lib sampleCtx ledgerRequested "C1" "B2" "" certificateC1
    (by decide!) (by decide!)
  ⟨by decide!, by decide!, h.1, h.2.2.2⟩

/-- C4, the claim as stated fails: certificate `C1` of buyer `B1` is in status
CERTIFICATE_REQUESTED, and `completeCertificate` called by `B2` fails with the status error,
not with "Only the buyer can complete this certificate". -/
theorem buyer_authorization_counterexample :
    (certificateAt ledgerRequested "CERTIFICATE_C1").map (fun c => c.parties.buyer.buyerId)
        = some "B1"
      ∧ completeCertificate Node.lib sampleCtx ledgerRequested "C1" "B2" =
        ⟨[], .error ("Certificate C1 must be CERTIFICATE_ISSUED before completion. "
          ++ "Current: CERTIFICATE_REQUESTED")⟩
      ∧ (completeCertificate Node.lib sampleCtx ledgerRequested "C1" "B2").result ≠
        .error "Only the buyer can complete this certificate" := by
  decide!

end Chaincode
end REC

namespace REC

/-- A key written by a transaction that returned holds a document once it is committed. -/
theorem getState_commit_mem {D α : Type} (st : Ledger D) (r : TxResult D α) (k : String)
    (d : D) (hok : r.result.isOk = true) (h : (k, d) ∈ r.writes) :
    (getState (commit st r) k).isSome := by
  unfold commit
  cases hr : r.result with
  | error _ => simp [hr, Outcome.isOk] at hok
  | ok _ => exact getState_applyWrites_mem _ _ _ _ h

namespace Chaincode

/-- C5, the code at the failing input: the verified record `E1` has amount 100, and
`requestCertificate` for 150 succeeds and stores a certificate of amount 150. -/
theorem requestCertificate_exceeds_amount :
    getState ledgerVerified "ENERGY_E1" = some (.energyData verifiedE1)
      ∧ verifiedE1.amount = some 100
      ∧ (requestCertificate Node.lib sampleCtx ledgerVerified "C1" "E1" "B1" "150" "").result.isOk
          = true
      ∧ (certificateAt
          (commit ledgerVerified
            (requestCertificate Node.lib sampleCtx ledgerVerified "C1" "E1" "B1" "150" ""))
          "CERTIFICATE_C1").map (fun c => c.energyReference.amount) = some (some 150) := by
  decide!

/-- A successful `requestCertificate` writes the certificate key first. -/
theorem requestCertificate_ok {L : Lib} {ctx : Ctx} {st : Ledger Doc}
    {certId energyId buyerId amount sec : String}
    (h : (requestCertificate L ctx st certId energyId buyerId amount sec).result.isOk = true) :
    ∃ c ws, (requestCertificate L ctx st certId energyId buyerId amount sec).writes =
      ("CERTIFICATE_" ++ certId, Doc.certificate c) :: ws := by
  simp only [requestCertificate] at h ⊢
  cases hk : getState st ("CERTIFICATE_" ++ certId) with
  | some d => simp [hk, TxResult.fail, Outcome.isOk] at h
  | none =>
    cases he : getState st ("ENERGY_" ++ energyId) with
    | none => simp [hk, he, TxResult.fail, Outcome.isOk] at h
    | some d =>
      cases d with
      | energyData e =>
        simp only [hk, he] at h ⊢
        split_ifs at h ⊢ with h1 h2
        · simp [TxResult.fail, Outcome.isOk] at h
        · simp [TxResult.fail, Outcome.isOk] at h
        · exact ⟨_, _, rfl⟩
      | energyHash m => simp [hk, he, TxResult.fail, Outcome.isOk] at h
      | certificate c => simp [hk, he, TxResult.fail, Outcome.isOk] at h
      | certHash m => simp [hk, he, TxResult.fail, Outcome.isOk] at h

end Chaincode

namespace ChaincodeRec

/-- A key that holds a document still holds one after a committed invocation. -/
theorem rec_step_isSome (L : Lib) (ctx : Ctx) (st : Ledger Doc) (op : Op) {k : String}
    (hk : (getState st k).isSome) : (getState (step L ctx st op) k).isSome := by
  cases op <;> exact getState_commit_isSome _ _ _ hk

/-- A key that holds a document still holds one after a sequence of committed invocations. -/
theorem rec_run_isSome (L : Lib) (txs : List (Ctx × Op)) (st : Ledger Doc) {k : String}
    (hk : (getState st k).isSome) : (getState (run L st txs) k).isSome := by
  induction txs generalizing st with
  | nil => exact hk
  | cons tx rest ih =>
    obtain ⟨ctx, op⟩ := tx
    exact ih _ (rec_step_isSome L ctx st op hk)

/-- A successful `createBuyRequest` writes the request key. -/
theorem createBuyRequest_ok {L : Lib} {ctx : Ctx} {st : Ledger Doc}
    {requestId energyDataId buyerId amount price : String}
    (h : (createBuyRequest L ctx st requestId energyDataId buyerId amount price).result.isOk
      = true) :
    ∃ b, (createBuyRequest L ctx st requestId energyDataId buyerId amount price).writes =
      [("BUY_REQUEST_" ++ requestId, Doc.buyRequest b)] := by
  simp only [createBuyRequest] at h ⊢
  cases hk : getState st ("BUY_REQUEST_" ++ requestId) with
  | some d => simp [hk, TxResult.fail, Outcome.isOk] at h
  | none =>
    cases he : getState st ("ENERGY_" ++ energyDataId) with
    | none => simp [hk, he, TxResult.fail, Outcome.isOk] at h
    | some d =>
      cases d with
      | energyData e =>
        simp only [hk, he] at h ⊢
        split_ifs at h ⊢ with h1 h2
        · simp [TxResult.fail, Outcome.isOk] at h
        · simp [TxResult.fail, Outcome.isOk] at h
        · exact ⟨_, rfl⟩
      | certificate c => simp [hk, he, TxResult.fail, Outcome.isOk] at h
      | buyRequest b => simp [hk, he, TxResult.fail, Outcome.isOk] at h

end ChaincodeRec

/-- C6 (idempotent identity). Once `submitEnergyData`, `requestCertificate` or
`createBuyRequest` has succeeded for an id, then in every later world state of its package
(after any sequence of invocations) a call of the same operation with the same id, whatever
its other arguments and its transaction context, writes nothing and fails with the
"already exists" error of the operation. -/
theorem idempotent_identity (L : Lib) :
    (∀ (ctx1 ctx2 : Ctx) (st : Ledger Chaincode.Doc) (txs : List (Ctx × Chaincode.Op))
        (id a s t l g a' s' t' l' g' : String),
        (Chaincode.submitEnergyData L ctx1 st id a s t l g).result.isOk = true →
        Chaincode.submitEnergyData L ctx2
            (Chaincode.run L (commit st (Chaincode.submitEnergyData L ctx1 st id a s t l g)) txs)
            id a' s' t' l' g' =
          ⟨[], .error ("Energy data with ID " ++ id ++ " already exists")⟩)
      ∧ (∀ (ctx1 ctx2 : Ctx) (st : Ledger Chaincode.Doc) (txs : List (Ctx × Chaincode.Op))
        (certId e b p sec e' b' p' sec' : String),
        (Chaincode.requestCertificate L ctx1 st certId e b p sec).result.isOk = true →
        Chaincode.requestCertificate L ctx2
            (Chaincode.run L (commit st (Chaincode.requestCertificate L ctx1 st certId e b p sec))
              txs)
            certId e' b' p' sec' =
          ⟨[], .error ("Certificate " ++ certId ++ " already exists")⟩)
      ∧ (∀ (ctx1 ctx2 : Ctx) (st : Ledger ChaincodeRec.Doc)
        (txs : List (Ctx × ChaincodeRec.Op)) (requestId e b p q e' b' p' q' : String),
        (ChaincodeRec.createBuyRequest L ctx1 st requestId e b p q).result.isOk = true →
        ChaincodeRec.createBuyRequest L ctx2
            (ChaincodeRec.run L
              (commit st (ChaincodeRec.createBuyRequest L ctx1 st requestId e b p q)) txs)
            requestId e' b' p' q' =
          ⟨[], .error ("Buy request " ++ requestId ++ " already exists")⟩) := by
  refine ⟨?_, ?_, ?_⟩
  · intro ctx1 ctx2 st txs id a s t l g a' s' t' l' g' h
    obtain ⟨_, _, e, m, _, _, _, _, heq⟩ := Chaincode.submitEnergyData_ok h
    have h1 := getState_commit_mem st _ ("ENERGY_" ++ id) (.energyData e) h (by rw [heq]; simp)
    have h2 := Chaincode.run_isSome L txs _ h1
    generalize Chaincode.run L (commit st (Chaincode.submitEnergyData L ctx1 st id a s t l g)) txs
      = st2 at h2 ⊢
    obtain ⟨d, hd⟩ := Option.isSome_iff_exists.mp h2
    simp only [Chaincode.submitEnergyData, hd, TxResult.fail]
  · intro ctx1 ctx2 st txs certId e b p sec e' b' p' sec' h
    obtain ⟨c, ws, heq⟩ := Chaincode.requestCertificate_ok h
    have h1 := getState_commit_mem st _ ("CERTIFICATE_" ++ certId) (.certificate c) h
      (by rw [heq]; simp)
    have h2 := Chaincode.run_isSome L txs _ h1
    generalize Chaincode.run L
      (commit st (Chaincode.requestCertificate L ctx1 st certId e b p sec)) txs = st2 at h2 ⊢
    obtain ⟨d, hd⟩ := Option.isSome_iff_exists.mp h2
    simp only [Chaincode.requestCertificate, hd, TxResult.fail]
  · intro ctx1 ctx2 st txs requestId e b p q e' b' p' q' h
    obtain ⟨br, heq⟩ := ChaincodeRec.createBuyRequest_ok h
    have h1 := getState_commit_mem st _ ("BUY_REQUEST_" ++ requestId) (.buyRequest br) h
      (by rw [heq]; simp)
    have h2 := ChaincodeRec.rec_run_isSome L txs _ h1
    generalize ChaincodeRec.run L
      (commit st (ChaincodeRec.createBuyRequest L ctx1 st requestId e b p q)) txs = st2 at h2 ⊢
    obtain ⟨d, hd⟩ := Option.isSome_iff_exists.mp h2
    simp only [ChaincodeRec.createBuyRequest, hd, TxResult.fail]

/-- Each of the three operations succeeds once on the sample data, and a second call with
the same id and other arguments, after further invocations, is rejected. -/
theorem idempotent_identity_witness :
    ((Chaincode.submitEnergyData Node.lib Chaincode.sampleCtx [] "E1" "100" "SOLAR" "2024-01-01"
        "Jakarta" "G1").result.isOk = true
      ∧ Chaincode.submitEnergyData Node.lib Chaincode.sampleCtx
          (Chaincode.run Node.lib
            (commit [] (Chaincode.submitEnergyData Node.lib Chaincode.sampleCtx [] "E1" "100"
              "SOLAR" "2024-01-01" "Jakarta" "G1"))
            [(Chaincode.sampleCtx, .verifyEnergyData "E1" "I1")])
          "E1" "7" "WIND" "2025-05-05" "Medan" "G9" =
        ⟨[], .error ("Energy data with ID " ++ "E1" ++ " already exists")⟩)
    ∧ ((Chaincode.requestCertificate Node.lib Chaincode.sampleCtx Chaincode.ledgerVerified "C1"
        "E1" "B1" "50" "").result.isOk = true
      ∧ Chaincode.requestCertificate Node.lib Chaincode.sampleCtx
          (Chaincode.run Node.lib
            (commit Chaincode.ledgerVerified
              (Chaincode.requestCertificate Node.lib Chaincode.sampleCtx Chaincode.ledgerVerified
                "C1" "E1" "B1" "50" ""))
            [(Chaincode.sampleCtx, .confirmPayment "C1" "B1" "")])
          "C1" "E1" "B2" "10" "" =
        ⟨[], .error ("Certificate " ++ "C1" ++ " already exists")⟩)
    ∧ ((ChaincodeRec.createBuyRequest Node.lib Chaincode.sampleCtx ChaincodeRec.ledgerVerified
        "R1" "E1" "B1" "40" "2").result.isOk = true
      ∧ ChaincodeRec.createBuyRequest Node.lib Chaincode.sampleCtx
          (ChaincodeRec.run Node.lib
            (commit ChaincodeRec.ledgerVerified
              (ChaincodeRec.createBuyRequest Node.lib Chaincode.sampleCtx
                ChaincodeRec.ledgerVerified "R1" "E1" "B1" "40" "2"))
            [(Chaincode.sampleCtx, .makePayment "R1" "bank_transfer" "PAY-1")])
          "R1" "E1" "B2" "1" "3" =
        ⟨[], .error ("Buy request " ++ "R1" ++ " already exists")⟩) :=
  ⟨⟨by decide!, (idempotent_identity Node.lib).1 _ _ _ _ _ _ _ _ _ _ _ _ _ _ _ (by decide!)⟩,
   ⟨by decide!, (idempotent_identity Node.lib).2.1 _ _ _ _ _ _ _ _ _ _ _ _ _ (by decide!)⟩,
   ⟨by decide!, (idempotent_identity Node.lib).2.2 _ _ _ _ _ _ _ _ _ _ _ _ _ (by decide!)⟩⟩

end REC

namespace REC

theorem string_append_left_cancel {p a b : String} (h : p ++ a = p ++ b) : a = b := by
  have h1 := congrArg String.data h
  simp only [String.data_append, List.append_cancel_left_eq] at h1
  exact String.ext h1

namespace Chaincode

/-- C7 (fingerprint canonicalisation), as the code has it. Two argument tuples with the
same `generatorId` and `generationDate` hash alike when their amounts parse to the same
number, their source types have the same upper-cased form and their locations have the
same lower-cased, trimmed form. -/
theorem fingerprint_canonical (L : Lib) (a a' s s' t l l' g : String)
    (ha : L.parseFloat a = L.parseFloat a')
    (hs : L.toUpperCase s = L.toUpperCase s')
    (hl : L.trim (L.toLowerCase l) = L.trim (L.toLowerCase l')) :
    generateEnergyDataHash L a s t l g = generateEnergyDataHash L a' s' t l' g := by
  simp only [generateEnergyDataHash, hashDataJSON, ha, hs, hl]

/-- The amount written as "100" or "100.0", the source type in either case and the location
in either case with or without surrounding blanks give one hash. -/
theorem fingerprint_canonical_witness :
    Node.lib.parseFloat "100" = Node.lib.parseFloat "100.0"
      ∧ Node.lib.toUpperCase "solar" = Node.lib.toUpperCase "SOLAR"
      ∧ Node.lib.trim (Node.lib.toLowerCase "  Jakarta ") =
          Node.lib.trim (Node.lib.toLowerCase "jakarta")
      ∧ generateEnergyDataHash Node.lib "100" "solar" "2024-01-01" "  Jakarta " "G1" =
          generateEnergyDataHash Node.lib "100.0" "SOLAR" "2024-01-01" "jakarta" "G1" :=
  ⟨by decide!, by decide!, by decide!,
    fingerprint_canonical Node.lib "100" "100.0" "solar" "SOLAR" "2024-01-01" "  Jakarta "
      "jakarta" "G1" (by decide!) (by decide!) (by decide!)⟩

/-- C7, the claim as stated fails: the hash changes with the letter case of `generatorId`,
with blanks around `generationDate` and with blanks around `sourceType`. -/
theorem fingerprint_canonical_counterexample :
    generateEnergyDataHash Node.lib "100" "SOLAR" "2024-01-01" "Jakarta" "G1" ≠
        generateEnergyDataHash Node.lib "100" "SOLAR" "2024-01-01" "Jakarta" "g1"
      ∧ generateEnergyDataHash Node.lib "100" "SOLAR" "2024-01-01" "Jakarta" "G1" ≠
        generateEnergyDataHash Node.lib "100" "SOLAR" " 2024-01-01 " "Jakarta" "G1"
      ∧ generateEnergyDataHash Node.lib "100" "SOLAR" "2024-01-01" "Jakarta" "G1" ≠
        generateEnergyDataHash Node.lib "100" " SOLAR " "2024-01-01" "Jakarta" "G1" := by
  decide!

theorem Verified.sameIdentity {e e' : EnergyData} (h : Verified e e') : SameIdentity e e' := by
  obtain ⟨_, va, vb, vt, vv, heq⟩ := h
  subst heq
  exact ⟨rfl, rfl, rfl, rfl, rfl, rfl, rfl⟩

theorem SameIdentity.refl (e : EnergyData) : SameIdentity e e :=
  ⟨rfl, rfl, rfl, rfl, rfl, rfl, rfl⟩

theorem SameIdentity.trans {e1 e2 e3 : EnergyData} (h12 : SameIdentity e1 e2)
    (h23 : SameIdentity e2 e3) : SameIdentity e1 e3 := by
  obtain ⟨a1, a2, a3, a4, a5, a6, a7⟩ := h12
  obtain ⟨b1, b2, b3, b4, b5, b6, b7⟩ := h23
  exact ⟨b1.trans a1, b2.trans a2, b3.trans a3, b4.trans a4, b5.trans a5, b6.trans a6,
    b7.trans a7⟩

/-- The recomputed hash depends on the identifying members only. -/
theorem SameIdentity.recalculateHash (L : Lib) {e e' : EnergyData} (h : SameIdentity e e') :
    recalculateHash L e' = recalculateHash L e := by
  obtain ⟨_, h2, h3, h4, h5, h6, _⟩ := h
  simp only [Chaincode.recalculateHash, h2, h3, h4, h5, h6]

/-- A stored energy record keeps its identifying members over any sequence of invocations. -/
theorem run_sameIdentity (L : Lib) (txs : List (Ctx × Op)) (st : Ledger Doc) {k : String}
    {e : EnergyData} (hk : getState st k = some (.energyData e)) :
    ∃ e', getState (run L st txs) k = some (.energyData e') ∧ SameIdentity e e' := by
  induction txs generalizing st e with
  | nil => exact ⟨e, hk, SameIdentity.refl e⟩
  | cons tx rest ih =>
    obtain ⟨ctx, op⟩ := tx
    rcases (effect_step L ctx st op).get_some hk with h | ⟨e0, e1, h, hver, hget⟩ | ⟨c, c', h, _⟩
    · exact ih _ h
    · have he : e = e0 := by injection h
      subst he
      obtain ⟨e2, h2, hs⟩ := ih _ hget
      exact ⟨e2, h2, hver.sameIdentity.trans hs⟩
    · cases h

/-- The shape of a successful `verifyEnergyData`: the key holds a pending record whose
stored hash is empty or equals the recomputed hash, and the verified record is written. -/
theorem verifyEnergyData_ok {L : Lib} {ctx : Ctx} {st : Ledger Doc} {id issuer : String}
    (h : (verifyEnergyData L ctx st id issuer).result.isOk = true) :
    ∃ e e', getState st ("ENERGY_" ++ id) = some (.energyData e)
      ∧ (e.energyDataHash = "" ∨ recalculateHash L e = e.energyDataHash)
      ∧ Verified e e'
      ∧ commit st (verifyEnergyData L ctx st id issuer) =
          putState st ("ENERGY_" ++ id) (.energyData e') := by
  simp only [verifyEnergyData] at h ⊢
  cases hk : getState st ("ENERGY_" ++ id) with
  | none => simp [hk, TxResult.fail, Outcome.isOk] at h
  | some d =>
    cases d with
    | energyData e =>
      simp only [hk] at h ⊢
      split_ifs at h ⊢ with h1 h2
      · simp [TxResult.fail, Outcome.isOk] at h
      · simp [TxResult.fail, Outcome.isOk] at h
      · refine ⟨e, _, rfl, ?_, ⟨by simpa using h1, _, _, _, _, rfl⟩, rfl⟩
        by_cases he : e.energyDataHash = ""
        · exact Or.inl he
        · right
          by_contra hne
          exact h2 ⟨he, hne⟩
    | energyHash m => simp [hk, TxResult.fail, Outcome.isOk] at h
    | certificate c => simp [hk, TxResult.fail, Outcome.isOk] at h
    | certHash m => simp [hk, TxResult.fail, Outcome.isOk] at h

/-- What the key `ENERGY_<id>` holds right after a successful `submitEnergyData`: the new
record, or (when the key is also the hash key) the hash mapping. -/
theorem submitEnergyData_key {L : Lib} {ctx : Ctx} {st : Ledger Doc} {id a s t l g : String}
    (h : (submitEnergyData L ctx st id a s t l g).result.isOk = true) :
    (∃ e, getState (commit st (submitEnergyData L ctx st id a s t l g)) ("ENERGY_" ++ id)
          = some (.energyData e)
        ∧ e.energyDataHash = generateEnergyDataHash L a s t l g)
      ∨ ∃ m, getState (commit st (submitEnergyData L ctx st id a s t l g)) ("ENERGY_" ++ id)
          = some (.energyHash m) := by
  obtain ⟨_, _, e, m, _, _, _, he, heq⟩ := submitEnergyData_ok h
  rw [heq]
  simp only [commit, applyWrites, getState_putState]
  by_cases hc : "ENERGY_HASH_" ++ generateEnergyDataHash L a s t l g = "ENERGY_" ++ id
  · right; exact ⟨m, by simp [hc]⟩
  · left; exact ⟨e, by simp [hc], he⟩

/-- C8 (integrity round trip). For a record created by `submitEnergyData` and later verified
by `verifyEnergyData`, with any invocations in between and afterwards,
`verifyEnergyDataIntegrity` returns `isValid = true`: the hash recomputed from the stored
members is the stored hash, which is the hash of the submitted tuple. The digest of the
tuple is assumed not to be the empty string. -/
theorem integrity_round_trip (L : Lib) (ctx1 ctx2 : Ctx) (st : Ledger Doc)
    (id a s t l g issuer : String) (txs1 txs2 : List (Ctx × Op))
    (h1 : (submitEnergyData L ctx1 st id a s t l g).result.isOk = true)
    (h2 : (verifyEnergyData L ctx2
      (run L (commit st (submitEnergyData L ctx1 st id a s t l g)) txs1) id issuer).result.isOk
        = true)
    (h3 : generateEnergyDataHash L a s t l g ≠ "") :
    ∃ r, verifyEnergyDataIntegrity L
        (run L
          (commit (run L (commit st (submitEnergyData L ctx1 st id a s t l g)) txs1)
            (verifyEnergyData L ctx2
              (run L (commit st (submitEnergyData L ctx1 st id a s t l g)) txs1) id issuer))
          txs2) id = ⟨[], .ok r⟩
      ∧ r.isValid = true
      ∧ r.originalHash = some (generateEnergyDataHash L a s t l g)
      ∧ r.recalculatedHash = some (generateEnergyDataHash L a s t l g) := by
  obtain ⟨eA, eV, hA, hvalid, hver, hcommit⟩ := verifyEnergyData_ok h2
  have hhashA : eA.energyDataHash = generateEnergyDataHash L a s t l g := by
    rcases submitEnergyData_key h1 with ⟨e, he, heh⟩ | ⟨m, hm⟩
    · obtain ⟨e', he', hs⟩ := run_sameIdentity L txs1 _ he
      rw [hA] at he'
      have : eA = e' := by injection he' with he'; injection he'
      rw [this, hs.2.2.2.2.2.2, heh]
    · have := run_energyHash L txs1 _ hm
      rw [hA] at this
      cases this
  have hrecA : recalculateHash L eA = eA.energyDataHash := by
    rcases hvalid with h | h
    · rw [hhashA] at h; exact absurd h h3
    · exact h
  rw [hcommit]
  obtain ⟨eC, hC, hs⟩ := run_sameIdentity L txs2
    (putState (run L (commit st (submitEnergyData L ctx1 st id a s t l g)) txs1)
      ("ENERGY_" ++ id) (.energyData eV)) (getState_putState_same _ _ _)
  have hAC := hver.sameIdentity.trans hs
  have hhashC : eC.energyDataHash = generateEnergyDataHash L a s t l g := by
    rw [hAC.2.2.2.2.2.2, hhashA]
  have hrecC : recalculateHash L eC = generateEnergyDataHash L a s t l g := by
    rw [hAC.recalculateHash, hrecA, hhashA]
  generalize run L (putState (run L (commit st (submitEnergyData L ctx1 st id a s t l g)) txs1)
      ("ENERGY_" ++ id) (.energyData eV)) txs2 = stC at hC ⊢
  have hrep : verifyEnergyDataIntegrity L stC id =
      ⟨[], .ok
        { isValid := true
          originalHash := some (generateEnergyDataHash L a s t l g)
          recalculatedHash := some (generateEnergyDataHash L a s t l g)
          message := "Energy data integrity verified" }⟩ := by
    simp [verifyEnergyDataIntegrity, hC, hhashC, h3, hrecC]
  exact ⟨_, hrep, rfl, rfl, rfl⟩

end Chaincode
end REC

namespace REC
namespace Chaincode

/-- The sample record `E1` is submitted and verified, a certificate is requested against
it, and the integrity check then reports the stored hash as valid. -/
theorem integrity_round_trip_witness :
    (submitEnergyData Node.lib sampleCtx [] "E1" "100" "SOLAR" "2024-01-01" "Jakarta"
        "G1").result.isOk = true
      ∧ (verifyEnergyData Node.lib sampleCtx
          (run Node.lib (commit [] (submitEnergyData Node.lib sampleCtx [] "E1" "100" "SOLAR"
            "2024-01-01" "Jakarta" "G1")) []) "E1" "I1").result.isOk = true
      ∧ generateEnergyDataHash Node.lib "100" "SOLAR" "2024-01-01" "Jakarta" "G1" ≠ ""
      ∧ ∃ r, verifyEnergyDataIntegrity Node.lib
          (run Node.lib
            (commit
              (run Node.lib (commit [] (submitEnergyData Node.lib sampleCtx [] "E1" "100" "SOLAR"
                "2024-01-01" "Jakarta" "G1")) [])
              (verifyEnergyData Node.lib sampleCtx
                (run Node.lib (commit [] (submitEnergyData Node.lib sampleCtx [] "E1" "100"
                  "SOLAR" "2024-01-01" "Jakarta" "G1")) []) "E1" "I1"))
            [(sampleCtx, .requestCertificate "C1" "E1" "B1" "50" "")]) "E1" = ⟨[], .ok r⟩
        ∧ r.isValid = true
        ∧ r.originalHash =
          some (generateEnergyDataHash Node.lib "100" "SOLAR" "2024-01-01" "Jakarta" "G1")
        ∧ r.recalculatedHash =
          some (generateEnergyDataHash Node.lib "100" "SOLAR" "2024-01-01" "Jakarta" "G1") :=
  ⟨by decide!, by decide!, by decide!,
    integrity_round_trip Node.lib sampleCtx sampleCtx [] "E1" "100" "SOLAR" "2024-01-01"
      "Jakarta" "G1" "I1" [] [(sampleCtx, .requestCertificate "C1" "E1" "B1" "50" "")]
      (by decide!) (by decide!) (by decide!)⟩

/-- The report of `verifyEnergyDataIntegrity` on a record whose members were replaced and
whose stored hash was kept: it is valid exactly when the hash recomputed from the new
members equals the one recomputed from the old members. -/
theorem integrity_report_replaced (L : Lib) (st : Ledger Doc) (id : String) (e e' : EnergyData)
    (hstored : getState st ("ENERGY_" ++ id) = some (.energyData e'))
    (hvalid : recalculateHash L e = e.energyDataHash)
    (hne : e.energyDataHash ≠ "")
    (hhash : e'.energyDataHash = e.energyDataHash) :
    ∃ r, verifyEnergyDataIntegrity L st id = ⟨[], .ok r⟩
      ∧ (r.isValid = false ↔ recalculateHash L e' ≠ recalculateHash L e) := by
  have hne' : e'.energyDataHash ≠ "" := by rw [hhash]; exact hne
  have hrep : verifyEnergyDataIntegrity L st id =
      ⟨[], .ok
        { isValid := decide (recalculateHash L e' = e'.energyDataHash)
          originalHash := some e'.energyDataHash
          recalculatedHash := some (recalculateHash L e')
          message :=
            if decide (recalculateHash L e' = e'.energyDataHash) = true then
              "Energy data integrity verified"
            else "Energy data integrity FAILED - data tampering detected" }⟩ := by
    simp only [verifyEnergyDataIntegrity, hstored, hne', if_false]
  refine ⟨_, hrep, ?_⟩
  simp [hhash, hvalid]

/-- C9, the claim as stated fails: the stored hash of `E1` is valid, the stored location is
replaced by the different value "JAKARTA", and `verifyEnergyDataIntegrity` still returns
`isValid = true`. -/
theorem tamper_detection_counterexample :
    getState ledgerVerified "ENERGY_E1" = some (.energyData verifiedE1)
      ∧ (verifyEnergyDataIntegrity Node.lib ledgerVerified "E1").result =
        .ok
          { isValid := true
            originalHash := some verifiedE1.energyDataHash
            recalculatedHash := some verifiedE1.energyDataHash
            message := "Energy data integrity verified" }
      ∧ verifiedE1.location ≠ "JAKARTA"
      ∧ getState tamperedLocation "ENERGY_E1" =
        some (.energyData { verifiedE1 with location := "JAKARTA" })
      ∧ (verifyEnergyDataIntegrity Node.lib tamperedLocation "E1").result =
        .ok
          { isValid := true
            originalHash := some verifiedE1.energyDataHash
            recalculatedHash := some verifiedE1.energyDataHash
            message := "Energy data integrity verified" } := by
  decide!

/-- After `submitEnergyData(id1, t)` on the empty ledger, `submitEnergyData(id2, t')`
succeeds when `ENERGY_<id2>` holds nothing, the hash of `t'` differs from the hash of `t`,
and `id1` is not the text `HASH_<hash of t'>`. -/
theorem fresh_hash_accepted (L : Lib) (ctx1 ctx2 : Ctx)
    (id1 id2 a s t l g a' s' t' l' g' : String)
    (hfree : getState (commit [] (submitEnergyData L ctx1 [] id1 a s t l g)) ("ENERGY_" ++ id2)
      = none)
    (hdiff : generateEnergyDataHash L a' s' t' l' g' ≠ generateEnergyDataHash L a s t l g)
    (hid : id1 ≠ "HASH_" ++ generateEnergyDataHash L a' s' t' l' g') :
    (submitEnergyData L ctx2 (commit [] (submitEnergyData L ctx1 [] id1 a s t l g))
      id2 a' s' t' l' g').result.isOk = true := by
  have h1 : (submitEnergyData L ctx1 [] id1 a s t l g).result.isOk = true := by
    simp [submitEnergyData, getState, Outcome.isOk]
  obtain ⟨_, _, e, m, _, _, _, _, heq⟩ := submitEnergyData_ok h1
  have hk1 : "ENERGY_" ++ id1 ≠ "ENERGY_HASH_" ++ generateEnergyDataHash L a' s' t' l' g' := by
    intro h
    have h' : "ENERGY_" ++ id1 = "ENERGY_" ++ ("HASH_" ++ generateEnergyDataHash L a' s' t' l' g') := by
      rw [h, ← String.append_assoc]
      rfl
    exact hid (string_append_left_cancel h')
  have hk2 : "ENERGY_HASH_" ++ generateEnergyDataHash L a s t l g ≠
      "ENERGY_HASH_" ++ generateEnergyDataHash L a' s' t' l' g' := by
    intro h
    exact hdiff (string_append_left_cancel h).symm
  have hhash : getState (commit [] (submitEnergyData L ctx1 [] id1 a s t l g))
      ("ENERGY_HASH_" ++ generateEnergyDataHash L a' s' t' l' g') = none := by
    rw [heq]
    simp only [commit, applyWrites]
    rw [getState_putState_other _ _ _ _ hk2, getState_putState_other _ _ _ _ hk1]
    rfl
  generalize commit [] (submitEnergyData L ctx1 [] id1 a s t l g) = st1 at hfree hhash ⊢
  simp [submitEnergyData, hfree, hhash, Outcome.isOk]

end Chaincode
end REC

namespace REC
namespace Chaincode

/-- Whether `requestCertificate` succeeds does not depend on `purchasedAmount`: the amount
is parsed and stored, and never compared with the amount of the energy record. -/
theorem requestCertificate_amount_unchecked (L : Lib) (ctx : Ctx) (st : Ledger Doc)
    (certId energyId buyerId p p' sec : String) :
    (requestCertificate L ctx st certId energyId buyerId p sec).result.isOk =
      (requestCertificate L ctx st certId energyId buyerId p' sec).result.isOk := by
  simp only [requestCertificate]
  cases getState st ("CERTIFICATE_" ++ certId) with
  | some d => rfl
  | none =>
    cases getState st ("ENERGY_" ++ energyId) with
    | none => rfl
    | some d =>
      cases d with
      | energyData e =>
        simp only
        split_ifs <;> rfl
      | energyHash m => rfl
      | certificate c => rfl
      | certHash m => rfl

/-- The record `submitEnergyData` returns passes the hash recomputation, when upper-casing
is idempotent on the source type and the stored amount prints and parses back to the same
JSON number. -/
theorem recalculateHash_submitted (L : Lib) (ctx : Ctx) (st : Ledger Doc)
    (id a s t l g : String)
    (hup : L.toUpperCase (L.toUpperCase s) = L.toUpperCase s)
    (hnum : jsonNumber L (L.parseFloat (storedToString L (L.parseFloat a).toStored)) =
      jsonNumber L (L.parseFloat a))
    (h : (submitEnergyData L ctx st id a s t l g).result.isOk = true) :
    ∃ e, (submitEnergyData L ctx st id a s t l g).result = .ok e
      ∧ recalculateHash L e = e.energyDataHash := by
  obtain ⟨hk, hh, _⟩ := submitEnergyData_ok h
  simp only [submitEnergyData, hk, hh]
  refine ⟨_, rfl, ?_⟩
  simp only [recalculateHash, generateEnergyDataHash, hashDataJSON, hup, hnum]

/-- When `requestCertificate` succeeds: the certificate key holds nothing, the energy key
holds a record in status VERIFIED, and no truthy certificate hash was supplied whose hash
key holds a document. The purchased amount plays no part. -/
theorem requestCertificate_isOk_iff (L : Lib) (ctx : Ctx) (st : Ledger Doc)
    (certId energyId buyerId p sec : String) :
    (requestCertificate L ctx st certId energyId buyerId p sec).result.isOk = true ↔
      getState st ("CERTIFICATE_" ++ certId) = none
        ∧ (∃ e, getState st ("ENERGY_" ++ energyId) = some (.energyData e)
            ∧ e.status = "VERIFIED")
        ∧ ¬ ((parseSecurity L ctx certId sec).certificate_hash.truthy = true
            ∧ (getState st ("CERT_HASH_"
                ++ (parseSecurity L ctx certId sec).certificate_hash.text L)).isSome
              = true) := by
  simp only [requestCertificate]
  cases hk : getState st ("CERTIFICATE_" ++ certId) with
  | some d => simp [TxResult.fail, Outcome.isOk]
  | none =>
    cases he : getState st ("ENERGY_" ++ energyId) with
    | none => simp [TxResult.fail, Outcome.isOk]
    | some d =>
      cases d with
      | energyData e =>
        simp only
        split_ifs with h1 h2
        · simp [TxResult.fail, Outcome.isOk, h1]
        · have h1' : e.status = "VERIFIED" := by simpa using h1
          simp only [TxResult.fail, Outcome.isOk]
          constructor
          · intro h; cases h
          · intro h; exact absurd h2 h.2.2
        · have h1' : e.status = "VERIFIED" := by simpa using h1
          simp only [Outcome.isOk, true_iff]
          exact ⟨trivial, ⟨e, rfl, h1'⟩, h2⟩
      | energyHash m => simp [TxResult.fail, Outcome.isOk]
      | certificate c => simp [TxResult.fail, Outcome.isOk]
      | certHash m => simp [TxResult.fail, Outcome.isOk]

end Chaincode
end REC

namespace REC
namespace Chaincode

/-- C11, the code at the failing input: `submitEnergyData` of the sample tuple under the id
`HASH_<hash of the tuple>` succeeds and returns the record, but the key `ENERGY_<id>` is
also the hash key, so after the commit it holds the hash mapping, and `getEnergyDataById`
returns the mapping instead of the returned record. -/
theorem submit_postcondition_collision :
    submitColliding.result = .ok { recordE1 with energyDataId := collidingId }
      ∧ "ENERGY_" ++ collidingId = "ENERGY_HASH_" ++ recordE1.energyDataHash
      ∧ getState (commit [] submitColliding) ("ENERGY_" ++ collidingId) =
        some (.energyHash
          { energyDataId := collidingId
            energyDataHash := recordE1.energyDataHash
            generatorId := "G1"
            createdAt := "2024-01-01T00:00:00.000Z"
            originalTxId := "a3f1c29b7d5e4f60" })
      ∧ (getEnergyDataById (commit [] submitColliding) collidingId).result ≠
        .ok (.energyData { recordE1 with energyDataId := collidingId }) := by
  decide!

/-- The postcondition of `submitEnergyData` when the id is not `HASH_<hash>` of the returned
record: the key `ENERGY_<id>` holds the returned record, `getEnergyDataById` returns it,
the hash key holds a mapping that names the id, and every other key is as before. -/
theorem submitEnergyData_postcondition (L : Lib) (ctx : Ctx) (st : Ledger Doc)
    (id a s t l g : String) (e : EnergyData)
    (h : (submitEnergyData L ctx st id a s t l g).result = .ok e)
    (hid : id ≠ "HASH_" ++ e.energyDataHash) :
    getState (commit st (submitEnergyData L ctx st id a s t l g)) ("ENERGY_" ++ id)
        = some (.energyData e)
      ∧ getEnergyDataById (commit st (submitEnergyData L ctx st id a s t l g)) id
        = ⟨[], .ok (.energyData e)⟩
      ∧ (∃ m : HashMapping,
          getState (commit st (submitEnergyData L ctx st id a s t l g))
            ("ENERGY_HASH_" ++ e.energyDataHash) = some (.energyHash m)
          ∧ m.energyDataId = id)
      ∧ ∀ k, k ≠ "ENERGY_" ++ id → k ≠ "ENERGY_HASH_" ++ e.energyDataHash →
          getState (commit st (submitEnergyData L ctx st id a s t l g)) k = getState st k := by
  have hok : (submitEnergyData L ctx st id a s t l g).result.isOk = true := by
    rw [h]; rfl
  obtain ⟨_, _, e0, m, hm, _, _, he0, heq⟩ := submitEnergyData_ok hok
  have hee : e0 = e := by
    rw [heq] at h
    injection h
  subst hee
  have hkeys : "ENERGY_HASH_" ++ e0.energyDataHash ≠ "ENERGY_" ++ id := by
    intro hc
    have h' : "ENERGY_" ++ ("HASH_" ++ e0.energyDataHash) = "ENERGY_" ++ id := by
      rw [← hc, ← String.append_assoc]
      rfl
    exact hid (string_append_left_cancel h').symm
  have hget : getState (commit st (submitEnergyData L ctx st id a s t l g)) ("ENERGY_" ++ id)
      = some (.energyData e0) := by
    rw [heq]
    simp only [commit, applyWrites]
    rw [← he0, getState_putState_other _ _ _ _ hkeys, getState_putState_same]
  refine ⟨hget, by simp only [getEnergyDataById, hget], ⟨m, ?_, hm⟩, ?_⟩
  · rw [heq]
    simp only [commit, applyWrites]
    rw [he0, getState_putState_same]
  · intro k hk1 hk2
    rw [heq]
    simp only [commit, applyWrites]
    rw [← he0, getState_putState_other _ _ _ _ (Ne.symm hk2),
      getState_putState_other _ _ _ _ (Ne.symm hk1)]

/-- C12 (initial status), as the code has it. Every successful `submitEnergyData` of
`chaincode/src` returns a record with status PENDING, writes it first under `ENERGY_<id>`,
and any energy record the key holds after the commit is the returned one. -/
theorem initial_status (L : Lib) (ctx : Ctx) (st : Ledger Doc) (id a s t l g : String)
    (e : EnergyData) (h : (submitEnergyData L ctx st id a s t l g).result = .ok e) :
    e.status = "PENDING"
      ∧ (submitEnergyData L ctx st id a s t l g).writes.head? =
        some ("ENERGY_" ++ id, .energyData e)
      ∧ ∀ e', getState (commit st (submitEnergyData L ctx st id a s t l g)) ("ENERGY_" ++ id)
          = some (.energyData e') → e' = e := by
  have hok : (submitEnergyData L ctx st id a s t l g).result.isOk = true := by
    rw [h]; rfl
  obtain ⟨hk, hh, e0, m, _, _, _, _, heq⟩ := submitEnergyData_ok hok
  have hee : e0 = e := by
    rw [heq] at h
    injection h
  subst hee
  refine ⟨?_, by rw [heq]; rfl, ?_⟩
  · have h2 := h
    simp only [submitEnergyData, hk, hh] at h2
    injection h2 with h2
    rw [← h2]
  · intro e' he'
    rw [heq] at he'
    simp only [commit, applyWrites, getState_putState] at he'
    by_cases hc : "ENERGY_HASH_" ++ generateEnergyDataHash L a s t l g = "ENERGY_" ++ id
    · simp [hc] at he'
    · simp only [hc, if_false, if_true] at he'
      injection he' with he'
      injection he' with he'
      exact he'.symm

/-- The submission of `E1` returns the record `recordE1`, whose status is PENDING, and the
key `ENERGY_E1` holds it. -/
theorem initial_status_witness :
    (submitEnergyData Node.lib sampleCtx [] "E1" "100" "SOLAR" "2024-01-01" "Jakarta"
        "G1").result = .ok recordE1
      ∧ recordE1.status = "PENDING"
      ∧ (submitEnergyData Node.lib sampleCtx [] "E1" "100" "SOLAR" "2024-01-01" "Jakarta"
          "G1").writes.head? = some ("ENERGY_" ++ "E1", .energyData recordE1) :=
  have h := initial_status Node.lib sampleCtx [] "E1" "100" "SOLAR" "2024-01-01" "Jakarta" "G1"
    recordE1 (by decide!)
  ⟨by decide!, h.1, h.2.1⟩

/-- C12, the claim as stated fails: the record returned and stored by a successful
`submitEnergyData` has status PENDING, not PENDING_VERIFICATION. -/
theorem initial_status_counterexample :
    submitE1.result = .ok recordE1
      ∧ getState (commit [] submitE1) "ENERGY_E1" = some (.energyData recordE1)
      ∧ recordE1.status = "PENDING"
      ∧ recordE1.status ≠ "PENDING_VERIFICATION" := by
  decide!

/-- C13 (energy verification contract). `verifyEnergyData(id, issuerId)` writes nothing and
fails with the not-found error when `ENERGY_<id>` holds nothing, and with the status error
when the stored document has no status PENDING. When it succeeds, the key held a pending
record, and afterwards it holds the returned record, which has status VERIFIED,
`verifiedBy = issuerId`, `verifiedAt` = the transaction timestamp, and the same
`energyDataId`, `amount`, `sourceType`, `generationDate`, `location`, `generatorId` and
`energyDataHash` as before. -/
theorem verifyEnergyData_contract (L : Lib) (ctx : Ctx) (st : Ledger Doc)
    (id issuerId : String) :
    (getState st ("ENERGY_" ++ id) = none →
        verifyEnergyData L ctx st id issuerId =
          ⟨[], .error ("Energy data with ID " ++ id ++ " does not exist")⟩)
      ∧ (∀ d, getState st ("ENERGY_" ++ id) = some d → d.status ≠ some "PENDING" →
        verifyEnergyData L ctx st id issuerId =
          ⟨[], .error ("Energy data " ++ id ++ " must be in PENDING status for verification")⟩)
      ∧ ∀ r, (verifyEnergyData L ctx st id issuerId).result = .ok r →
        ∃ e, getState st ("ENERGY_" ++ id) = some (.energyData e)
          ∧ e.status = "PENDING"
          ∧ getState (commit st (verifyEnergyData L ctx st id issuerId)) ("ENERGY_" ++ id)
            = some (.energyData r.energyData)
          ∧ r.energyData.status = "VERIFIED"
          ∧ r.energyData.verifiedBy = some issuerId
          ∧ r.energyData.verifiedAt = some (L.toISOString (ctx.txTimestampSeconds * 1000))
          ∧ SameIdentity e r.energyData := by
  refine ⟨?_, ?_, ?_⟩
  · intro hk
    simp only [verifyEnergyData, hk, TxResult.fail]
  · intro d hk hd
    cases d with
    | energyData e =>
      have hs : e.status ≠ "PENDING" := fun h => hd (by simp [Doc.status, h])
      simp only [verifyEnergyData, hk, TxResult.fail]
      simp [hs]
    | energyHash m => simp only [verifyEnergyData, hk, TxResult.fail]
    | certificate c => simp only [verifyEnergyData, hk, TxResult.fail]
    | certHash m => simp only [verifyEnergyData, hk, TxResult.fail]
  · intro r hr
    simp only [verifyEnergyData] at hr ⊢
    cases hk : getState st ("ENERGY_" ++ id) with
    | none => simp [hk, TxResult.fail] at hr
    | some d =>
      cases d with
      | energyData e =>
        simp only [hk] at hr ⊢
        split_ifs at hr ⊢ with h1 h2
        · simp [TxResult.fail] at hr
        · simp [TxResult.fail] at hr
        · injection hr with hr
          subst hr
          refine ⟨e, rfl, by simpa using h1, ?_, rfl, rfl, rfl, ⟨rfl, rfl, rfl, rfl, rfl, rfl, rfl⟩⟩
          simp only [commit, applyWrites, getState_putState_same]
      | energyHash m => simp [hk, TxResult.fail] at hr
      | certificate c => simp [hk, TxResult.fail] at hr
      | certHash m => simp [hk, TxResult.fail] at hr

/-- On the sample data: verifying the unknown id `E9` and verifying `E1` a second time fail,
and verifying the pending `E1` stores the verified record. -/
theorem verifyEnergyData_contract_witness :
    verifyEnergyData Node.lib sampleCtx ledgerE1 "E9" "I1" =
        ⟨[], .error ("Energy data with ID " ++ "E9" ++ " does not exist")⟩
      ∧ verifyEnergyData Node.lib sampleCtx ledgerVerified "E1" "I2" =
        ⟨[], .error ("Energy data " ++ "E1" ++ " must be in PENDING status for verification")⟩
      ∧ ∃ e, getState ledgerE1 ("ENERGY_" ++ "E1") = some (.energyData e)
          ∧ e.status = "PENDING"
          ∧ getState (commit ledgerE1 (verifyEnergyData Node.lib sampleCtx ledgerE1 "E1" "I1"))
            ("ENERGY_" ++ "E1") = some (.energyData verifiedE1)
          ∧ verifiedE1.status = "VERIFIED"
          ∧ verifiedE1.verifiedBy = some "I1"
          ∧ verifiedE1.verifiedAt =
            some (Node.lib.toISOString (sampleCtx.txTimestampSeconds * 1000))
          ∧ SameIdentity e verifiedE1 :=
  ⟨(verifyEnergyData_contract Node.lib sampleCtx ledgerE1 "E9" "I1").1 (by decide!),
   (verifyEnergyData_contract Node.lib sampleCtx ledgerVerified "E1" "I2").2.1
      (.energyData verifiedE1) (by decide!) (by decide!),
   (verifyEnergyData_contract Node.lib sampleCtx ledgerE1 "E1" "I1").2.2
      ⟨"Energy data verified successfully with integrity confirmation", verifiedE1⟩
      (by decide!)⟩

end Chaincode
end REC

namespace REC
namespace Chaincode

/-- A hash key of a certificate is never a certificate key. -/
theorem certHash_ne_certificate (a b : String) : "CERT_HASH_" ++ a ≠ "CERTIFICATE_" ++ b := by
  intro h
  have h2 := congrArg (fun s => s.data.get? 4) h
  simp [String.data_append] at h2

/-- C14 (integrity gate on verification), as the code has it. For a stored pending record
whose stored `energyDataHash` is not empty, `verifyEnergyData` fails with the integrity
error and leaves the state as it is when the hash recomputed from the stored members
disagrees with the stored one. The check is skipped for a record whose stored hash is
empty: it is verified and marked `hashValidated = false`. So a record is moved to VERIFIED
only if its stored hash is empty or matched the recomputation. -/
theorem integrity_gate (L : Lib) (ctx : Ctx) (st : Ledger Doc) (id issuerId : String)
    (e : EnergyData) (hk : getState st ("ENERGY_" ++ id) = some (.energyData e))
    (hs : e.status = "PENDING") :
    (e.energyDataHash ≠ "" → recalculateHash L e ≠ e.energyDataHash →
        verifyEnergyData L ctx st id issuerId =
          ⟨[], .error ("Energy data integrity check FAILED. Original hash: "
            ++ e.energyDataHash ++ ", Calculated: " ++ recalculateHash L e
            ++ ". Data may have been tampered with.")⟩
        ∧ commit st (verifyEnergyData L ctx st id issuerId) = st)
      ∧ (e.energyDataHash = "" →
        ∃ r, (verifyEnergyData L ctx st id issuerId).result = .ok r
          ∧ r.energyData.status = "VERIFIED"
          ∧ r.energyData.verification.map (fun v => v.hashValidated) = some false)
      ∧ ((verifyEnergyData L ctx st id issuerId).result.isOk = true →
        e.energyDataHash = "" ∨ recalculateHash L e = e.energyDataHash) := by
  refine ⟨?_, ?_, ?_⟩
  · intro hne hdis
    have heq : verifyEnergyData L ctx st id issuerId =
        ⟨[], .error ("Energy data integrity check FAILED. Original hash: "
          ++ e.energyDataHash ++ ", Calculated: " ++ recalculateHash L e
          ++ ". Data may have been tampered with.")⟩ := by
      simp only [verifyEnergyData, hk, TxResult.fail]
      simp [hs, hne, hdis]
    exact ⟨heq, by rw [heq]; rfl⟩
  · intro hempty
    simp only [verifyEnergyData, hk, TxResult.fail]
    simp [hs, hempty]
  · intro hok
    simp only [verifyEnergyData, hk, TxResult.fail] at hok
    by_cases h1 : e.energyDataHash = ""
    · exact Or.inl h1
    · by_cases h2 : recalculateHash L e = e.energyDataHash
      · exact Or.inr h2
      · simp [hs, h1, h2, Outcome.isOk] at hok

/-- The pending record `E1` whose stored amount was changed out of band from 100 to 999 is
refused by `verifyEnergyData`, and the state stays as it is. -/
theorem integrity_gate_witness :
    verifyEnergyData Node.lib sampleCtx tamperedPending "E1" "I1" =
        ⟨[], .error ("Energy data integrity check FAILED. Original hash: "
          ++ "93b9c20ebbf212d4de6972ba1ce8b40380798d7986b6ea8b15edd9adbcea6039"
          ++ ", Calculated: "
          ++ "fb818f342e3a8faf3e64d23367c5c757976ef728eda1f1f24b143b5e3c960152"
          ++ ". Data may have been tampered with.")⟩
      ∧ commit tamperedPending (verifyEnergyData Node.lib sampleCtx tamperedPending "E1" "I1")
        = tamperedPending :=
  have h := (integrity_gate Node.lib sampleCtx tamperedPending "E1" "I1"
    { recordE1 with amount := some 999 } (by decide!) (by decide!)).1 (by decide!) (by decide!)
  ⟨h.1.trans (by decide!), h.2⟩

/-- C14, the claim as stated fails: the pending record `L1` has an empty stored hash, which
disagrees with the hash recomputed from its members, and `verifyEnergyData` succeeds and
stores it as VERIFIED. -/
theorem integrity_gate_counterexample :
    getState legacyLedger "ENERGY_L1" = some (.energyData legacyRecord)
      ∧ legacyRecord.status = "PENDING"
      ∧ legacyRecord.energyDataHash = ""
      ∧ recalculateHash Node.lib legacyRecord ≠ legacyRecord.energyDataHash
      ∧ (verifyEnergyData Node.lib sampleCtx legacyLedger "L1" "I1").result.isOk = true
      ∧ (getState (commit legacyLedger (verifyEnergyData Node.lib sampleCtx legacyLedger "L1"
          "I1")) "ENERGY_L1").bind Doc.status = some "VERIFIED" := by
  decide!

/-- A committed invocation leaves a stored VERIFIED record as it is. -/
theorem step_verified (L : Lib) (ctx : Ctx) (st : Ledger Doc) (op : Op) {k : String}
    {e : EnergyData} (hk : getState st k = some (.energyData e)) (hs : e.status = "VERIFIED") :
    getState (step L ctx st op) k = some (.energyData e) := by
  rcases (effect_step L ctx st op).get_some hk with h | ⟨e0, e', h, hver, _⟩ | ⟨c, c', h, _⟩
  · exact h
  · have he : e = e0 := by injection h
    subst he
    have hp := hver.1
    rw [hs] at hp
    exact absurd hp (by decide)
  · cases h

/-- C15 (energy status never reverses). When a key holds an energy record in status
VERIFIED, then after any sequence of invocations of `EnergyDataContract` and
`CertificateContract` the key holds the same document: the record is still VERIFIED and
every member is as it was. -/
theorem verified_stable (L : Lib) (txs : List (Ctx × Op)) (st : Ledger Doc) (k : String)
    (e : EnergyData) (hk : getState st k = some (.energyData e)) (hs : e.status = "VERIFIED") :
    getState (run L st txs) k = some (.energyData e) := by
  induction txs generalizing st with
  | nil => exact hk
  | cons tx txs ih => exact ih (step L tx.1 st tx.2) (step_verified L tx.1 st tx.2 hk hs)

/-- The record `E1`, verified in `ledgerVerified`, is the same document after a second
verification attempt, a resubmission and the whole certificate workflow. -/
theorem verified_stable_witness :
    getState ledgerVerified "ENERGY_E1" = some (.energyData verifiedE1)
      ∧ verifiedE1.status = "VERIFIED"
      ∧ getState (run Node.lib ledgerVerified
          ((sampleCtx, Op.verifyEnergyData "E1" "I2")
            :: (sampleCtx, Op.submitEnergyData "E1" "7" "WIND" "2024-02-02" "Bali" "G2")
            :: sampleWorkflow.drop 2)) "ENERGY_E1" = some (.energyData verifiedE1) :=
  ⟨by decide!, by decide!,
    verified_stable Node.lib _ ledgerVerified "ENERGY_E1" verifiedE1 (by decide!) (by decide!)⟩

/-- C16 (certificate request preconditions). For an unused `certId`, `requestCertificate`
writes nothing and fails with the not-found error when `ENERGY_<energyId>` holds nothing,
and with the must-be-VERIFIED error when the stored document has no status VERIFIED.
Whenever it succeeds, the energy key holds a record in status VERIFIED, and the returned
certificate, stored under `CERTIFICATE_<certId>`, has status CERTIFICATE_REQUESTED and
buyer `buyerId`. -/
theorem requestCertificate_preconditions (L : Lib) (ctx : Ctx) (st : Ledger Doc)
    (certId energyId buyerId p sec : String) :
    (getState st ("CERTIFICATE_" ++ certId) = none →
        getState st ("ENERGY_" ++ energyId) = none →
        requestCertificate L ctx st certId energyId buyerId p sec =
          ⟨[], .error ("EnergyData " ++ energyId ++ " does not exist")⟩)
      ∧ (getState st ("CERTIFICATE_" ++ certId) = none →
        ∀ d, getState st ("ENERGY_" ++ energyId) = some d → d.status ≠ some "VERIFIED" →
        requestCertificate L ctx st certId energyId buyerId p sec =
          ⟨[], .error ("EnergyData " ++ energyId
            ++ " must be VERIFIED before certificate request")⟩)
      ∧ ∀ c, (requestCertificate L ctx st certId energyId buyerId p sec).result = .ok c →
        (∃ e, getState st ("ENERGY_" ++ energyId) = some (.energyData e)
          ∧ e.status = "VERIFIED")
        ∧ c.certificateInfo.status = "CERTIFICATE_REQUESTED"
        ∧ c.parties.buyer.buyerId = buyerId
        ∧ getState (commit st (requestCertificate L ctx st certId energyId buyerId p sec))
          ("CERTIFICATE_" ++ certId) = some (.certificate c) := by
  refine ⟨?_, ?_, ?_⟩
  · intro hfree he
    simp only [requestCertificate, hfree, he, TxResult.fail]
  · intro hfree d he hd
    cases d with
    | energyData e =>
      have hs : e.status ≠ "VERIFIED" := fun h => hd (by simp [Doc.status, h])
      simp only [requestCertificate, hfree, he, TxResult.fail]
      simp [hs]
    | energyHash m => simp only [requestCertificate, hfree, he, TxResult.fail]
    | certificate c => simp only [requestCertificate, hfree, he, TxResult.fail]
    | certHash m => simp only [requestCertificate, hfree, he, TxResult.fail]
  · intro c hc
    have hok : (requestCertificate L ctx st certId energyId buyerId p sec).result.isOk
        = true := by
      rw [hc]; rfl
    obtain ⟨hfree, ⟨e, he, hs⟩, hdup⟩ := (requestCertificate_isOk_iff L ctx st certId energyId
      buyerId p sec).1 hok
    have hs' : ¬ e.status ≠ "VERIFIED" := fun h => h hs
    have heq : requestCertificate L ctx st certId energyId buyerId p sec =
        ⟨requestWrites L ctx certId buyerId
          (newCertificate L ctx certId energyId buyerId p e (parseSecurity L ctx certId sec))
          (parseSecurity L ctx certId sec),
         .ok (newCertificate L ctx certId energyId buyerId p e
          (parseSecurity L ctx certId sec))⟩ := by
      simp only [requestCertificate, hfree, he]
      rw [if_neg hs', if_neg hdup]
    have hcc : newCertificate L ctx certId energyId buyerId p e
        (parseSecurity L ctx certId sec) = c := by
      rw [heq] at hc
      injection hc
    refine ⟨⟨e, he, hs⟩, by rw [← hcc]; rfl, by rw [← hcc]; rfl, ?_⟩
    rw [heq, hcc]
    simp only [commit, requestWrites]
    split_ifs with ht
    · simp only [applyWrites]
      rw [getState_putState_other _ _ _ _ (certHash_ne_certificate _ _), getState_putState_same]
    · simp only [applyWrites, getState_putState_same]

/-- On the sample data: a request against the unknown record `E9` and one against the
pending record `E1` fail, and the request against the verified `E1` stores `certificateC1`,
which is in status CERTIFICATE_REQUESTED with buyer `B1`. -/
theorem requestCertificate_preconditions_witness :
    requestCertificate Node.lib sampleCtx ledgerVerified "C1" "E9" "B1" "50" "" =
        ⟨[], .error ("EnergyData " ++ "E9" ++ " does not exist")⟩
      ∧ requestCertificate Node.lib sampleCtx ledgerE1 "C1" "E1" "B1" "50" "" =
        ⟨[], .error ("EnergyData " ++ "E1" ++ " must be VERIFIED before certificate request")⟩
      ∧ (∃ e, getState ledgerVerified ("ENERGY_" ++ "E1") = some (.energyData e)
          ∧ e.status = "VERIFIED")
      ∧ certificateC1.certificateInfo.status = "CERTIFICATE_REQUESTED"
      ∧ certificateC1.parties.buyer.buyerId = "B1"
      ∧ getState (commit ledgerVerified
          (requestCertificate Node.lib sampleCtx ledgerVerified "C1" "E1" "B1" "50" ""))
          ("CERTIFICATE_" ++ "C1") = some (.certificate certificateC1) :=
  ⟨(requestCertificate_preconditions Node.lib sampleCtx ledgerVerified "C1" "E9" "B1" "50" "").1
      (by decide!) (by decide!),
   (requestCertificate_preconditions Node.lib sampleCtx ledgerE1 "C1" "E1" "B1" "50" "").2.1
      (by decide!) (.energyData recordE1) (by decide!) (by decide!),
   (requestCertificate_preconditions Node.lib sampleCtx ledgerVerified "C1" "E1" "B1" "50"
      "").2.2 certificateC1 (by decide!)⟩

end Chaincode
end REC

namespace REC
namespace Chaincode

/-- A stored certificate hash mapping is never changed by a committed invocation. -/
theorem Effect.get_certHash {L : Lib} {st st' : Ledger Doc} (h : Effect L st st') {k : String}
    {m : CertHashMapping} (hk : getState st k = some (.certHash m)) :
    getState st' k = some (.certHash m) := by
  rcases h.get_some hk with h | ⟨e, e', h, _⟩ | ⟨c, c', h, _⟩
  · exact h
  · cases h
  · cases h

/-- A committed invocation keeps the invariant `CertHashIndexed`. -/
theorem Effect.certHashIndexed {L : Lib} {st st' : Ledger Doc} (h : Effect L st st')
    (hinv : CertHashIndexed L st) : CertHashIndexed L st' := by
  intro k c hk ht
  have hold : getState st k = some (.certificate c) →
      ∃ m : CertHashMapping,
        getState st' ("CERT_HASH_" ++ c.security.certificateHash.text L)
          = some (.certHash m) ∧ m.certificateId = c.certificateId := by
    intro hk0
    obtain ⟨m, hm, hid⟩ := hinv k c hk0 ht
    exact ⟨m, h.get_certHash hm, hid⟩
  cases h with
  | unchanged h => rw [h] at hk; rw [h]; exact hinv k c hk ht
  | submitted id hash e0 m0 hkey hhash hid heh hstatus hmid hmh hst =>
    apply hold
    rw [hst, getState_putState] at hk
    by_cases h2 : "ENERGY_HASH_" ++ hash = k
    · simp [h2] at hk
    · simp only [h2, if_false, getState_putState] at hk
      by_cases h1 : "ENERGY_" ++ id = k
      · simp [h1] at hk
      · simpa only [h1, if_false] using hk
  | verified id e0 e0' hkey hver hst =>
    apply hold
    rw [hst, getState_putState] at hk
    by_cases h1 : "ENERGY_" ++ id = k
    · simp [h1] at hk
    · simpa only [h1, if_false] using hk
  | requested certId c0 ws hkey hstatus hws hst hcid hsup hunsup =>
    by_cases ht0 : c0.security.certificateHash.truthy = true
    · obtain ⟨m0, hm0, hws0⟩ := hsup ht0
      rw [hst, hws0] at hk
      simp only [applyWrites, getState_putState] at hk
      by_cases h2 : "CERT_HASH_" ++ c0.security.certificateHash.text L = k
      · simp [h2] at hk
      · simp only [h2, if_false] at hk
        by_cases h1 : "CERTIFICATE_" ++ certId = k
        · simp only [h1, if_true] at hk
          have hc : c0 = c := by injection hk with hk; injection hk
          subst hc
          refine ⟨m0, ?_, by rw [hm0, hcid]⟩
          rw [hst, hws0]
          simp only [applyWrites, getState_putState_same]
        · simp only [h1, if_false] at hk
          exact hold hk
    · have hcert : getState (putState st ("CERTIFICATE_" ++ certId) (.certificate c0)) k
          = some (.certificate c) := by
        rcases hws with hws0 | ⟨hk0, m0, hws0, _⟩
        · rw [hst, hws0] at hk
          exact hk
        · rw [hst, hws0] at hk
          simp only [applyWrites] at hk
          rw [getState_putState] at hk
          by_cases h2 : hk0 = k
          · simp [h2] at hk
          · simpa only [h2, if_false] using hk
      rw [getState_putState] at hcert
      by_cases h1 : "CERTIFICATE_" ++ certId = k
      · simp only [h1, if_true] at hcert
        have hc : c0 = c := by injection hcert with hcert; injection hcert
        subst hc
        exact absurd ht ht0
      · simp only [h1, if_false] at hcert
        exact hold hcert
  | advanced certId c0 c0' hkey hadv hst =>
    rw [hst, getState_putState] at hk
    by_cases h1 : "CERTIFICATE_" ++ certId = k
    · simp only [h1, if_true] at hk
      have hc : c0' = c := by injection hk with hk; injection hk
      subst hc
      have ht0 : c0.security.certificateHash.truthy = true := by
        rw [← hadv.security]; exact ht
      obtain ⟨m, hm, hid⟩ := hinv _ c0 hkey ht0
      refine ⟨m, ?_, by rw [hid, hadv.certificateId]⟩
      rw [hadv.security]
      exact (Effect.advanced certId c0 c0' hkey hadv hst : Effect L st st').get_certHash hm
    · simp only [h1, if_false] at hk
      exact hold hk

/-- The invariant `CertHashIndexed` holds after every sequence of invocations when it holds
before. -/
theorem certHashIndexed_run (L : Lib) (txs : List (Ctx × Op)) (st : Ledger Doc)
    (hinv : CertHashIndexed L st) : CertHashIndexed L (run L st txs) := by
  induction txs generalizing st with
  | nil => exact hinv
  | cons tx txs ih => exact ih _ ((effect_step L tx.1 st tx.2).certHashIndexed hinv)

/-- The empty ledger satisfies `CertHashIndexed`. -/
theorem certHashIndexed_empty (L : Lib) : CertHashIndexed L ([] : Ledger Doc) := by
  intro k c hk
  simp [getState] at hk

/-- What a successful `requestCertificate` is: the energy key holds a verified record, and
the certificate built from it is returned and written, with its hash mapping. -/
theorem requestCertificate_success {L : Lib} {ctx : Ctx} {st : Ledger Doc}
    {certId energyId buyerId p sec : String}
    (hok : (requestCertificate L ctx st certId energyId buyerId p sec).result.isOk = true) :
    ∃ e, getState st ("ENERGY_" ++ energyId) = some (.energyData e)
      ∧ e.status = "VERIFIED"
      ∧ requestCertificate L ctx st certId energyId buyerId p sec =
        ⟨requestWrites L ctx certId buyerId
          (newCertificate L ctx certId energyId buyerId p e (parseSecurity L ctx certId sec))
          (parseSecurity L ctx certId sec),
         .ok (newCertificate L ctx certId energyId buyerId p e
          (parseSecurity L ctx certId sec))⟩ := by
  obtain ⟨hfree, ⟨e, he, hs⟩, hdup⟩ := (requestCertificate_isOk_iff L ctx st certId energyId
    buyerId p sec).1 hok
  have hs' : ¬ e.status ≠ "VERIFIED" := fun h => h hs
  refine ⟨e, he, hs, ?_⟩
  simp only [requestCertificate, hfree, he]
  rw [if_neg hs', if_neg hdup]

/-- After a successful `requestCertificate` with a truthy certificate hash, the key of
that hash holds a document in every later world state. -/
theorem requestCertificate_hash_stored {L : Lib} {ctx : Ctx} {st : Ledger Doc}
    {certId energyId buyerId p sec : String} (txs : List (Ctx × Op))
    (hok : (requestCertificate L ctx st certId energyId buyerId p sec).result.isOk = true)
    (ht : (parseSecurity L ctx certId sec).certificate_hash.truthy = true) :
    (getState
      (run L (commit st (requestCertificate L ctx st certId energyId buyerId p sec)) txs)
      ("CERT_HASH_" ++ (parseSecurity L ctx certId sec).certificate_hash.text L)).isSome
        = true := by
  apply run_isSome
  obtain ⟨e, _, _, heq⟩ := requestCertificate_success hok
  rw [heq]
  simp only [commit, requestWrites, ht, if_true]
  simp [applyWrites, getState_putState_same]

/-- C17 (certificate hash anti-duplication), for every JSON value of the hash. When
`requestCertificate` has succeeded with security data that supply the certificate hash `h`,
then after any further invocations a `requestCertificate` with an unused `certId`, a
VERIFIED energy record and security data that supply the same `h`, whatever energy record
and buyer it names: writes nothing and fails with the DUPLICATION DETECTED error when `h` is
a non-empty string; writes nothing and fails with a TypeError (`substring` is not a
function) when `h` is any other truthy value; and succeeds when `h` is falsy (the empty
string, `0`, `false`, `null`, absent). -/
theorem certificate_hash_dedup (L : Lib) (ctx1 ctx2 : Ctx) (st : Ledger Doc)
    (certId1 energyId1 buyerId1 p1 sec1 : String) (txs : List (Ctx × Op))
    (certId2 energyId2 buyerId2 p2 sec2 : String) (h : JSValue) (e2 : EnergyData)
    (hok : (requestCertificate L ctx1 st certId1 energyId1 buyerId1 p1 sec1).result.isOk = true)
    (hh1 : (parseSecurity L ctx1 certId1 sec1).certificate_hash = h)
    (hh2 : (parseSecurity L ctx2 certId2 sec2).certificate_hash = h)
    (hfree : getState
      (run L (commit st (requestCertificate L ctx1 st certId1 energyId1 buyerId1 p1 sec1)) txs)
      ("CERTIFICATE_" ++ certId2) = none)
    (he2 : getState
      (run L (commit st (requestCertificate L ctx1 st certId1 energyId1 buyerId1 p1 sec1)) txs)
      ("ENERGY_" ++ energyId2) = some (.energyData e2))
    (hs2 : e2.status = "VERIFIED") :
    (∀ s, h = .string s → s ≠ "" →
      requestCertificate L ctx2
        (run L (commit st (requestCertificate L ctx1 st certId1 energyId1 buyerId1 p1 sec1)) txs)
        certId2 energyId2 buyerId2 p2 sec2 =
          ⟨[], .error ("DUPLICATION DETECTED: Certificate with hash " ++ substring0 s 16
            ++ "... already exists")⟩)
      ∧ (h.truthy = true → (∀ s, h ≠ .string s) →
        requestCertificate L ctx2
          (run L (commit st (requestCertificate L ctx1 st certId1 energyId1 buyerId1 p1 sec1))
            txs)
          certId2 energyId2 buyerId2 p2 sec2 =
            ⟨[], .error "TypeError: parsedSecurity.certificate_hash.substring is not a function"⟩)
      ∧ (h.truthy = false →
        (requestCertificate L ctx2
          (run L (commit st (requestCertificate L ctx1 st certId1 energyId1 buyerId1 p1 sec1))
            txs)
          certId2 energyId2 buyerId2 p2 sec2).result.isOk = true) := by
  have hstored : h.truthy = true → (getState
      (run L (commit st (requestCertificate L ctx1 st certId1 energyId1 buyerId1 p1 sec1)) txs)
      ("CERT_HASH_" ++ h.text L)).isSome = true := by
    intro ht
    have := requestCertificate_hash_stored txs hok (by rw [hh1]; exact ht)
    rw [hh1] at this
    exact this
  generalize run L (commit st (requestCertificate L ctx1 st certId1 energyId1 buyerId1 p1 sec1))
    txs = st2 at hfree he2 hstored ⊢
  have hs' : ¬ e2.status ≠ "VERIFIED" := fun hn => hn hs2
  have hfail : h.truthy = true →
      requestCertificate L ctx2 st2 certId2 energyId2 buyerId2 p2 sec2
        = ⟨[], .error (duplicationError h)⟩ := by
    intro ht
    simp only [requestCertificate, hfree, he2, hh2, TxResult.fail]
    rw [if_neg hs', if_pos ⟨ht, hstored ht⟩]
  refine ⟨?_, ?_, ?_⟩
  · intro s hs hne
    have ht : h.truthy = true := by rw [hs]; simp [JSValue.truthy, hne]
    rw [hfail ht, hs]
    rfl
  · intro ht hns
    rw [hfail ht]
    rcases h with _ | _ | b | n | s | ⟨j, t⟩
    · rfl
    · rfl
    · rfl
    · rfl
    · exact absurd rfl (hns s)
    · rfl
  · intro hf
    rw [requestCertificate_isOk_iff]
    refine ⟨hfree, ⟨e2, he2, hs2⟩, ?_⟩
    rw [hh2, hf]
    rintro ⟨h0, _⟩
    cases h0

/-- On the sample data: certificate `C1` is requested with the hash `abc123` and paid, and a
request for `C2` by another buyer with the same hash is refused as a duplicate; certificate
`C1` is requested with the number 123 as hash, and a request for `C2` with the same hash
fails with the TypeError. -/
theorem certificate_hash_dedup_witness :
    requestCertificate Node.lib sampleCtx
      (run Node.lib (commit ledgerVerified
        (requestCertificate Node.lib sampleCtx ledgerVerified "C1" "E1" "B1" "50" hashSecurity))
        [(sampleCtx, .confirmPayment "C1" "B1" "")])
      "C2" "E1" "B2" "10" flatHashSecurity =
        ⟨[], .error ("DUPLICATION DETECTED: Certificate with hash " ++ substring0 "abc123" 16
          ++ "... already exists")⟩
      ∧ requestCertificate Node.lib sampleCtx
        (run Node.lib (commit ledgerVerified
          (requestCertificate Node.lib sampleCtx ledgerVerified "C1" "E1" "B1" "50"
            numberHashSecurity)) [])
        "C2" "E1" "B2" "10" numberHashSecurity =
          ⟨[], .error "TypeError: parsedSecurity.certificate_hash.substring is not a function"⟩ :=
  ⟨(certificate_hash_dedup Node.lib sampleCtx sampleCtx ledgerVerified "C1" "E1" "B1" "50"
      hashSecurity [(sampleCtx, .confirmPayment "C1" "B1" "")] "C2" "E1" "B2" "10"
      flatHashSecurity (.string "abc123") verifiedE1
      (by decide!) (by decide!) (by decide!) (by decide!) (by decide!) (by decide!)).1
      "abc123" rfl (by decide),
    (certificate_hash_dedup Node.lib sampleCtx sampleCtx ledgerVerified "C1" "E1" "B1" "50"
      numberHashSecurity [] "C2" "E1" "B2" "10"
      numberHashSecurity (.number (.fin 123)) verifiedE1
      (by decide!) (by decide!) (by decide!) (by decide!) (by decide!) (by decide!)).2.1
      (by decide!) (fun s hs => by cases hs)⟩

/-- C17, the claim as stated fails, in two ways. Certificate `C1` is requested with security
data that supply the empty string as certificate hash, and a later request for `C2` with
the same security data succeeds (and so it does with the hash `0`). Certificate `C1` is
requested with security data that supply the number 123 as certificate hash, and a later
request for `C2` with the same security data fails with a TypeError, not with the
DUPLICATION DETECTED error. -/
theorem certificate_hash_dedup_counterexample :
    ((requestCertificate Node.lib sampleCtx ledgerVerified "C1" "E1" "B1" "50"
        emptyHashSecurity).result.isOk = true
      ∧ (parseSecurity Node.lib sampleCtx "C1" emptyHashSecurity).certificate_hash = .string ""
      ∧ (parseSecurity Node.lib sampleCtx "C2" emptyHashSecurity).certificate_hash = .string ""
      ∧ getState (ledgerRequestedWith emptyHashSecurity) "CERTIFICATE_C2" = none
      ∧ getState (ledgerRequestedWith emptyHashSecurity) "ENERGY_E1"
        = some (.energyData verifiedE1)
      ∧ (requestCertificate Node.lib sampleCtx (ledgerRequestedWith emptyHashSecurity)
          "C2" "E1" "B2" "10" emptyHashSecurity).result.isOk = true)
    ∧ ((requestCertificate Node.lib sampleCtx ledgerVerified "C1" "E1" "B1" "50"
        zeroHashSecurity).result.isOk = true
      ∧ (parseSecurity Node.lib sampleCtx "C1" zeroHashSecurity).certificate_hash
        = .number (.fin 0)
      ∧ (parseSecurity Node.lib sampleCtx "C2" zeroHashSecurity).certificate_hash
        = .number (.fin 0)
      ∧ getState (ledgerRequestedWith zeroHashSecurity) "CERTIFICATE_C2" = none
      ∧ (requestCertificate Node.lib sampleCtx (ledgerRequestedWith zeroHashSecurity)
          "C2" "E1" "B2" "10" zeroHashSecurity).result.isOk = true)
    ∧ ((requestCertificate Node.lib sampleCtx ledgerVerified "C1" "E1" "B1" "50"
        numberHashSecurity).result.isOk = true
      ∧ (parseSecurity Node.lib sampleCtx "C1" numberHashSecurity).certificate_hash
        = .number (.fin 123)
      ∧ (parseSecurity Node.lib sampleCtx "C2" numberHashSecurity).certificate_hash
        = .number (.fin 123)
      ∧ getState (ledgerRequestedWith numberHashSecurity) "CERTIFICATE_C2" = none
      ∧ getState (ledgerRequestedWith numberHashSecurity) "ENERGY_E1"
        = some (.energyData verifiedE1)
      ∧ requestCertificate Node.lib sampleCtx (ledgerRequestedWith numberHashSecurity)
          "C2" "E1" "B2" "10" numberHashSecurity =
            ⟨[], .error
              "TypeError: parsedSecurity.certificate_hash.substring is not a function"⟩) := by
  decide!

/-- C18 (certificateHash uniqueness invariant), for a truthy hash. In every world state
reached from the empty ledger by invocations of `EnergyDataContract` and
`CertificateContract`, two stored certificates with different `certificateId` do not carry
the same `security.certificateHash` when that hash is truthy: a non-empty string, a number
other than zero, `true`, an array or an object. -/
theorem certificateHash_unique (L : Lib) (txs : List (Ctx × Op)) (k1 k2 : String)
    (c1 c2 : Certificate)
    (h1 : getState (run L [] txs) k1 = some (.certificate c1))
    (h2 : getState (run L [] txs) k2 = some (.certificate c2))
    (hne : c1.certificateId ≠ c2.certificateId)
    (ht : c1.security.certificateHash.truthy = true) :
    c1.security.certificateHash ≠ c2.security.certificateHash := by
  intro heq
  have hinv := certHashIndexed_run L txs [] (certHashIndexed_empty L)
  obtain ⟨m1, hm1, hid1⟩ := hinv k1 c1 h1 ht
  obtain ⟨m2, hm2, hid2⟩ := hinv k2 c2 h2 (by rw [← heq]; exact ht)
  rw [heq, hm2] at hm1
  have : m2 = m1 := by injection hm1 with hm1; injection hm1
  exact hne (by rw [← hid1, ← hid2, this])

/-- The certificates `C1` and `C2`, requested with the hashes `abc123` and `def456`, have
different ids and different hashes. -/
theorem certificateHash_unique_witness :
    getState (run Node.lib [] twoHashWorkflow) "CERTIFICATE_C1" =
        some (.certificate hashCertificateC1)
      ∧ getState (run Node.lib [] twoHashWorkflow) "CERTIFICATE_C2" =
        some (.certificate hashCertificateC2)
      ∧ hashCertificateC1.certificateId ≠ hashCertificateC2.certificateId
      ∧ hashCertificateC1.security.certificateHash = .string "abc123"
      ∧ hashCertificateC1.security.certificateHash
        ≠ hashCertificateC2.security.certificateHash :=
  ⟨by decide!, by decide!, by decide!, by decide!,
    certificateHash_unique Node.lib twoHashWorkflow "CERTIFICATE_C1" "CERTIFICATE_C2"
      hashCertificateC1 hashCertificateC2 (by decide!) (by decide!) (by decide!) (by decide!)⟩

/-- C18, the claim as stated fails: after the two requests of `emptyHashWorkflow` the
certificates `C1` and `C2` are both stored, and both carry the non-null certificate hash
that is the empty string; after those of `zeroHashWorkflow` both carry the number 0, and
after those of `falseHashWorkflow` both carry `false`. -/
theorem certificateHash_unique_counterexample :
    (certificateAt (run Node.lib [] emptyHashWorkflow) "CERTIFICATE_C1").map
        (fun c => (c.certificateId, c.security.certificateHash)) = some ("C1", .string "")
      ∧ (certificateAt (run Node.lib [] emptyHashWorkflow) "CERTIFICATE_C2").map
        (fun c => (c.certificateId, c.security.certificateHash)) = some ("C2", .string "")
      ∧ (certificateAt (run Node.lib [] zeroHashWorkflow) "CERTIFICATE_C1").map
        (fun c => (c.certificateId, c.security.certificateHash))
          = some ("C1", .number (.fin 0))
      ∧ (certificateAt (run Node.lib [] zeroHashWorkflow) "CERTIFICATE_C2").map
        (fun c => (c.certificateId, c.security.certificateHash))
          = some ("C2", .number (.fin 0))
      ∧ (certificateAt (run Node.lib [] falseHashWorkflow) "CERTIFICATE_C1").map
        (fun c => (c.certificateId, c.security.certificateHash)) = some ("C1", .bool false)
      ∧ (certificateAt (run Node.lib [] falseHashWorkflow) "CERTIFICATE_C2").map
        (fun c => (c.certificateId, c.security.certificateHash)) = some ("C2", .bool false) := by
  decide!

end Chaincode
end REC

namespace REC
namespace Chaincode

/-- C19, the code at the failing input: the record `E1` was submitted with the location
`Jakarta` and verified; the certificate `requestCertificate` creates against it carries the
hash `calculateEnergyDataHash` computes from the location as stored, which is not the
`energyDataHash` stored on the record, computed by `generateEnergyDataHash` from the
lower-cased location. -/
theorem integrity_binding_mismatch :
    submitE1.result = .ok recordE1
      ∧ getState ledgerVerified "ENERGY_E1" = some (.energyData verifiedE1)
      ∧ (requestCertificate Node.lib sampleCtx ledgerVerified "C1" "E1" "B1" "50" "").result
        = .ok certificateC1
      ∧ certificateC1.energyReference.energyDataHash
        = "4397ff3a8732d7b6a231738a0596fccfdbf2d758042ac56fad706af58f17b741"
      ∧ verifiedE1.energyDataHash
        = "93b9c20ebbf212d4de6972ba1ce8b40380798d7986b6ea8b15edd9adbcea6039"
      ∧ calculateEnergyDataHash Node.lib verifiedE1
        ≠ generateEnergyDataHash Node.lib "100" "SOLAR" "2024-01-01" "Jakarta" "G1" := by
  decide!

/-- The hash a certificate carries is `calculateEnergyDataHash` of the referenced record. -/
theorem requestCertificate_energyDataHash (L : Lib) (ctx : Ctx) (st : Ledger Doc)
    (certId energyId buyerId p sec : String) (c : Certificate)
    (hc : (requestCertificate L ctx st certId energyId buyerId p sec).result = .ok c) :
    ∃ e, getState st ("ENERGY_" ++ energyId) = some (.energyData e)
      ∧ c.energyReference.energyDataHash = calculateEnergyDataHash L e := by
  have hok : (requestCertificate L ctx st certId energyId buyerId p sec).result.isOk
      = true := by
    rw [hc]; rfl
  obtain ⟨e, he, _, heq⟩ := requestCertificate_success hok
  rw [heq] at hc
  have hcc : newCertificate L ctx certId energyId buyerId p e
      (parseSecurity L ctx certId sec) = c := by
    injection hc
  exact ⟨e, he, by rw [← hcc]; rfl⟩

/-- For a record submitted with a location that lower-casing and trimming leave as it is,
`calculateEnergyDataHash` of the record is the stored `energyDataHash`. -/
theorem calculateEnergyDataHash_submitted (L : Lib) (ctx : Ctx) (st : Ledger Doc)
    (id a s t l g : String) (e : EnergyData)
    (h : (submitEnergyData L ctx st id a s t l g).result = .ok e)
    (hl : L.trim (L.toLowerCase l) = l) :
    calculateEnergyDataHash L e = e.energyDataHash := by
  have hok : (submitEnergyData L ctx st id a s t l g).result.isOk = true := by
    rw [h]; rfl
  obtain ⟨hk, hh, _⟩ := submitEnergyData_ok hok
  simp only [submitEnergyData, hk, hh] at h
  injection h with h
  subst h
  simp only [calculateEnergyDataHash, generateEnergyDataHash, hashDataJSON, hl]
  cases L.parseFloat a <;> rfl

/-- C20 (issuance contract). `issueCertificate(certId, issuerId)` writes nothing and fails
with the not-found error when `CERTIFICATE_<certId>` holds nothing, and with the status
error, which names the current status, when the stored certificate is not in status
CERTIFICATE_PAID. When it succeeds, the key held a paid certificate, and afterwards it
holds the returned certificate, which has status CERTIFICATE_ISSUED,
`lifecycle.issuedBy` = `parties.issuer.issuerId` = `issuerId` and `lifecycle.issuedAt` =
the transaction timestamp. -/
theorem issueCertificate_contract (L : Lib) (ctx : Ctx) (st : Ledger Doc)
    (certId issuerId : String) :
    (getState st ("CERTIFICATE_" ++ certId) = none →
        issueCertificate L ctx st certId issuerId =
          ⟨[], .error ("Certificate " ++ certId ++ " does not exist")⟩)
      ∧ (∀ c, getState st ("CERTIFICATE_" ++ certId) = some (.certificate c) →
        c.certificateInfo.status ≠ "CERTIFICATE_PAID" →
        issueCertificate L ctx st certId issuerId =
          ⟨[], .error ("Certificate " ++ certId
            ++ " must be CERTIFICATE_PAID before issuance. Current: "
            ++ c.certificateInfo.status)⟩)
      ∧ ((issueCertificate L ctx st certId issuerId).result.isOk = true →
        ∃ c c', getState st ("CERTIFICATE_" ++ certId) = some (.certificate c)
          ∧ c.certificateInfo.status = "CERTIFICATE_PAID"
          ∧ (issueCertificate L ctx st certId issuerId).result = .ok c'
          ∧ getState (commit st (issueCertificate L ctx st certId issuerId))
            ("CERTIFICATE_" ++ certId) = some (.certificate c')
          ∧ c'.certificateInfo.status = "CERTIFICATE_ISSUED"
          ∧ c'.lifecycle.issuedBy = some issuerId
          ∧ c'.parties.issuer.issuerId = issuerId
          ∧ c'.lifecycle.issuedAt = some (L.toISOString (ctx.txTimestampSeconds * 1000))) := by
  refine ⟨?_, ?_, ?_⟩
  · intro hk
    simp only [issueCertificate, hk, TxResult.fail]
  · intro c hk hs
    simp only [issueCertificate, hk, TxResult.fail]
    rw [if_pos hs]
  · intro hok
    simp only [issueCertificate] at hok ⊢
    cases hk : getState st ("CERTIFICATE_" ++ certId) with
    | none => simp [hk, TxResult.fail, Outcome.isOk] at hok
    | some d =>
      cases d with
      | certificate c =>
        simp only [hk] at hok ⊢
        split_ifs at hok ⊢ with h1
        · simp [TxResult.fail, Outcome.isOk] at hok
        · refine ⟨c, _, rfl, by simpa using h1, rfl, ?_, rfl, rfl, rfl, rfl⟩
          simp only [commit, applyWrites, getState_putState_same]
      | energyData e => simp [hk, TxResult.fail, Outcome.isOk] at hok
      | energyHash m => simp [hk, TxResult.fail, Outcome.isOk] at hok
      | certHash m => simp [hk, TxResult.fail, Outcome.isOk] at hok

/-- On the sample workflow: issuing the unknown certificate `C9` fails; issuing `C1` while
it is requested and not yet paid fails with the status error; issuing it after the payment
is confirmed stores it as CERTIFICATE_ISSUED by `I1`. -/
theorem issueCertificate_contract_witness :
    issueCertificate Node.lib sampleCtx ledgerRequested "C9" "I1" =
        ⟨[], .error ("Certificate " ++ "C9" ++ " does not exist")⟩
      ∧ issueCertificate Node.lib sampleCtx ledgerRequested "C1" "I1" =
        ⟨[], .error ("Certificate " ++ "C1"
          ++ " must be CERTIFICATE_PAID before issuance. Current: "
          ++ certificateC1.certificateInfo.status)⟩
      ∧ ∃ c c', getState (run Node.lib [] (sampleWorkflow.take 4)) ("CERTIFICATE_" ++ "C1")
            = some (.certificate c)
          ∧ c.certificateInfo.status = "CERTIFICATE_PAID"
          ∧ (issueCertificate Node.lib sampleCtx (run Node.lib [] (sampleWorkflow.take 4))
              "C1" "I1").result = .ok c'
          ∧ getState (commit (run Node.lib [] (sampleWorkflow.take 4))
              (issueCertificate Node.lib sampleCtx (run Node.lib [] (sampleWorkflow.take 4))
                "C1" "I1")) ("CERTIFICATE_" ++ "C1") = some (.certificate c')
          ∧ c'.certificateInfo.status = "CERTIFICATE_ISSUED"
          ∧ c'.lifecycle.issuedBy = some "I1"
          ∧ c'.parties.issuer.issuerId = "I1"
          ∧ c'.lifecycle.issuedAt =
            some (Node.lib.toISOString (sampleCtx.txTimestampSeconds * 1000)) :=
  ⟨(issueCertificate_contract Node.lib sampleCtx ledgerRequested "C9" "I1").1 (by decide!),
   (issueCertificate_contract Node.lib sampleCtx ledgerRequested "C1" "I1").2.1 certificateC1
      (by decide!) (by decide!),
   (issueCertificate_contract Node.lib sampleCtx (run Node.lib [] (sampleWorkflow.take 4))
      "C1" "I1").2.2 (by decide!)⟩

end Chaincode
end REC

namespace REC
namespace Chaincode

/-- C21 (expiry arithmetic). For every successful `issueCertificate` at transaction
timestamp `s` seconds, the returned certificate, which is the one stored, has `issuedAt` =
the ISO text of the instant `s * 1000` ms and `expiresAt` = the ISO text of the instant
`s * 1000 + 31536000000` ms; the two instants are exactly 365 days of 86400000 ms apart. -/
theorem expiry_arithmetic (L : Lib) (ctx : Ctx) (st : Ledger Doc) (certId issuerId : String)
    (h : (issueCertificate L ctx st certId issuerId).result.isOk = true) :
    ∃ c', (issueCertificate L ctx st certId issuerId).result = .ok c'
      ∧ getState (commit st (issueCertificate L ctx st certId issuerId))
        ("CERTIFICATE_" ++ certId) = some (.certificate c')
      ∧ c'.lifecycle.issuedAt = some (L.toISOString (ctx.txTimestampSeconds * 1000))
      ∧ c'.lifecycle.expiresAt =
        some (L.toISOString (ctx.txTimestampSeconds * 1000 + 31536000000))
      ∧ (ctx.txTimestampSeconds * 1000 + 31536000000) - ctx.txTimestampSeconds * 1000
        = 365 * 86400000 := by
  simp only [issueCertificate] at h ⊢
  cases hk : getState st ("CERTIFICATE_" ++ certId) with
  | none => simp [hk, TxResult.fail, Outcome.isOk] at h
  | some d =>
    cases d with
    | certificate c =>
      simp only [hk] at h ⊢
      split_ifs at h ⊢ with h1
      · simp [TxResult.fail, Outcome.isOk] at h
      · refine ⟨_, rfl, ?_, rfl, rfl, by ring⟩
        simp only [commit, applyWrites, getState_putState_same]
    | energyData e => simp [hk, TxResult.fail, Outcome.isOk] at h
    | energyHash m => simp [hk, TxResult.fail, Outcome.isOk] at h
    | certHash m => simp [hk, TxResult.fail, Outcome.isOk] at h

/-- The paid certificate `C1`, issued in a transaction stamped 2024-01-01T00:00:00Z, expires
on 2024-12-31: 365 days later, one day short of a calendar year in the leap year 2024. -/
theorem expiry_arithmetic_witness :
    (∃ c', (issueCertificate Node.lib sampleCtx ledgerPaid "C1" "I1").result = .ok c'
        ∧ getState (commit ledgerPaid (issueCertificate Node.lib sampleCtx ledgerPaid "C1" "I1"))
          ("CERTIFICATE_" ++ "C1") = some (.certificate c')
        ∧ c'.lifecycle.issuedAt =
          some (Node.lib.toISOString (sampleCtx.txTimestampSeconds * 1000))
        ∧ c'.lifecycle.expiresAt =
          some (Node.lib.toISOString (sampleCtx.txTimestampSeconds * 1000 + 31536000000))
        ∧ (sampleCtx.txTimestampSeconds * 1000 + 31536000000)
            - sampleCtx.txTimestampSeconds * 1000 = 365 * 86400000)
      ∧ Node.lib.toISOString (sampleCtx.txTimestampSeconds * 1000) = "2024-01-01T00:00:00.000Z"
      ∧ Node.lib.toISOString (sampleCtx.txTimestampSeconds * 1000 + 31536000000)
        = "2024-12-31T00:00:00.000Z" :=
  ⟨expiry_arithmetic Node.lib sampleCtx ledgerPaid "C1" "I1" (by decide!),
    by decide!, by decide!⟩

/-- A stored certificate in status CERTIFICATE_PAID is issued whatever issuer id is given
and whoever the caller is: `issueCertificate` compares neither with anything. -/
theorem issueCertificate_ungated (L : Lib) (ctx : Ctx) (st : Ledger Doc)
    (certId issuerId : String) (c : Certificate)
    (hk : getState st ("CERTIFICATE_" ++ certId) = some (.certificate c))
    (hs : c.certificateInfo.status = "CERTIFICATE_PAID") :
    ∃ c', issueCertificate L ctx st certId issuerId =
        ⟨[("CERTIFICATE_" ++ certId, .certificate c')], .ok c'⟩
      ∧ c'.certificateInfo.status = "CERTIFICATE_ISSUED"
      ∧ c'.lifecycle.issuedBy = some issuerId
      ∧ c'.parties.issuer.issuerId = issuerId := by
  have hs' : ¬ c.certificateInfo.status ≠ "CERTIFICATE_PAID" := fun h => h hs
  simp only [issueCertificate, hk]
  rw [if_neg hs']
  exact ⟨_, rfl, rfl, rfl, rfl⟩

/-- C22, the code at the failing input: certificate `C1` of buyer `B1` is paid; a client of
the buyer organisation calls `issueCertificate` with the buyer's own id as issuer id. The
call succeeds, and the stored certificate is CERTIFICATE_ISSUED with `issuedBy` and
`parties.issuer.issuerId` equal to `B1`, the certificate's buyer. -/
theorem issuer_gating_missing :
    (certificateAt ledgerPaid "CERTIFICATE_C1").map
        (fun c => (c.certificateInfo.status, c.parties.buyer.buyerId))
        = some ("CERTIFICATE_PAID", "B1")
      ∧ buyerCtx.mspId = "BuyerMSP"
      ∧ (issueCertificate Node.lib buyerCtx ledgerPaid "C1" "B1").result.isOk = true
      ∧ (certificateAt (commit ledgerPaid (issueCertificate Node.lib buyerCtx ledgerPaid "C1"
          "B1")) "CERTIFICATE_C1").map
        (fun c => (c.certificateInfo.status, c.lifecycle.issuedBy, c.parties.issuer.issuerId,
          c.parties.buyer.buyerId))
        = some ("CERTIFICATE_ISSUED", some "B1", "B1", "B1") := by
  decide!

/-- A committed invocation leaves a stored COMPLETED certificate as it is. -/
theorem step_completed (L : Lib) (ctx : Ctx) (st : Ledger Doc) (op : Op) {k : String}
    {c : Certificate} (hk : getState st k = some (.certificate c))
    (hs : c.certificateInfo.status = "COMPLETED") :
    getState (step L ctx st op) k = some (.certificate c) := by
  rcases (effect_step L ctx st op).get_some hk with h | ⟨e, e', h, _⟩ | ⟨c0, c', h, hadv, _⟩
  · exact h
  · cases h
  · have hc : c = c0 := by injection h
    subst hc
    have hn := hadv.status
    rw [hs] at hn
    rcases hn with ⟨h1, _⟩ | ⟨h1, _⟩ | ⟨h1, _⟩ <;> exact absurd h1 (by decide)

/-- A stored COMPLETED certificate is the same document after any sequence of invocations. -/
theorem run_completed (L : Lib) (txs : List (Ctx × Op)) (st : Ledger Doc) {k : String}
    {c : Certificate} (hk : getState st k = some (.certificate c))
    (hs : c.certificateInfo.status = "COMPLETED") :
    getState (run L st txs) k = some (.certificate c) := by
  induction txs generalizing st with
  | nil => exact hk
  | cons tx txs ih => exact ih (step L tx.1 st tx.2) (step_completed L tx.1 st tx.2 hk hs)

/-- C23 (COMPLETED is terminal). When `CERTIFICATE_<certId>` holds a certificate in status
COMPLETED, then after any sequence of invocations of the two contracts the key holds the
same document, and every call of `requestCertificate`, `confirmPayment`, `issueCertificate`
and `completeCertificate` that names `certId` writes nothing and fails. -/
theorem completed_terminal (L : Lib) (st : Ledger Doc) (certId : String)
    (hs : statusAt st ("CERTIFICATE_" ++ certId) = some "COMPLETED") (txs : List (Ctx × Op)) :
    getState (run L st txs) ("CERTIFICATE_" ++ certId) = getState st ("CERTIFICATE_" ++ certId)
      ∧ ∀ (ctx : Ctx) (energyId buyerId amount sec pay issuerId : String),
        requestCertificate L ctx (run L st txs) certId energyId buyerId amount sec =
            ⟨[], .error ("Certificate " ++ certId ++ " already exists")⟩
          ∧ confirmPayment L ctx (run L st txs) certId buyerId pay =
            ⟨[], .error ("Certificate " ++ certId
              ++ " must be in CERTIFICATE_REQUESTED status. Current: " ++ "COMPLETED")⟩
          ∧ issueCertificate L ctx (run L st txs) certId issuerId =
            ⟨[], .error ("Certificate " ++ certId
              ++ " must be CERTIFICATE_PAID before issuance. Current: " ++ "COMPLETED")⟩
          ∧ completeCertificate L ctx (run L st txs) certId buyerId =
            ⟨[], .error ("Certificate " ++ certId
              ++ " must be CERTIFICATE_ISSUED before completion. Current: "
              ++ "COMPLETED")⟩ := by
  unfold statusAt at hs
  cases hk : getState st ("CERTIFICATE_" ++ certId) with
  | none => simp [hk] at hs
  | some d =>
    cases d with
    | certificate c =>
      simp only [hk, Option.some.injEq] at hs
      have hk' := run_completed L txs st hk hs
      refine ⟨hk', ?_⟩
      intro ctx energyId buyerId amount sec pay issuerId
      generalize run L st txs = st2 at hk'
      refine ⟨?_, ?_, ?_, ?_⟩
      · simp only [requestCertificate, hk', TxResult.fail]
      · simp only [confirmPayment, hk', TxResult.fail, hs]
        rw [if_pos (by decide)]
      · simp only [issueCertificate, hk', TxResult.fail, hs]
        rw [if_pos (by decide)]
      · simp only [completeCertificate, hk', TxResult.fail, hs]
        rw [if_pos (by decide)]
    | energyData e => simp [hk] at hs
    | energyHash m => simp [hk] at hs
    | certHash m => simp [hk] at hs

/-- After the whole sample workflow certificate `C1` is COMPLETED; a further payment,
issuance and completion leave the document as it is, and after them a request, a payment,
an issuance and a completion that name `C1` fail. -/
theorem completed_terminal_witness :
    statusAt ledgerCompleted ("CERTIFICATE_" ++ "C1") = some "COMPLETED"
      ∧ getState (run Node.lib ledgerCompleted (sampleWorkflow.drop 2))
          ("CERTIFICATE_" ++ "C1") = getState ledgerCompleted ("CERTIFICATE_" ++ "C1")
      ∧ requestCertificate Node.lib sampleCtx
          (run Node.lib ledgerCompleted (sampleWorkflow.drop 2)) "C1" "E1" "B1" "50" "" =
            ⟨[], .error ("Certificate " ++ "C1" ++ " already exists")⟩
      ∧ confirmPayment Node.lib sampleCtx
          (run Node.lib ledgerCompleted (sampleWorkflow.drop 2)) "C1" "B1" "" =
            ⟨[], .error ("Certificate " ++ "C1"
              ++ " must be in CERTIFICATE_REQUESTED status. Current: " ++ "COMPLETED")⟩
      ∧ issueCertificate Node.lib sampleCtx
          (run Node.lib ledgerCompleted (sampleWorkflow.drop 2)) "C1" "I1" =
            ⟨[], .error ("Certificate " ++ "C1"
              ++ " must be CERTIFICATE_PAID before issuance. Current: " ++ "COMPLETED")⟩
      ∧ completeCertificate Node.lib sampleCtx
          (run Node.lib ledgerCompleted (sampleWorkflow.drop 2)) "C1" "B1" =
            ⟨[], .error ("Certificate " ++ "C1"
              ++ " must be CERTIFICATE_ISSUED before completion. Current: "
              ++ "COMPLETED")⟩ :=
  have h := completed_terminal Node.lib ledgerCompleted "C1" (by decide!)
    (sampleWorkflow.drop 2)
  ⟨by decide!, h.1, h.2 sampleCtx "E1" "B1" "50" "" "" "I1"⟩

end Chaincode
end REC

namespace REC

/-- A failed invocation is atomic: `TxResult.fail` carries no write. -/
theorem atomic_fail {D α : Type} (st : Ledger D) (msg : String) :
    Atomic st (TxResult.fail msg : TxResult D α) :=
  fun _ => ⟨rfl, rfl⟩

/-- A successful invocation satisfies `Atomic`, which speaks of failures only. -/
theorem atomic_ok {D α : Type} (st : Ledger D) (ws : List (String × D)) (a : α) :
    Atomic st (⟨ws, .ok a⟩ : TxResult D α) :=
  fun h => by simp [Outcome.isOk] at h

namespace Chaincode

theorem atomic_submitEnergyData (L : Lib) (ctx : Ctx) (st : Ledger Doc)
    (id a s t l g : String) : Atomic st (submitEnergyData L ctx st id a s t l g) := by
  unfold submitEnergyData
  dsimp only
  repeat' split
  all_goals first | exact atomic_fail _ _ | exact atomic_ok _ _ _

theorem atomic_verifyEnergyData (L : Lib) (ctx : Ctx) (st : Ledger Doc)
    (id issuer : String) : Atomic st (verifyEnergyData L ctx st id issuer) := by
  unfold verifyEnergyData
  dsimp only
  repeat' split
  all_goals first | exact atomic_fail _ _ | exact atomic_ok _ _ _

theorem atomic_requestCertificate (L : Lib) (ctx : Ctx) (st : Ledger Doc)
    (certId energyId buyerId amount sec : String) :
    Atomic st (requestCertificate L ctx st certId energyId buyerId amount sec) := by
  unfold requestCertificate
  dsimp only
  repeat' split
  all_goals first | exact atomic_fail _ _ | exact atomic_ok _ _ _

theorem atomic_confirmPayment (L : Lib) (ctx : Ctx) (st : Ledger Doc)
    (certId buyerId pay : String) : Atomic st (confirmPayment L ctx st certId buyerId pay) := by
  unfold confirmPayment
  dsimp only
  repeat' split
  all_goals first | exact atomic_fail _ _ | exact atomic_ok _ _ _

theorem atomic_issueCertificate (L : Lib) (ctx : Ctx) (st : Ledger Doc)
    (certId issuerId : String) : Atomic st (issueCertificate L ctx st certId issuerId) := by
  unfold issueCertificate
  dsimp only
  repeat' split
  all_goals first | exact atomic_fail _ _ | exact atomic_ok _ _ _

theorem atomic_completeCertificate (L : Lib) (ctx : Ctx) (st : Ledger Doc)
    (certId buyerId : String) : Atomic st (completeCertificate L ctx st certId buyerId) := by
  unfold completeCertificate
  dsimp only
  repeat' split
  all_goals first | exact atomic_fail _ _ | exact atomic_ok _ _ _

end Chaincode

namespace ChaincodeRec

theorem rec_atomic_submitEnergyData (L : Lib) (ctx : Ctx) (st : Ledger Doc)
    (id a s t l g : String) : Atomic st (submitEnergyData L ctx st id a s t l g) := by
  unfold submitEnergyData
  dsimp only
  repeat' split
  all_goals first | exact atomic_fail _ _ | exact atomic_ok _ _ _

theorem rec_atomic_verifyEnergyData (L : Lib) (ctx : Ctx) (st : Ledger Doc)
    (id issuer : String) : Atomic st (verifyEnergyData L ctx st id issuer) := by
  unfold verifyEnergyData
  dsimp only
  repeat' split
  all_goals first | exact atomic_fail _ _ | exact atomic_ok _ _ _

theorem rec_atomic_requestCertificate (L : Lib) (ctx : Ctx) (st : Ledger Doc)
    (certId energyId buyerId sec : String) :
    Atomic st (requestCertificate L ctx st certId energyId buyerId sec) := by
  unfold requestCertificate
  dsimp only
  repeat' split
  all_goals first | exact atomic_fail _ _ | exact atomic_ok _ _ _

theorem rec_atomic_confirmPayment (L : Lib) (ctx : Ctx) (st : Ledger Doc)
    (certId buyerId : String) : Atomic st (confirmPayment L ctx st certId buyerId) := by
  unfold confirmPayment
  dsimp only
  repeat' split
  all_goals first | exact atomic_fail _ _ | exact atomic_ok _ _ _

theorem rec_atomic_issueCertificate (L : Lib) (ctx : Ctx) (st : Ledger Doc)
    (certId issuerId : String) : Atomic st (issueCertificate L ctx st certId issuerId) := by
  unfold issueCertificate
  dsimp only
  repeat' split
  all_goals first | exact atomic_fail _ _ | exact atomic_ok _ _ _

theorem rec_atomic_completeCertificate (L : Lib) (ctx : Ctx) (st : Ledger Doc)
    (certId buyerId : String) : Atomic st (completeCertificate L ctx st certId buyerId) := by
  unfold completeCertificate
  dsimp only
  repeat' split
  all_goals first | exact atomic_fail _ _ | exact atomic_ok _ _ _

theorem atomic_createBuyRequest (L : Lib) (ctx : Ctx) (st : Ledger Doc)
    (requestId energyDataId buyerId amount price : String) :
    Atomic st (createBuyRequest L ctx st requestId energyDataId buyerId amount price) := by
  unfold createBuyRequest
  dsimp only
  repeat' split
  all_goals first | exact atomic_fail _ _ | exact atomic_ok _ _ _

theorem atomic_makePayment (L : Lib) (ctx : Ctx) (st : Ledger Doc)
    (requestId method reference : String) :
    Atomic st (makePayment L ctx st requestId method reference) := by
  unfold makePayment
  dsimp only
  repeat' split
  all_goals first | exact atomic_fail _ _ | exact atomic_ok _ _ _

theorem atomic_verifyPayment (L : Lib) (ctx : Ctx) (st : Ledger Doc)
    (requestId issuerId notes : String) :
    Atomic st (verifyPayment L ctx st requestId issuerId notes) := by
  unfold verifyPayment
  dsimp only
  repeat' split
  all_goals first | exact atomic_fail _ _ | exact atomic_ok _ _ _

theorem atomic_completeBuyRequest (L : Lib) (ctx : Ctx) (st : Ledger Doc)
    (requestId certificateId : String) :
    Atomic st (completeBuyRequest L ctx st requestId certificateId) := by
  unfold completeBuyRequest
  dsimp only
  repeat' split
  all_goals first | exact atomic_fail _ _ | exact atomic_ok _ _ _

end ChaincodeRec
end REC

namespace REC

/-- C24 (atomicity on error). For every runtime library, transaction context, world state
and argument list, each state-changing operation of `chaincode/src` (`submitEnergyData`,
`verifyEnergyData`, `requestCertificate`, `confirmPayment`, `issueCertificate`,
`completeCertificate`) and of `chaincode/rec` (the same six, `createBuyRequest`,
`makePayment`, `verifyPayment`, `completeBuyRequest`) is atomic on error: when it fails it
has made no `putState` call, and the world state after it equals the state before. -/
theorem atomicity_on_error (L : Lib) (ctx : Ctx) :
    (∀ (st : Ledger Chaincode.Doc),
      (∀ id a s t l g, Atomic st (Chaincode.submitEnergyData L ctx st id a s t l g))
      ∧ (∀ id issuer, Atomic st (Chaincode.verifyEnergyData L ctx st id issuer))
      ∧ (∀ certId energyId buyerId amount sec,
          Atomic st (Chaincode.requestCertificate L ctx st certId energyId buyerId amount sec))
      ∧ (∀ certId buyerId pay, Atomic st (Chaincode.confirmPayment L ctx st certId buyerId pay))
      ∧ (∀ certId issuerId, Atomic st (Chaincode.issueCertificate L ctx st certId issuerId))
      ∧ (∀ certId buyerId, Atomic st (Chaincode.completeCertificate L ctx st certId buyerId)))
    ∧ ∀ (st : Ledger ChaincodeRec.Doc),
      (∀ id a s t l g, Atomic st (ChaincodeRec.submitEnergyData L ctx st id a s t l g))
      ∧ (∀ id issuer, Atomic st (ChaincodeRec.verifyEnergyData L ctx st id issuer))
      ∧ (∀ certId energyId buyerId sec,
          Atomic st (ChaincodeRec.requestCertificate L ctx st certId energyId buyerId sec))
      ∧ (∀ certId buyerId, Atomic st (ChaincodeRec.confirmPayment L ctx st certId buyerId))
      ∧ (∀ certId issuerId, Atomic st (ChaincodeRec.issueCertificate L ctx st certId issuerId))
      ∧ (∀ certId buyerId, Atomic st (ChaincodeRec.completeCertificate L ctx st certId buyerId))
      ∧ (∀ requestId energyDataId buyerId amount price,
          Atomic st (ChaincodeRec.createBuyRequest L ctx st requestId energyDataId buyerId
            amount price))
      ∧ (∀ requestId method reference,
          Atomic st (ChaincodeRec.makePayment L ctx st requestId method reference))
      ∧ (∀ requestId issuerId notes,
          Atomic st (ChaincodeRec.verifyPayment L ctx st requestId issuerId notes))
      ∧ (∀ requestId certificateId,
          Atomic st (ChaincodeRec.completeBuyRequest L ctx st requestId certificateId)) :=
  ⟨fun st =>
    ⟨Chaincode.atomic_submitEnergyData L ctx st, Chaincode.atomic_verifyEnergyData L ctx st,
      Chaincode.atomic_requestCertificate L ctx st, Chaincode.atomic_confirmPayment L ctx st,
      Chaincode.atomic_issueCertificate L ctx st, Chaincode.atomic_completeCertificate L ctx st⟩,
   fun st =>
    ⟨ChaincodeRec.rec_atomic_submitEnergyData L ctx st,
      ChaincodeRec.rec_atomic_verifyEnergyData L ctx st,
      ChaincodeRec.rec_atomic_requestCertificate L ctx st,
      ChaincodeRec.rec_atomic_confirmPayment L ctx st,
      ChaincodeRec.rec_atomic_issueCertificate L ctx st,
      ChaincodeRec.rec_atomic_completeCertificate L ctx st,
      ChaincodeRec.atomic_createBuyRequest L ctx st, ChaincodeRec.atomic_makePayment L ctx st,
      ChaincodeRec.atomic_verifyPayment L ctx st,
      ChaincodeRec.atomic_completeBuyRequest L ctx st⟩⟩

/-- Two failing invocations on the sample data: a duplicate submission, which fails at the
second of its checks, and a buy request for more than the record holds, which fails at the
fourth; neither has made a write, and the state is as before. -/
theorem atomicity_on_error_witness :
    ((Chaincode.submitEnergyData Node.lib Chaincode.sampleCtx Chaincode.ledgerE1 "E2" "100.0"
        "solar" "2024-01-01" " JAKARTA " "G1").result.isOk = false
      ∧ (Chaincode.submitEnergyData Node.lib Chaincode.sampleCtx Chaincode.ledgerE1 "E2" "100.0"
        "solar" "2024-01-01" " JAKARTA " "G1").writes = []
      ∧ commit Chaincode.ledgerE1
          (Chaincode.submitEnergyData Node.lib Chaincode.sampleCtx Chaincode.ledgerE1 "E2" "100.0"
            "solar" "2024-01-01" " JAKARTA " "G1") = Chaincode.ledgerE1)
    ∧ (ChaincodeRec.createBuyRequest Node.lib Chaincode.sampleCtx ChaincodeRec.ledgerVerified
        "R1" "E1" "B1" "100.5" "2").result.isOk = false
      ∧ (ChaincodeRec.createBuyRequest Node.lib Chaincode.sampleCtx ChaincodeRec.ledgerVerified
        "R1" "E1" "B1" "100.5" "2").writes = []
      ∧ commit ChaincodeRec.ledgerVerified
          (ChaincodeRec.createBuyRequest Node.lib Chaincode.sampleCtx
            ChaincodeRec.ledgerVerified "R1" "E1" "B1" "100.5" "2")
        = ChaincodeRec.ledgerVerified :=
  have h1 := ((atomicity_on_error Node.lib Chaincode.sampleCtx).1 Chaincode.ledgerE1).1
    "E2" "100.0" "solar" "2024-01-01" " JAKARTA " "G1" (by decide!)
  have h2 := ((atomicity_on_error Node.lib Chaincode.sampleCtx).2
    ChaincodeRec.ledgerVerified).2.2.2.2.2.2.1 "R1" "E1" "B1" "100.5" "2" (by decide!)
  ⟨⟨by decide!, h1.1, h1.2⟩, by decide!, h2.1, h2.2⟩

namespace Chaincode

/-- C25, the code at the failing input: after the one submission of the sample tuple under
the id `HASH_<hash of the tuple>` on the empty ledger, which succeeds, the world state holds
one document, the hash mapping under `ENERGY_HASH_<hash>`; no energy record is stored, so
the index has an entry for a hash that no stored record carries. -/
theorem hash_index_orphan :
    submitColliding.result.isOk = true
      ∧ run Node.lib []
          [(sampleCtx, .submitEnergyData collidingId "100" "SOLAR" "2024-01-01" "Jakarta" "G1")]
        = [("ENERGY_HASH_" ++ recordE1.energyDataHash,
            .energyHash
              { energyDataId := collidingId
                energyDataHash := recordE1.energyDataHash
                generatorId := "G1"
                createdAt := "2024-01-01T00:00:00.000Z"
                originalTxId := "a3f1c29b7d5e4f60" })]
      ∧ (getState (run Node.lib []
          [(sampleCtx, .submitEnergyData collidingId "100" "SOLAR" "2024-01-01" "Jakarta" "G1")])
          ("ENERGY_" ++ collidingId)).bind Doc.status = none := by
  decide!

/-- C26 (`checkEnergyDataDuplication` agrees with submit and is read-only). In every state
and for every tuple, `checkEnergyDataDuplication` makes no write, so the state is as
before, and returns a report with the hash of the tuple. For an unused id, the report has
`isDuplicate = true` exactly when `submitEnergyData` of that id and tuple fails with the
duplicate error, and `isDuplicate = false` exactly when it succeeds; a reported duplicate
carries the `energyDataId` of the document stored under `ENERGY_HASH_<hash>`. -/
theorem checkEnergyDataDuplication_agrees (L : Lib) (ctx : Ctx) (st : Ledger Doc)
    (id a s t l g : String) (hfree : getState st ("ENERGY_" ++ id) = none) :
    (checkEnergyDataDuplication L st a s t l g).writes = []
      ∧ commit st (checkEnergyDataDuplication L st a s t l g) = st
      ∧ ∃ r, (checkEnergyDataDuplication L st a s t l g).result = .ok r
        ∧ r.hash = generateEnergyDataHash L a s t l g
        ∧ (r.isDuplicate = true ↔
          ∃ d, getState st ("ENERGY_HASH_" ++ generateEnergyDataHash L a s t l g) = some d
            ∧ submitEnergyData L ctx st id a s t l g =
              ⟨[], .error
                ("Energy data with this generation profile already exists. Existing ID: "
                  ++ templateText d.energyDataId ++ ", Hash: "
                  ++ generateEnergyDataHash L a s t l g)⟩)
        ∧ (r.isDuplicate = false ↔ (submitEnergyData L ctx st id a s t l g).result.isOk = true)
        ∧ (r.isDuplicate = true →
          ∃ d, getState st ("ENERGY_HASH_" ++ generateEnergyDataHash L a s t l g) = some d
            ∧ r.existingEnergyDataId = d.energyDataId) := by
  simp only [checkEnergyDataDuplication, submitEnergyData, hfree]
  cases hh : getState st ("ENERGY_HASH_" ++ generateEnergyDataHash L a s t l g) with
  | none =>
    refine ⟨rfl, rfl, _, rfl, rfl, ?_, ?_, ?_⟩
    · simp
    · simp [Outcome.isOk]
    · simp
  | some d =>
    refine ⟨rfl, rfl, _, rfl, rfl, ?_, ?_, ?_⟩
    · simp [TxResult.fail]
    · simp [TxResult.fail, Outcome.isOk]
    · simp

/-- On the ledger that holds `E1`: the tuple of `E1` in another spelling is reported as a
duplicate of `E1`, and its submission as `E2` fails with the duplicate error. -/
theorem checkEnergyDataDuplication_agrees_witness :
    (checkEnergyDataDuplication Node.lib ledgerE1 "100.0" "solar" "2024-01-01" " JAKARTA "
        "G1").result
      = .ok
        { isDuplicate := true
          existingEnergyDataId := some "E1"
          hash := recordE1.energyDataHash
          message := "Energy data with identical generation profile already exists" }
    ∧ commit ledgerE1 (checkEnergyDataDuplication Node.lib ledgerE1 "100.0" "solar"
        "2024-01-01" " JAKARTA " "G1") = ledgerE1
    ∧ (submitEnergyData Node.lib sampleCtx ledgerE1 "E2" "100.0" "solar" "2024-01-01"
        " JAKARTA " "G1").result.isOk = false :=
  have h := checkEnergyDataDuplication_agrees Node.lib sampleCtx ledgerE1 "E2" "100.0" "solar"
    "2024-01-01" " JAKARTA " "G1" (by decide!)
  ⟨by decide!, h.2.1, by decide!⟩

end Chaincode
end REC

namespace REC
namespace Chaincode

/-- C27, the code at the failing input: the same `requestCertificate` invocation (same
arguments, world state, transaction id, transaction timestamp and caller) run on peers
whose wall clocks differ gives different certificates. Without security data the serial
number carries the wall-clock year (`REC-2024-...` against `REC-2023-...` one millisecond
before midnight); with security data that have no `generated_at`, `security.generatedAt`
is the wall-clock instant, which differs one millisecond later. -/
theorem wall_clock_dependence :
    SameTransaction sampleCtx lastYearCtx
      ∧ SameTransaction sampleCtx laterCtx
      ∧ (requestCertificate Node.lib sampleCtx ledgerVerified "C1" "E1" "B1" "50" "").result.isOk
        = true
      ∧ requestCertificate Node.lib sampleCtx ledgerVerified "C1" "E1" "B1" "50" ""
        ≠ requestCertificate Node.lib lastYearCtx ledgerVerified "C1" "E1" "B1" "50" ""
      ∧ (certificateAt (commit ledgerVerified (requestCertificate Node.lib sampleCtx
          ledgerVerified "C1" "E1" "B1" "50" "")) "CERTIFICATE_C1").map
          (fun c => c.security.serialNumber) = some (.string "REC-2024-a3f1c29b7d5e")
      ∧ (certificateAt (commit ledgerVerified (requestCertificate Node.lib lastYearCtx
          ledgerVerified "C1" "E1" "B1" "50" "")) "CERTIFICATE_C1").map
          (fun c => c.security.serialNumber) = some (.string "REC-2023-a3f1c29b7d5e")
      ∧ (certificateAt (commit ledgerVerified (requestCertificate Node.lib sampleCtx
          ledgerVerified "C1" "E1" "B1" "50" flatHashSecurity)) "CERTIFICATE_C1").map
          (fun c => c.security.generatedAt) = some (.string "2024-01-01T00:00:00.500Z")
      ∧ (certificateAt (commit ledgerVerified (requestCertificate Node.lib laterCtx
          ledgerVerified "C1" "E1" "B1" "50" flatHashSecurity)) "CERTIFICATE_C1").map
          (fun c => c.security.generatedAt) = some (.string "2024-01-01T00:00:00.501Z") := by
  refine ⟨⟨rfl, rfl, rfl⟩, ⟨rfl, rfl, rfl⟩, ?_⟩
  decide!

/-- The other five state-changing operations of `chaincode/src` do not read the wall
clock: two contexts that agree on the transaction timestamp, the transaction id and the
caller give the same writes and the same result. So does `requestCertificate` when the
wall clocks agree as well. -/
theorem deterministic_operations (L : Lib) (ctx ctx' : Ctx) (h : SameTransaction ctx ctx')
    (st : Ledger Doc) :
    (∀ id a s t l g,
        submitEnergyData L ctx st id a s t l g = submitEnergyData L ctx' st id a s t l g)
      ∧ (∀ id issuer, verifyEnergyData L ctx st id issuer = verifyEnergyData L ctx' st id issuer)
      ∧ (∀ certId buyerId pay,
        confirmPayment L ctx st certId buyerId pay = confirmPayment L ctx' st certId buyerId pay)
      ∧ (∀ certId issuerId,
        issueCertificate L ctx st certId issuerId = issueCertificate L ctx' st certId issuerId)
      ∧ (∀ certId buyerId,
        completeCertificate L ctx st certId buyerId
          = completeCertificate L ctx' st certId buyerId)
      ∧ (ctx.now = ctx'.now → ∀ certId energyId buyerId amount sec,
        requestCertificate L ctx st certId energyId buyerId amount sec
          = requestCertificate L ctx' st certId energyId buyerId amount sec) := by
  obtain ⟨ts, tx, now, msp⟩ := ctx
  obtain ⟨ts', tx', now', msp'⟩ := ctx'
  obtain ⟨h1, h2, h3⟩ := h
  simp only at h1 h2 h3
  subst h1 h2 h3
  refine ⟨fun _ _ _ _ _ _ => rfl, fun _ _ => rfl, fun _ _ _ => rfl, fun _ _ => rfl,
    fun _ _ => rfl, ?_⟩
  intro hn
  simp only at hn
  subst hn
  intros
  rfl

end Chaincode

namespace ChaincodeRec

/-- Buy request creation, as the code has it. For an unused `requestId`,
`createBuyRequest` writes nothing and fails when `ENERGY_<energyDataId>` holds nothing,
when the stored record is not in status VERIFIED, and when the parsed `requestedAmount` is
greater than the record's amount; a parsed amount equal to the record's amount is
accepted. Whenever it succeeds, the energy key holds a verified record and the returned
buy request, stored under `BUY_REQUEST_<requestId>`, has status PENDING_PAYMENT, buyer
`buyerId` and, as `requestedAmount`, what `parseFloat` made of the argument, which is not
greater than the record's amount: when it is stored as a number, that number is at most a
stored amount of the record. -/
theorem createBuyRequest_contract (L : Lib) (ctx : Ctx) (st : Ledger Doc)
    (requestId energyDataId buyerId amount price : String) :
    (getState st ("BUY_REQUEST_" ++ requestId) = none →
        getState st ("ENERGY_" ++ energyDataId) = none →
        createBuyRequest L ctx st requestId energyDataId buyerId amount price =
          ⟨[], .error ("Energy data " ++ energyDataId ++ " does not exist")⟩)
      ∧ (getState st ("BUY_REQUEST_" ++ requestId) = none →
        ∀ e, getState st ("ENERGY_" ++ energyDataId) = some (.energyData e) →
        e.certificationStatus.status ≠ "VERIFIED" →
        createBuyRequest L ctx st requestId energyDataId buyerId amount price =
          ⟨[], .error ("Energy data " ++ energyDataId ++ " has not been verified yet")⟩)
      ∧ (getState st ("BUY_REQUEST_" ++ requestId) = none →
        ∀ e, getState st ("ENERGY_" ++ energyDataId) = some (.energyData e) →
        e.certificationStatus.status = "VERIFIED" →
        jsGreater (L.parseFloat amount) e.energyGeneration.amount = true →
        createBuyRequest L ctx st requestId energyDataId buyerId amount price =
          ⟨[], .error ("Requested amount (" ++ amount ++ " kWh) exceeds available amount ("
            ++ storedToString L e.energyGeneration.amount ++ " kWh)")⟩)
      ∧ (getState st ("BUY_REQUEST_" ++ requestId) = none →
        ∀ e q, getState st ("ENERGY_" ++ energyDataId) = some (.energyData e) →
        e.certificationStatus.status = "VERIFIED" →
        L.parseFloat amount = .fin q → e.energyGeneration.amount = some q →
        (createBuyRequest L ctx st requestId energyDataId buyerId amount price).result.isOk
          = true)
      ∧ ((createBuyRequest L ctx st requestId energyDataId buyerId amount price).result.isOk
          = true →
        ∃ e b, getState st ("ENERGY_" ++ energyDataId) = some (.energyData e)
          ∧ e.certificationStatus.status = "VERIFIED"
          ∧ (createBuyRequest L ctx st requestId energyDataId buyerId amount price).result
            = .ok b
          ∧ getState (commit st
              (createBuyRequest L ctx st requestId energyDataId buyerId amount price))
              ("BUY_REQUEST_" ++ requestId) = some (.buyRequest b)
          ∧ b.requestStatus.status = "PENDING_PAYMENT"
          ∧ b.parties.buyer.buyerId = buyerId
          ∧ b.requestDetails.requestedAmount = (L.parseFloat amount).toStored
          ∧ jsGreater (L.parseFloat amount) e.energyGeneration.amount = false
          ∧ ∀ q a, b.requestDetails.requestedAmount = some q →
              e.energyGeneration.amount = some a → q ≤ a) := by
  refine ⟨?_, ?_, ?_, ?_, ?_⟩
  · intro hfree he
    simp only [createBuyRequest, hfree, he, TxResult.fail]
  · intro hfree e he hs
    simp only [createBuyRequest, hfree, he, TxResult.fail]
    rw [if_pos hs]
  · intro hfree e he hs hg
    have hs' : ¬ e.certificationStatus.status ≠ "VERIFIED" := fun h => h hs
    simp only [createBuyRequest, hfree, he, TxResult.fail]
    rw [if_neg hs', if_pos hg]
  · intro hfree e q he hs hq ha
    have hs' : ¬ e.certificationStatus.status ≠ "VERIFIED" := fun h => h hs
    have hg : ¬ jsGreater (L.parseFloat amount) e.energyGeneration.amount = true := by
      simp [hq, ha, jsGreater]
    simp only [createBuyRequest, hfree, he]
    rw [if_neg hs', if_neg hg]
    rfl
  · intro hok
    simp only [createBuyRequest] at hok ⊢
    cases hk : getState st ("BUY_REQUEST_" ++ requestId) with
    | some d => simp [hk, TxResult.fail, Outcome.isOk] at hok
    | none =>
      cases he : getState st ("ENERGY_" ++ energyDataId) with
      | none => simp [hk, he, TxResult.fail, Outcome.isOk] at hok
      | some d =>
        cases d with
        | energyData e =>
          simp only [hk, he] at hok ⊢
          split_ifs at hok ⊢ with h1 h2
          · simp [TxResult.fail, Outcome.isOk] at hok
          · simp [TxResult.fail, Outcome.isOk] at hok
          · have hg : jsGreater (L.parseFloat amount) e.energyGeneration.amount = false := by
              simpa using h2
            refine ⟨e, _, rfl, by simpa using h1, rfl, ?_, rfl, rfl, rfl, hg, ?_⟩
            · simp only [commit, applyWrites, getState_putState_same]
            · intro q a hq ha
              simp only at hq
              cases hp : L.parseFloat amount with
              | fin x =>
                rw [hp] at hq hg
                simp only [JSNum.toStored, Option.some.injEq] at hq
                subst hq
                rw [ha] at hg
                simpa [jsGreater] using hg
              | nan => rw [hp] at hq; simp [JSNum.toStored] at hq
              | posInf => rw [hp] at hq; simp [JSNum.toStored] at hq
              | negInf => rw [hp] at hq; simp [JSNum.toStored] at hq
        | certificate c => simp [hk, he, TxResult.fail, Outcome.isOk] at hok
        | buyRequest b => simp [hk, he, TxResult.fail, Outcome.isOk] at hok

/-- On the sample data: buy requests against the unknown record `E9`, against `E1` before
its verification, and for 100.5 kWh of the 100 kWh of the verified `E1` fail; a request for
exactly 100 kWh is stored with status PENDING_PAYMENT and buyer `B1`. -/
theorem createBuyRequest_contract_witness :
    createBuyRequest Node.lib Chaincode.sampleCtx ledgerVerified "R1" "E9" "B1" "50" "2" =
        ⟨[], .error ("Energy data " ++ "E9" ++ " does not exist")⟩
      ∧ createBuyRequest Node.lib Chaincode.sampleCtx ledgerSubmitted "R1" "E1" "B1" "50" "2" =
        ⟨[], .error ("Energy data " ++ "E1" ++ " has not been verified yet")⟩
      ∧ createBuyRequest Node.lib Chaincode.sampleCtx ledgerVerified "R1" "E1" "B1" "100.5" "2" =
        ⟨[], .error ("Requested amount (" ++ "100.5" ++ " kWh) exceeds available amount ("
          ++ "100" ++ " kWh)")⟩
      ∧ ∃ e b, getState ledgerVerified ("ENERGY_" ++ "E1") = some (.energyData e)
          ∧ e.certificationStatus.status = "VERIFIED"
          ∧ (createBuyRequest Node.lib Chaincode.sampleCtx ledgerVerified "R1" "E1" "B1" "100"
              "2").result = .ok b
          ∧ getState (commit ledgerVerified
              (createBuyRequest Node.lib Chaincode.sampleCtx ledgerVerified "R1" "E1" "B1" "100"
                "2")) ("BUY_REQUEST_" ++ "R1") = some (.buyRequest b)
          ∧ b.requestStatus.status = "PENDING_PAYMENT"
          ∧ b.parties.buyer.buyerId = "B1"
          ∧ b.requestDetails.requestedAmount = (Node.lib.parseFloat "100").toStored
          ∧ jsGreater (Node.lib.parseFloat "100") e.energyGeneration.amount = false
          ∧ ∀ q a, b.requestDetails.requestedAmount = some q →
              e.energyGeneration.amount = some a → q ≤ a :=
  ⟨(createBuyRequest_contract Node.lib Chaincode.sampleCtx ledgerVerified "R1" "E9" "B1" "50"
      "2").1 (by decide!) (by decide!),
   by decide!,
   by decide!,
   (createBuyRequest_contract Node.lib Chaincode.sampleCtx ledgerVerified "R1" "E1" "B1" "100"
      "2").2.2.2.2 (by decide!)⟩

/-- C28, the code at the failing input: `R1` is unused and `E1` is a verified record of 100
kWh; a buy request for the amount `abc`, which `parseFloat` turns into NaN, succeeds,
because the bound check `NaN > 100` is false; it is stored with status PENDING_PAYMENT,
with no number (`null`) as `requestedAmount` and no number as `totalPrice`, so the stored
amount is not one that is less than or equal to the amount of the record. -/
theorem createBuyRequest_accepts_nan :
    getState ledgerVerified "BUY_REQUEST_R1" = none
      ∧ (energyDataAt ledgerVerified "ENERGY_E1").map
          (fun e => (e.certificationStatus.status, e.energyGeneration.amount))
        = some ("VERIFIED", some 100)
      ∧ Node.lib.parseFloat "abc" = .nan
      ∧ (createBuyRequest Node.lib Chaincode.sampleCtx ledgerVerified "R1" "E1" "B1" "abc"
          "2").result.isOk = true
      ∧ (buyRequestAt (commit ledgerVerified
          (createBuyRequest Node.lib Chaincode.sampleCtx ledgerVerified "R1" "E1" "B1" "abc"
            "2")) "BUY_REQUEST_R1").map
          (fun b => (b.requestStatus.status, b.requestDetails.requestedAmount,
            b.requestDetails.totalPrice))
        = some ("PENDING_PAYMENT", none, none) := by
  decide!

end ChaincodeRec
end REC

namespace REC
namespace ChaincodeRec

/-- Each committed invocation of `chaincode/rec` fails, creates one document under a key
that held nothing, or replaces one document by one of the same kind. -/
theorem rec_effect_step (L : Lib) (ctx : Ctx) (st : Ledger Doc) (op : Op) :
    RecEffect st (step L ctx st op) := by
  cases op with
  | submitEnergyData id a s t l g =>
    simp only [step, submitEnergyData]
    cases hk : getState st ("ENERGY_" ++ id) with
    | some d => exact .unchanged rfl
    | none => exact .created _ _ hk (fun b hb => by cases hb) rfl
  | verifyEnergyData id issuer =>
    simp only [step, verifyEnergyData]
    cases hk : getState st ("ENERGY_" ++ id) with
    | none => exact .unchanged rfl
    | some d =>
      cases d with
      | energyData e =>
        simp only
        split_ifs
        · exact .unchanged rfl
        · refine .replaced _ _ _ hk ?_ rfl
          exact trivial
      | certificate c => exact .unchanged rfl
      | buyRequest b => exact .unchanged rfl
  | requestCertificate certId energyId buyerId sec =>
    simp only [step, requestCertificate]
    cases hk : getState st ("CERTIFICATE_" ++ certId) with
    | some d => exact .unchanged rfl
    | none =>
      cases he : getState st ("ENERGY_" ++ energyId) with
      | none => exact .unchanged rfl
      | some d =>
        simp only
        split_ifs
        · exact .unchanged rfl
        · cases securityDataOf L sec with
          | none => exact .unchanged rfl
          | some f => exact .created _ _ hk (fun b hb => by cases hb) rfl
  | confirmPayment certId buyerId =>
    simp only [step, confirmPayment]
    cases hk : getState st ("CERTIFICATE_" ++ certId) with
    | none => exact .unchanged rfl
    | some d =>
      cases d with
      | certificate c =>
        simp only
        split_ifs
        · exact .unchanged rfl
        · exact .unchanged rfl
        · refine .replaced _ _ _ hk ?_ rfl
          exact trivial
      | energyData e => exact .unchanged rfl
      | buyRequest b => exact .unchanged rfl
  | issueCertificate certId issuerId =>
    simp only [step, issueCertificate]
    cases hk : getState st ("CERTIFICATE_" ++ certId) with
    | none => exact .unchanged rfl
    | some d =>
      cases d with
      | certificate c =>
        simp only
        split_ifs
        · exact .unchanged rfl
        · refine .replaced _ _ _ hk ?_ rfl
          exact trivial
      | energyData e => exact .unchanged rfl
      | buyRequest b => exact .unchanged rfl
  | completeCertificate certId buyerId =>
    simp only [step, completeCertificate]
    cases hk : getState st ("CERTIFICATE_" ++ certId) with
    | none => exact .unchanged rfl
    | some d =>
      cases d with
      | certificate c =>
        simp only
        split_ifs
        · exact .unchanged rfl
        · exact .unchanged rfl
        · refine .replaced _ _ _ hk ?_ rfl
          exact trivial
      | energyData e => exact .unchanged rfl
      | buyRequest b => exact .unchanged rfl
  | createBuyRequest requestId energyDataId buyerId amount price =>
    simp only [step, createBuyRequest]
    cases hk : getState st ("BUY_REQUEST_" ++ requestId) with
    | some d => exact .unchanged rfl
    | none =>
      cases he : getState st ("ENERGY_" ++ energyDataId) with
      | none => exact .unchanged rfl
      | some d =>
        cases d with
        | energyData e =>
          simp only
          split_ifs
          · exact .unchanged rfl
          · exact .unchanged rfl
          · refine .created _ _ hk (fun b hb => ?_) rfl
            injection hb with hb
            rw [← hb]
        | certificate c => exact .unchanged rfl
        | buyRequest b => exact .unchanged rfl
  | makePayment requestId method reference =>
    simp only [step, makePayment]
    cases hk : getState st ("BUY_REQUEST_" ++ requestId) with
    | none => exact .unchanged rfl
    | some d =>
      cases d with
      | buyRequest b =>
        simp only
        split_ifs with h1
        · exact .unchanged rfl
        · refine .replaced _ _ _ hk ?_ rfl
          exact Or.inl ⟨by simpa using h1, rfl⟩
      | energyData e => exact .unchanged rfl
      | certificate c => exact .unchanged rfl
  | verifyPayment requestId issuerId notes =>
    simp only [step, verifyPayment]
    cases hk : getState st ("BUY_REQUEST_" ++ requestId) with
    | none => exact .unchanged rfl
    | some d =>
      cases d with
      | buyRequest b =>
        simp only
        split_ifs with h1
        · exact .unchanged rfl
        · refine .replaced _ _ _ hk ?_ rfl
          exact Or.inr (Or.inl ⟨by simpa using h1, rfl⟩)
      | energyData e => exact .unchanged rfl
      | certificate c => exact .unchanged rfl
  | completeBuyRequest requestId certificateId =>
    simp only [step, completeBuyRequest]
    cases hk : getState st ("BUY_REQUEST_" ++ requestId) with
    | none => exact .unchanged rfl
    | some d =>
      cases d with
      | buyRequest b =>
        simp only
        split_ifs with h1
        · exact .unchanged rfl
        · refine .replaced _ _ _ hk ?_ rfl
          exact Or.inr (Or.inr ⟨by simpa using h1, rfl⟩)
      | energyData e => exact .unchanged rfl
      | certificate c => exact .unchanged rfl

/-- One committed invocation leaves a stored buy request as it is or replaces it by one
whose status is one step forward. -/
theorem rec_step_buyRequest (L : Lib) (ctx : Ctx) (st : Ledger Doc) (op : Op) {k : String}
    {b : BuyRequest} (hk : getState st k = some (.buyRequest b)) :
    getState (step L ctx st op) k = some (.buyRequest b)
      ∨ ∃ b', NextRequestStatus b.requestStatus.status b'.requestStatus.status
          ∧ getState (step L ctx st op) k = some (.buyRequest b') := by
  cases rec_effect_step L ctx st op with
  | unchanged h => left; rw [h]; exact hk
  | created k0 d hkey hnew hst =>
    left
    have h1 : k0 ≠ k := fun h => by rw [h, hk] at hkey; cases hkey
    rw [hst, getState_putState_other _ _ _ _ h1, hk]
  | replaced k0 d d' hkey hrel hst =>
    by_cases h1 : k0 = k
    · right
      rw [h1, hk] at hkey
      have hd : d = .buyRequest b := by injection hkey with h; exact h.symm
      subst hd
      cases d' with
      | buyRequest b' => exact ⟨b', hrel, by rw [hst, h1, getState_putState_same]⟩
      | energyData e => exact absurd hrel (by simp [Replaces])
      | certificate c => exact absurd hrel (by simp [Replaces])
    · left
      rw [hst, getState_putState_other _ _ _ _ h1, hk]

/-- One committed invocation leaves the status of a stored buy request as it is or moves it
one step forward. -/
theorem rec_step_statusAt (L : Lib) (ctx : Ctx) (st : Ledger Doc) (op : Op) {k s : String}
    (hs : requestStatusAt st k = some s) :
    requestStatusAt (step L ctx st op) k = some s
      ∨ ∃ s', NextRequestStatus s s' ∧ requestStatusAt (step L ctx st op) k = some s' := by
  unfold requestStatusAt at hs
  cases hk : getState st k with
  | none => simp [hk] at hs
  | some d =>
    cases d with
    | buyRequest b =>
      simp only [hk, Option.some.injEq] at hs
      rcases rec_step_buyRequest L ctx st op hk with h | ⟨b', hn, h⟩
      · left; simp [requestStatusAt, h, hs]
      · right
        exact ⟨b'.requestStatus.status, by rw [← hs]; exact hn, by simp [requestStatusAt, h]⟩
    | energyData e => simp [hk] at hs
    | certificate c => simp [hk] at hs

/-- A key that holds a document other than a buy request never holds a buy request later. -/
theorem rec_step_notRequest (L : Lib) (ctx : Ctx) (st : Ledger Doc) (op : Op) {k : String}
    (hk : (getState st k).isSome) (hs : requestStatusAt st k = none) :
    (getState (step L ctx st op) k).isSome ∧ requestStatusAt (step L ctx st op) k = none := by
  refine ⟨rec_step_isSome L ctx st op hk, ?_⟩
  cases hd : getState st k with
  | none => simp [hd] at hk
  | some d0 =>
    cases rec_effect_step L ctx st op with
    | unchanged h => rw [h]; exact hs
    | created k0 d hkey hnew hst =>
      have h1 : k0 ≠ k := fun h => by rw [h, hd] at hkey; cases hkey
      simp only [requestStatusAt] at hs ⊢
      rw [hst, getState_putState_other _ _ _ _ h1]
      exact hs
    | replaced k0 d d' hkey hrel hst =>
      by_cases h1 : k0 = k
      · rw [h1, hd] at hkey
        have hdd : d0 = d := by injection hkey
        subst hdd
        simp only [requestStatusAt, hd] at hs
        simp only [requestStatusAt]
        rw [hst, h1, getState_putState_same]
        cases d0 with
        | buyRequest b => simp at hs
        | energyData e =>
          cases d' with
          | energyData e' => rfl
          | certificate c => exact absurd hrel (by simp [Replaces])
          | buyRequest b => exact absurd hrel (by simp [Replaces])
        | certificate c =>
          cases d' with
          | energyData e' => exact absurd hrel (by simp [Replaces])
          | certificate c => rfl
          | buyRequest b => exact absurd hrel (by simp [Replaces])
      · simp only [requestStatusAt] at hs ⊢
        rw [hst, getState_putState_other _ _ _ _ h1]
        exact hs

/-- After one committed invocation a key that held nothing holds nothing, or a document
that is not a buy request, or a buy request in status PENDING_PAYMENT. -/
theorem rec_step_fresh (L : Lib) (ctx : Ctx) (st : Ledger Doc) (op : Op) {k : String}
    (hk : getState st k = none) :
    getState (step L ctx st op) k = none
      ∨ ((getState (step L ctx st op) k).isSome ∧ requestStatusAt (step L ctx st op) k = none)
      ∨ requestStatusAt (step L ctx st op) k = some "PENDING_PAYMENT" := by
  cases rec_effect_step L ctx st op with
  | unchanged h => left; rw [h]; exact hk
  | created k0 d hkey hnew hst =>
    by_cases h1 : k0 = k
    · right
      cases d with
      | buyRequest b =>
        right
        simp only [requestStatusAt]
        rw [hst, h1, getState_putState_same]
        simp [hnew b rfl]
      | energyData e =>
        left
        simp only [requestStatusAt]
        rw [hst, h1, getState_putState_same]
        exact ⟨rfl, rfl⟩
      | certificate c =>
        left
        simp only [requestStatusAt]
        rw [hst, h1, getState_putState_same]
        exact ⟨rfl, rfl⟩
    · left
      rw [hst, getState_putState_other _ _ _ _ h1, hk]
  | replaced k0 d d' hkey hrel hst =>
    left
    have h1 : k0 ≠ k := fun h => by rw [h, hk] at hkey; cases hkey
    rw [hst, getState_putState_other _ _ _ _ h1, hk]

theorem nextRequestStatus_mem {s s' : String} (h : NextRequestStatus s s') :
    s' ∈ requestLifecycle := by
  rcases h with ⟨_, h⟩ | ⟨_, h⟩ | ⟨_, h⟩ <;> subst h <;> decide

theorem nextRequestStatus_chain {s s' : String} (h : NextRequestStatus s s') :
    s ≠ s' ∧ requestLifecycleFrom s = s :: requestLifecycleFrom s' := by
  rcases h with ⟨h1, h2⟩ | ⟨h1, h2⟩ | ⟨h1, h2⟩ <;> subst h1 <;> subst h2 <;>
    exact ⟨by decide, by decide⟩

theorem requestLifecycleFrom_head {s : String} (h : s ∈ requestLifecycle) :
    [s] <+: requestLifecycleFrom s := by
  simp only [requestLifecycle, List.mem_cons, List.mem_singleton, List.not_mem_nil,
    or_false] at h
  rcases h with h | h | h | h <;> subst h <;> decide

theorem requestStatusHistory_cons (L : Lib) (st : Ledger Doc) (ctx : Ctx) (op : Op)
    (rest : List (Ctx × Op)) (k : String) :
    requestStatusHistory L st ((ctx, op) :: rest) k =
      (requestStatusAt st k).toList ++ requestStatusHistory L (step L ctx st op) rest k := by
  simp only [requestStatusHistory, trace, List.filterMap_cons]
  cases requestStatusAt st k <;> simp

theorem requestStatusHistory_nil (L : Lib) (st : Ledger Doc) (k : String) :
    requestStatusHistory L st [] k = (requestStatusAt st k).toList := by
  simp only [requestStatusHistory, trace, List.filterMap_cons, List.filterMap_nil]
  cases requestStatusAt st k <;> simp

/-- No status is observed under a key that holds a document other than a buy request. -/
theorem requestStatusHistory_notRequest (L : Lib) (txs : List (Ctx × Op)) (st : Ledger Doc)
    {k : String} (hk : (getState st k).isSome) (hs : requestStatusAt st k = none) :
    requestStatusHistory L st txs k = [] := by
  induction txs generalizing st with
  | nil => simp [requestStatusHistory_nil, hs]
  | cons tx rest ih =>
    obtain ⟨ctx, op⟩ := tx
    obtain ⟨h1, h2⟩ := rec_step_notRequest L ctx st op hk hs
    simp [requestStatusHistory_cons, hs, ih _ h1 h2]

/-- From a state in which the buy request has lifecycle status `s`, the observed statuses
start with `s` and, repetitions removed, run along the lifecycle from `s`. -/
theorem requestStatusHistory_request (L : Lib) (txs : List (Ctx × Op)) (st : Ledger Doc)
    {k s : String} (hmem : s ∈ requestLifecycle) (hs : requestStatusAt st k = some s) :
    ∃ h, requestStatusHistory L st txs k = s :: h
      ∧ Chaincode.squash (s :: h) <+: requestLifecycleFrom s := by
  induction txs generalizing st s with
  | nil =>
    refine ⟨[], by simp [requestStatusHistory_nil, hs], ?_⟩
    simpa [Chaincode.squash] using requestLifecycleFrom_head hmem
  | cons tx rest ih =>
    obtain ⟨ctx, op⟩ := tx
    rcases rec_step_statusAt L ctx st op hs with h1 | ⟨s', hnext, h1⟩
    · obtain ⟨h, hh, hp⟩ := ih _ hmem h1
      refine ⟨s :: h, by simp [requestStatusHistory_cons, hs, hh], ?_⟩
      rw [Chaincode.squash_same]; exact hp
    · obtain ⟨h, hh, hp⟩ := ih _ (nextRequestStatus_mem hnext) h1
      obtain ⟨hne, hchain⟩ := nextRequestStatus_chain hnext
      refine ⟨s' :: h, by simp [requestStatusHistory_cons, hs, hh], ?_⟩
      rw [Chaincode.squash_next hne, hchain]
      exact (List.prefix_cons_inj s).mpr hp

/-- From a state in which the key holds nothing, the observed statuses, repetitions removed,
are a prefix of the buy request lifecycle. -/
theorem requestStatusHistory_fresh (L : Lib) (txs : List (Ctx × Op)) (st : Ledger Doc)
    {k : String} (hk : getState st k = none) :
    Chaincode.squash (requestStatusHistory L st txs k) <+: requestLifecycle := by
  have hnone : requestStatusAt st k = none := by simp [requestStatusAt, hk]
  induction txs generalizing st with
  | nil => simp [requestStatusHistory_nil, hnone, Chaincode.squash]
  | cons tx rest ih =>
    obtain ⟨ctx, op⟩ := tx
    rw [requestStatusHistory_cons, hnone]
    simp only [Option.toList, List.nil_append]
    rcases rec_step_fresh L ctx st op hk with h | ⟨h1, h2⟩ | h
    · exact ih _ h (by simp [requestStatusAt, h])
    · rw [requestStatusHistory_notRequest L rest _ h1 h2]
      simp [Chaincode.squash]
    · obtain ⟨h', hh, hp⟩ := requestStatusHistory_request L rest _ (by decide) h
      rw [hh]
      exact hp

/-- A stored COMPLETED buy request is the same document after any sequence of invocations. -/
theorem rec_run_completed (L : Lib) (txs : List (Ctx × Op)) (st : Ledger Doc) {k : String}
    {b : BuyRequest} (hk : getState st k = some (.buyRequest b))
    (hs : b.requestStatus.status = "COMPLETED") :
    getState (run L st txs) k = some (.buyRequest b) := by
  induction txs generalizing st with
  | nil => exact hk
  | cons tx txs ih =>
    obtain ⟨ctx, op⟩ := tx
    apply ih
    rcases rec_step_buyRequest L ctx st op hk with h | ⟨b', hn, _⟩
    · exact h
    · rw [hs] at hn
      rcases hn with ⟨h1, _⟩ | ⟨h1, _⟩ | ⟨h1, _⟩ <;> exact absurd h1 (by decide)

end ChaincodeRec
end REC

namespace REC
namespace ChaincodeRec

/-- C29 (buy request state machine). For every stored buy request: `makePayment` succeeds
exactly when its status is PENDING_PAYMENT and then stores it with status
PAYMENT_VERIFICATION; `verifyPayment` succeeds exactly when its status is
PAYMENT_VERIFICATION and then stores it with status VERIFIED; `completeBuyRequest` succeeds
exactly when its status is VERIFIED and then stores it with status COMPLETED and the given
certificate id. Over every sequence of invocations of `chaincode/rec` from the empty ledger
the statuses a buy request takes are, repetitions removed, a prefix of [PENDING_PAYMENT,
PAYMENT_VERIFICATION, VERIFIED, COMPLETED]; one committed invocation leaves the status as it
is or moves it one step forward; and a COMPLETED buy request is never changed again, every
`createBuyRequest`, `makePayment`, `verifyPayment` and `completeBuyRequest` that names it
failing. -/
theorem buyRequest_state_machine (L : Lib) :
    (∀ (ctx : Ctx) (st : Ledger Doc) (requestId : String) (b : BuyRequest),
      getState st ("BUY_REQUEST_" ++ requestId) = some (.buyRequest b) →
        (∀ method reference,
          ((makePayment L ctx st requestId method reference).result.isOk = true
            ↔ b.requestStatus.status = "PENDING_PAYMENT")
          ∧ ((makePayment L ctx st requestId method reference).result.isOk = true →
            ∃ b', (makePayment L ctx st requestId method reference).result = .ok b'
              ∧ getState (commit st (makePayment L ctx st requestId method reference))
                ("BUY_REQUEST_" ++ requestId) = some (.buyRequest b')
              ∧ b'.requestStatus.status = "PAYMENT_VERIFICATION"))
        ∧ (∀ issuerId notes,
          ((verifyPayment L ctx st requestId issuerId notes).result.isOk = true
            ↔ b.requestStatus.status = "PAYMENT_VERIFICATION")
          ∧ ((verifyPayment L ctx st requestId issuerId notes).result.isOk = true →
            ∃ b', (verifyPayment L ctx st requestId issuerId notes).result = .ok b'
              ∧ getState (commit st (verifyPayment L ctx st requestId issuerId notes))
                ("BUY_REQUEST_" ++ requestId) = some (.buyRequest b')
              ∧ b'.requestStatus.status = "VERIFIED"))
        ∧ (∀ certificateId,
          ((completeBuyRequest L ctx st requestId certificateId).result.isOk = true
            ↔ b.requestStatus.status = "VERIFIED")
          ∧ ((completeBuyRequest L ctx st requestId certificateId).result.isOk = true →
            ∃ b', (completeBuyRequest L ctx st requestId certificateId).result = .ok b'
              ∧ getState (commit st (completeBuyRequest L ctx st requestId certificateId))
                ("BUY_REQUEST_" ++ requestId) = some (.buyRequest b')
              ∧ b'.requestStatus.status = "COMPLETED"
              ∧ b'.certificateId = some certificateId)))
    ∧ (∀ (txs : List (Ctx × Op)) (k : String),
        Chaincode.squash (requestStatusHistory L [] txs k) <+: requestLifecycle)
    ∧ (∀ (ctx : Ctx) (st : Ledger Doc) (op : Op) (k : String) (b : BuyRequest),
        getState st k = some (.buyRequest b) →
          ∃ b', getState (step L ctx st op) k = some (.buyRequest b')
            ∧ (b'.requestStatus.status = b.requestStatus.status
              ∨ NextRequestStatus b.requestStatus.status b'.requestStatus.status))
    ∧ ∀ (st : Ledger Doc) (requestId : String) (b : BuyRequest),
        getState st ("BUY_REQUEST_" ++ requestId) = some (.buyRequest b) →
        b.requestStatus.status = "COMPLETED" →
        ∀ (txs : List (Ctx × Op)),
          getState (run L st txs) ("BUY_REQUEST_" ++ requestId) = some (.buyRequest b)
            ∧ ∀ (ctx : Ctx) (energyDataId buyerId amount price method reference issuerId notes
                certificateId : String),
              (createBuyRequest L ctx (run L st txs) requestId energyDataId buyerId amount
                  price).result.isOk = false
                ∧ (makePayment L ctx (run L st txs) requestId method reference).result.isOk
                  = false
                ∧ (verifyPayment L ctx (run L st txs) requestId issuerId notes).result.isOk
                  = false
                ∧ (completeBuyRequest L ctx (run L st txs) requestId certificateId).result.isOk
                  = false := by
  refine ⟨?_, fun txs k => requestStatusHistory_fresh L txs [] rfl, ?_, ?_⟩
  · intro ctx st requestId b hk
    refine ⟨?_, ?_, ?_⟩
    · intro method reference
      simp only [makePayment, hk]
      by_cases hs : b.requestStatus.status = "PENDING_PAYMENT"
      · have hs' : ¬ b.requestStatus.status ≠ "PENDING_PAYMENT" := fun h => h hs
        rw [if_neg hs']
        refine ⟨⟨fun _ => hs, fun _ => rfl⟩, fun _ => ⟨_, rfl, ?_, rfl⟩⟩
        simp only [commit, applyWrites, getState_putState_same]
      · rw [if_pos hs]
        simp [TxResult.fail, Outcome.isOk, hs]
    · intro issuerId notes
      simp only [verifyPayment, hk]
      by_cases hs : b.requestStatus.status = "PAYMENT_VERIFICATION"
      · have hs' : ¬ b.requestStatus.status ≠ "PAYMENT_VERIFICATION" := fun h => h hs
        rw [if_neg hs']
        refine ⟨⟨fun _ => hs, fun _ => rfl⟩, fun _ => ⟨_, rfl, ?_, rfl⟩⟩
        simp only [commit, applyWrites, getState_putState_same]
      · rw [if_pos hs]
        simp [TxResult.fail, Outcome.isOk, hs]
    · intro certificateId
      simp only [completeBuyRequest, hk]
      by_cases hs : b.requestStatus.status = "VERIFIED"
      · have hs' : ¬ b.requestStatus.status ≠ "VERIFIED" := fun h => h hs
        rw [if_neg hs']
        refine ⟨⟨fun _ => hs, fun _ => rfl⟩, fun _ => ⟨_, rfl, ?_, rfl, rfl⟩⟩
        simp only [commit, applyWrites, getState_putState_same]
      · rw [if_pos hs]
        simp [TxResult.fail, Outcome.isOk, hs]
  · intro ctx st op k b hk
    rcases rec_step_buyRequest L ctx st op hk with h | ⟨b', hn, h⟩
    · exact ⟨b, h, Or.inl rfl⟩
    · exact ⟨b', h, Or.inr hn⟩
  · intro st requestId b hk hs txs
    have hk' := rec_run_completed L txs st hk hs
    refine ⟨hk', ?_⟩
    intro ctx energyDataId buyerId amount price method reference issuerId notes certificateId
    generalize run L st txs = st2 at hk'
    refine ⟨?_, ?_, ?_, ?_⟩
    · simp only [createBuyRequest, hk', TxResult.fail, Outcome.isOk]
    · simp only [makePayment, hk', hs]
      rw [if_pos (by decide)]
      rfl
    · simp only [verifyPayment, hk', hs]
      rw [if_pos (by decide)]
      rfl
    · simp only [completeBuyRequest, hk', hs]
      rw [if_pos (by decide)]
      rfl

/-- The sample buy request workflow visits the four statuses in order, and its history is a
prefix of the lifecycle. -/
theorem buyRequest_state_machine_witness :
    requestStatusHistory Node.lib [] sampleBuyWorkflow "BUY_REQUEST_R1" =
        ["PENDING_PAYMENT", "PAYMENT_VERIFICATION", "VERIFIED", "COMPLETED"]
      ∧ Chaincode.squash (requestStatusHistory Node.lib [] sampleBuyWorkflow "BUY_REQUEST_R1")
        <+: requestLifecycle
      ∧ (buyRequestAt (run Node.lib [] sampleBuyWorkflow) "BUY_REQUEST_R1").map
          (fun b => (b.requestStatus.status, b.certificateId)) = some ("COMPLETED", some "C1") :=
  ⟨by decide!, (buyRequest_state_machine Node.lib).2.1 sampleBuyWorkflow "BUY_REQUEST_R1",
    by decide!⟩

/-- The method `makePayment` has no buyer argument and does not read the identity of the
caller: its writes and its result are the same whoever invokes it. -/
theorem makePayment_caller_irrelevant (L : Lib) (ctx : Ctx) (caller : String)
    (st : Ledger Doc) (requestId method reference : String) :
    makePayment L { ctx with mspId := caller } st requestId method reference
      = makePayment L ctx st requestId method reference :=
  rfl

/-- C30, the code at the failing input: buy request `R1` of buyer `B1` awaits payment; a
client of the generator organisation calls `makePayment`, which has no buyer argument. The
call succeeds and the stored request, still of buyer `B1`, moves to PAYMENT_VERIFICATION
with payment status PAID. -/
theorem makePayment_gating_missing :
    (buyRequestAt ledgerBuyRequested "BUY_REQUEST_R1").map
        (fun b => (b.requestStatus.status, b.parties.buyer.buyerId))
        = some ("PENDING_PAYMENT", "B1")
      ∧ generatorCtx.mspId = "GeneratorMSP"
      ∧ (makePayment Node.lib generatorCtx ledgerBuyRequested "R1" "cash" "X").result.isOk
        = true
      ∧ (buyRequestAt (commit ledgerBuyRequested
          (makePayment Node.lib generatorCtx ledgerBuyRequested "R1" "cash" "X"))
          "BUY_REQUEST_R1").map
          (fun b => (b.requestStatus.status, b.parties.buyer.buyerId,
            b.paymentInfo.paymentStatus))
        = some ("PAYMENT_VERIFICATION", "B1", "PAID") := by
  decide!

end ChaincodeRec
end REC

namespace REC

/-- A list is not below one of its prefixes. -/
theorem not_append_lt_prefix (p x : List Char) : ¬ (p ++ x < p) := by
  induction p with
  | nil => intro h; cases h
  | cons a p ih =>
    intro h
    cases h with
    | cons h => exact ih h
    | rel h => exact lt_irrefl a h

/-- A common prefix plays no part in the order of two lists. -/
theorem append_lt_append_iff (p x y : List Char) : p ++ x < p ++ y ↔ x < y := by
  induction p with
  | nil => exact Iff.rfl
  | cons a p ih =>
    constructor
    · intro h
      cases h with
      | cons h => exact ih.1 h
      | rel h => exact absurd h (lt_irrefl a)
    · intro h
      exact List.Lex.cons (ih.2 h)

/-- A list is below the one-element list `[b]` exactly when it is empty or starts with a
character below `b`. -/
theorem lt_singleton_iff (x : List Char) (b : Char) :
    x < [b] ↔ ∀ c ∈ x.head?, c < b := by
  cases x with
  | nil => simpa using List.Lex.nil
  | cons c rest =>
    simp only [List.head?_cons, Option.mem_def, Option.some.injEq, forall_eq']
    constructor
    · intro h
      cases h with
      | cons h => cases h
      | rel h => exact h
    · intro h
      exact List.Lex.rel h

/-- The key `CERTIFICATE_<certId>` lies in the range `CERTIFICATE_` to `CERTIFICATE_~` that
the certificate queries scan exactly when `certId` is empty or starts with a character
below `~`. -/
theorem certificateKey_inRange (certId : String) :
    ("CERTIFICATE_" ≤ "CERTIFICATE_" ++ certId ∧ "CERTIFICATE_" ++ certId < "CERTIFICATE_~")
      ↔ ∀ c ∈ certId.data.head?, c < '~' := by
  have h1 : "CERTIFICATE_" ≤ "CERTIFICATE_" ++ certId := by
    rw [← not_lt, String.lt_iff_toList_lt]
    show ¬ (("CERTIFICATE_" ++ certId).data < "CERTIFICATE_".data)
    rw [String.data_append]
    exact not_append_lt_prefix _ _
  have h2 : "CERTIFICATE_" ++ certId < "CERTIFICATE_~" ↔ ∀ c ∈ certId.data.head?, c < '~' := by
    rw [String.lt_iff_toList_lt, ← lt_singleton_iff]
    show ("CERTIFICATE_" ++ certId).data < "CERTIFICATE_~".data ↔ _
    rw [String.data_append]
    exact append_lt_append_iff "CERTIFICATE_".data certId.data ['~']
  rw [← h2]
  exact ⟨fun h => h.2, fun h => ⟨h1, h⟩⟩

namespace Chaincode

/-- What `getCertificatesByStatus` returns, in every world state: it writes nothing, and a
certificate is in the returned list exactly when the world state has it under a key in the
range `CERTIFICATE_` to `CERTIFICATE_~`, with the document type of a certificate and the
given status. -/
theorem getCertificatesByStatus_mem (st : Ledger Doc) (status : String) :
    (getCertificatesByStatus st status).writes = []
      ∧ ∃ l, (getCertificatesByStatus st status).result = .ok l
        ∧ ∀ c, c ∈ l ↔
          ∃ k, (k, Doc.certificate c) ∈ st
            ∧ "CERTIFICATE_" ≤ k ∧ k < "CERTIFICATE_~"
            ∧ c.documentType = "RENEWABLE_ENERGY_CERTIFICATE"
            ∧ c.certificateInfo.status = status := by
  refine ⟨rfl, _, rfl, ?_⟩
  intro c
  simp only [getStateByRange, List.mem_filterMap, List.mem_filter, Bool.and_eq_true,
    decide_eq_true_eq]
  constructor
  · rintro ⟨⟨k, d⟩, ⟨hmem, hlo, hhi⟩, hd⟩
    cases d with
    | certificate r =>
      simp only at hd
      split_ifs at hd with hc
      · injection hd with hd
        subst hd
        exact ⟨k, hmem, hlo, hhi, hc.1, hc.2⟩
    | energyData e => simp at hd
    | energyHash m => simp at hd
    | certHash m => simp at hd
  · rintro ⟨k, hmem, hlo, hhi, ht, hs⟩
    refine ⟨(k, .certificate c), ⟨hmem, hlo, hhi⟩, ?_⟩
    simp [ht, hs]

/-- C31, the code at the failing input: after `E1` is submitted and verified, certificate
`~1` is requested by `B1` and certificate `C1` by `B2`; both are stored in status
CERTIFICATE_REQUESTED, as `getCertificateById` shows, but
`getCertificatesByStatus('CERTIFICATE_REQUESTED')` returns `C1` only: the key
`CERTIFICATE_~1` is not below the end `CERTIFICATE_~` of the scanned range. -/
theorem status_query_misses_certificate :
    observedStatus (run Node.lib [] tildeWorkflow) "~1" = some "CERTIFICATE_REQUESTED"
      ∧ observedStatus (run Node.lib [] tildeWorkflow) "C1" = some "CERTIFICATE_REQUESTED"
      ∧ (certificateAt (run Node.lib [] tildeWorkflow) "CERTIFICATE_~1").map
          (fun c => (c.documentType, c.certificateId))
        = some ("RENEWABLE_ENERGY_CERTIFICATE", "~1")
      ∧ (getCertificatesByStatus (run Node.lib [] tildeWorkflow) "CERTIFICATE_REQUESTED").result
        = .ok [newCertificate Node.lib sampleCtx "C1" "E1" "B2" "10" verifiedE1
            (parseSecurity Node.lib sampleCtx "C1" "")]
      ∧ ¬ ("CERTIFICATE_~1" < "CERTIFICATE_~") := by
  decide!

end Chaincode
end REC

namespace REC
namespace Chaincode

/-- C32 (end-to-end scenario). From the empty ledger, on the reference runtime: after
`submitEnergyData(E1, 100, SOLAR, 2024-01-01, Jakarta, G1)` the record is PENDING and after
`verifyEnergyData(E1, I1)` it is VERIFIED; then `requestCertificate(C1, E1, B1, 50,
security data with a certificate hash)`, `confirmPayment(C1, B1, payment data)`,
`issueCertificate(C1, I1)` and `completeCertificate(C1, B1)` each succeed, and after each of
them `getCertificateById(C1)` shows CERTIFICATE_REQUESTED, CERTIFICATE_PAID,
CERTIFICATE_ISSUED and COMPLETED in turn. -/
theorem end_to_end_scenario :
    (getState (run Node.lib [] (hashWorkflow.take 1)) "ENERGY_E1").bind Doc.status
        = some "PENDING"
      ∧ (getState (run Node.lib [] (hashWorkflow.take 2)) "ENERGY_E1").bind Doc.status
        = some "VERIFIED"
      ∧ observedStatus (run Node.lib [] (hashWorkflow.take 2)) "C1" = none
      ∧ (requestCertificate Node.lib sampleCtx (run Node.lib [] (hashWorkflow.take 2))
          "C1" "E1" "B1" "50" hashSecurity).result.isOk = true
      ∧ observedStatus (run Node.lib [] (hashWorkflow.take 3)) "C1"
        = some "CERTIFICATE_REQUESTED"
      ∧ (confirmPayment Node.lib sampleCtx (run Node.lib [] (hashWorkflow.take 3))
          "C1" "B1" paymentJson).result.isOk = true
      ∧ observedStatus (run Node.lib [] (hashWorkflow.take 4)) "C1" = some "CERTIFICATE_PAID"
      ∧ (issueCertificate Node.lib sampleCtx (run Node.lib [] (hashWorkflow.take 4))
          "C1" "I1").result.isOk = true
      ∧ observedStatus (run Node.lib [] (hashWorkflow.take 5)) "C1" = some "CERTIFICATE_ISSUED"
      ∧ (completeCertificate Node.lib sampleCtx (run Node.lib [] (hashWorkflow.take 5))
          "C1" "B1").result.isOk = true
      ∧ observedStatus (run Node.lib [] hashWorkflow) "C1" = some "COMPLETED"
      ∧ (certificateAt (run Node.lib [] hashWorkflow) "CERTIFICATE_C1").map
          (fun c => (c.parties.buyer.buyerId, c.energyReference.energyDataId,
            c.energyReference.amount, c.security.certificateHash, c.lifecycle.issuedBy))
        = some ("B1", "E1", some 50, .string "abc123", some "I1") := by
  decide!

/-- Whether `submitEnergyData` succeeds depends on the amount only through the hash of the
tuple: it succeeds exactly when the key of the id and the key of the hash hold nothing.
The parsed amount is stored and never tested. -/
theorem submitEnergyData_isOk_iff (L : Lib) (ctx : Ctx) (st : Ledger Doc)
    (id a s t l g : String) :
    (submitEnergyData L ctx st id a s t l g).result.isOk = true ↔
      getState st ("ENERGY_" ++ id) = none
        ∧ getState st ("ENERGY_HASH_" ++ generateEnergyDataHash L a s t l g) = none := by
  simp only [submitEnergyData]
  cases getState st ("ENERGY_" ++ id) with
  | some d => simp [TxResult.fail, Outcome.isOk]
  | none =>
    cases getState st ("ENERGY_HASH_" ++ generateEnergyDataHash L a s t l g) with
    | some d => simp [TxResult.fail, Outcome.isOk]
    | none => simp [Outcome.isOk]

/-- C33, the claim as stated fails: on the empty ledger submissions with the amounts `0`,
`-5` and `abc` succeed, and the records are stored with the amounts 0, -5 and `null` (none
of them a positive number). -/
theorem nonpositive_amount_stored :
    (submitEnergyData Node.lib sampleCtx [] "E1" "0" "SOLAR" "2024-01-01" "Jakarta"
          "G1").result.isOk = true
      ∧ (getState (commit [] (submitEnergyData Node.lib sampleCtx [] "E1" "0" "SOLAR"
          "2024-01-01" "Jakarta" "G1")) "ENERGY_E1").map
          (fun d => match d with | .energyData e => e.amount | _ => none) = some (some 0)
      ∧ (submitEnergyData Node.lib sampleCtx [] "E1" "-5" "SOLAR" "2024-01-01" "Jakarta"
          "G1").result.isOk = true
      ∧ (getState (commit [] (submitEnergyData Node.lib sampleCtx [] "E1" "-5" "SOLAR"
          "2024-01-01" "Jakarta" "G1")) "ENERGY_E1").map
          (fun d => match d with | .energyData e => e.amount | _ => none) = some (some (-5))
      ∧ Node.lib.parseFloat "abc" = .nan
      ∧ (submitEnergyData Node.lib sampleCtx [] "E1" "abc" "SOLAR" "2024-01-01" "Jakarta"
          "G1").result.isOk = true
      ∧ (getState (commit [] (submitEnergyData Node.lib sampleCtx [] "E1" "abc" "SOLAR"
          "2024-01-01" "Jakarta" "G1")) "ENERGY_E1").map
          (fun d => match d with | .energyData e => e.amount | _ => none) = some none := by
  decide!

/-- C34 (over-allocation is reachable). There is a sequence of invocations from the empty
ledger after which the energy record `E1` is VERIFIED with amount `A`, two certificates with
distinct ids and no certificate hash reference it, both in status CERTIFICATE_REQUESTED, and
the sum of their `energyReference.amount` (60 + 60 = 120) is greater than `A` (100). -/
theorem over_allocation_reachable :
    ∃ (txs : List (Ctx × Op)) (e : EnergyData) (A : ℚ),
      getState (run Node.lib [] txs) "ENERGY_E1" = some (.energyData e)
        ∧ e.status = "VERIFIED"
        ∧ e.amount = some A
        ∧ (certificateAt (run Node.lib [] txs) "CERTIFICATE_C1").map
            (fun c => (c.certificateInfo.status, c.energyReference.energyDataId,
              c.energyReference.amount, c.security.certificateHash))
          = some ("CERTIFICATE_REQUESTED", "E1", some 60, .undefined)
        ∧ (certificateAt (run Node.lib [] txs) "CERTIFICATE_C2").map
            (fun c => (c.certificateInfo.status, c.energyReference.energyDataId,
              c.energyReference.amount, c.security.certificateHash))
          = some ("CERTIFICATE_REQUESTED", "E1", some 60, .undefined)
        ∧ allocated (run Node.lib [] txs) "E1" = 120
        ∧ A < allocated (run Node.lib [] txs) "E1" :=
  ⟨overAllocation, verifiedE1, 100, by decide!, by decide!, by decide!, by decide!, by decide!,
    by decide!, by decide!⟩

/-- C35 (normalisation actually applied). Two argument tuples with the same `generatorId`
and `generationDate` whose amounts parse to the same number, whose source types have the
same upper-cased form and whose locations have the same lower-cased, trimmed form hash
alike; so once the first has been submitted as `id1`, then in every later state the
submission of the second under an unused id writes nothing and fails with the duplicate
error, which names `id1`. -/
theorem normalisation_applied (L : Lib) (ctx1 ctx2 : Ctx) (st : Ledger Doc)
    (id1 id2 a a' s s' t l l' g : String) (txs : List (Ctx × Op))
    (ha : L.parseFloat a = L.parseFloat a')
    (hs : L.toUpperCase s = L.toUpperCase s')
    (hl : L.trim (L.toLowerCase l) = L.trim (L.toLowerCase l'))
    (h1 : (submitEnergyData L ctx1 st id1 a s t l g).result.isOk = true)
    (h2 : getState (run L (commit st (submitEnergyData L ctx1 st id1 a s t l g)) txs)
      ("ENERGY_" ++ id2) = none) :
    generateEnergyDataHash L a s t l g = generateEnergyDataHash L a' s' t l' g
      ∧ submitEnergyData L ctx2
          (run L (commit st (submitEnergyData L ctx1 st id1 a s t l g)) txs) id2 a' s' t l' g =
        ⟨[], .error ("Energy data with this generation profile already exists. Existing ID: "
          ++ id1 ++ ", Hash: " ++ generateEnergyDataHash L a s t l g)⟩ := by
  have hh : generateEnergyDataHash L a s t l g = generateEnergyDataHash L a' s' t l' g := by
    simp only [generateEnergyDataHash, hashDataJSON, ha, hs, hl]
  refine ⟨hh, ?_⟩
  obtain ⟨m, hm, hget⟩ := submitEnergyData_hashKey h1
  have hlater := run_energyHash L txs _ hget
  generalize run L (commit st (submitEnergyData L ctx1 st id1 a s t l g)) txs = st2
    at h2 hlater ⊢
  rw [hh] at hlater ⊢
  simp only [submitEnergyData, h2, hlater, TxResult.fail, Doc.energyDataId, templateText, hm]

/-- The record `E1` is submitted with amount `100`, source type `SOLAR` and location
`Jakarta`, and verified; its resubmission as `E2` with amount `100.0`, source type `solar`
and location ` JAKARTA ` is rejected as a duplicate of `E1`. -/
theorem normalisation_applied_witness :
    generateEnergyDataHash Node.lib "100" "SOLAR" "2024-01-01" "Jakarta" "G1"
        = generateEnergyDataHash Node.lib "100.0" "solar" "2024-01-01" " JAKARTA " "G1"
      ∧ submitEnergyData Node.lib sampleCtx
          (run Node.lib (commit [] (submitEnergyData Node.lib sampleCtx [] "E1" "100" "SOLAR"
            "2024-01-01" "Jakarta" "G1")) [(sampleCtx, .verifyEnergyData "E1" "I1")])
          "E2" "100.0" "solar" "2024-01-01" " JAKARTA " "G1" =
        ⟨[], .error ("Energy data with this generation profile already exists. Existing ID: "
          ++ "E1" ++ ", Hash: "
          ++ generateEnergyDataHash Node.lib "100" "SOLAR" "2024-01-01" "Jakarta" "G1")⟩ :=
  normalisation_applied Node.lib sampleCtx sampleCtx [] "E1" "E2" "100" "100.0" "SOLAR" "solar"
    "2024-01-01" "Jakarta" " JAKARTA " "G1" [(sampleCtx, .verifyEnergyData "E1" "I1")]
    (by decide!) (by decide!) (by decide!) (by decide!) (by decide!)

end Chaincode
end REC

namespace REC

/-- A character is determined by its code point. -/
theorem char_eq_of_toNat {c d : Char} (h : c.toNat = d.toNat) : c = d := by
  apply Char.ext
  exact UInt32.toNat.inj h

/-- The hexadecimal digits of the numbers below 16 are different. -/
theorem hexDigit_injective : ∀ n < 16, ∀ m < 16, hexDigit n = hexDigit m → n = m := by
  decide

/-- The three forms of the escape of a character: the character itself, which is then
neither a backslash nor a quotation mark; a backslash and a letter that stands for the
character; or the six characters of a `\u00XY` escape of a control character. -/
theorem jsonEscapeChar_shape (c : Char) :
    (jsonEscapeChar c = [c] ∧ c ≠ '\\' ∧ c ≠ '"')
      ∨ (∃ k, jsonEscapeChar c = ['\\', k]
          ∧ (c, k) ∈ [('"', '"'), ('\\', '\\'), (Char.ofNat 8, 'b'), (Char.ofNat 12, 'f'),
              ('\n', 'n'), ('\r', 'r'), ('\t', 't')])
      ∨ (jsonEscapeChar c
            = ['\\', 'u', '0', '0', hexDigit (c.toNat / 16), hexDigit (c.toNat % 16)]
          ∧ c.toNat < 32) := by
  unfold jsonEscapeChar
  split_ifs with h1 h2 h3 h4 h5 h6 h7 h8
  · exact Or.inr (Or.inl ⟨_, rfl, by simp [h1]⟩)
  · exact Or.inr (Or.inl ⟨_, rfl, by simp [h2]⟩)
  · have hc : c = Char.ofNat 8 := char_eq_of_toNat (by rw [h3]; rfl)
    exact Or.inr (Or.inl ⟨_, rfl, by simp [hc]⟩)
  · have hc : c = Char.ofNat 12 := char_eq_of_toNat (by rw [h4]; rfl)
    exact Or.inr (Or.inl ⟨_, rfl, by simp [hc]⟩)
  · exact Or.inr (Or.inl ⟨_, rfl, by simp [h5]⟩)
  · exact Or.inr (Or.inl ⟨_, rfl, by simp [h6]⟩)
  · exact Or.inr (Or.inl ⟨_, rfl, by simp [h7]⟩)
  · exact Or.inr (Or.inr ⟨rfl, h8⟩)
  · exact Or.inl ⟨rfl, h2, h1⟩

/-- In the table of two-character escapes the letter determines the character, and no
letter is `u`. -/
theorem shortEscape_unique :
    ∀ p ∈ [('"', '"'), ('\\', '\\'), (Char.ofNat 8, 'b'), (Char.ofNat 12, 'f'),
        ('\n', 'n'), ('\r', 'r'), ('\t', 't')],
      p.2 ≠ 'u' ∧
      ∀ q ∈ [('"', '"'), ('\\', '\\'), (Char.ofNat 8, 'b'), (Char.ofNat 12, 'f'),
          ('\n', 'n'), ('\r', 'r'), ('\t', 't')],
        p.2 = q.2 → p.1 = q.1 := by
  decide

/-- The escape of a character never starts with a quotation mark. -/
theorem jsonEscapeChar_ne_quote (c : Char) (A B : List Char) :
    jsonEscapeChar c ++ A ≠ '"' :: B := by
  intro h
  rcases jsonEscapeChar_shape c with ⟨he, _, hq⟩ | ⟨k, he, _⟩ | ⟨he, _⟩
  · rw [he] at h
    simp only [List.cons_append, List.nil_append, List.cons.injEq] at h
    exact hq h.1
  · rw [he] at h
    simp only [List.cons_append, List.nil_append, List.cons.injEq] at h
    exact absurd h.1 (by decide)
  · rw [he] at h
    simp only [List.cons_append, List.nil_append, List.cons.injEq] at h
    exact absurd h.1 (by decide)

/-- The escapes form a prefix code: a text that starts with the escape of a character
determines the character and the rest. -/
theorem jsonEscapeChar_prefix (c d : Char) (A B : List Char)
    (h : jsonEscapeChar c ++ A = jsonEscapeChar d ++ B) : c = d ∧ A = B := by
  rcases jsonEscapeChar_shape c with ⟨hc, hc1, hc2⟩ | ⟨k, hc, hck⟩ | ⟨hc, hc1⟩ <;>
    rcases jsonEscapeChar_shape d with ⟨hd, hd1, hd2⟩ | ⟨k', hd, hdk⟩ | ⟨hd, hd1⟩ <;>
    rw [hc, hd] at h <;>
    simp only [List.cons_append, List.nil_append, List.cons.injEq, true_and] at h
  · exact h
  · exact absurd h.1 hc1
  · exact absurd h.1 hc1
  · exact absurd h.1.symm hd1
  · obtain ⟨hk, hAB⟩ := h
    exact ⟨((shortEscape_unique _ hck).2 _ hdk hk), hAB⟩
  · exact absurd h.1 (shortEscape_unique _ hck).1
  · exact absurd h.1.symm hd1
  · exact absurd h.1.symm (shortEscape_unique _ hdk).1
  · obtain ⟨h1, h2, hAB⟩ := h
    have e1 := hexDigit_injective (c.toNat / 16) (by omega) (d.toNat / 16) (by omega) h1
    have e2 := hexDigit_injective (c.toNat % 16) (Nat.mod_lt _ (by decide)) (d.toNat % 16)
      (Nat.mod_lt _ (by decide)) h2
    exact ⟨char_eq_of_toNat (by omega), hAB⟩

/-- The escaped text of a string, closed by its quotation mark, determines the string and
what follows. -/
theorem jsonBody_prefix (xs : List Char) :
    ∀ (ys r r' : List Char),
      xs.flatMap jsonEscapeChar ++ '"' :: r = ys.flatMap jsonEscapeChar ++ '"' :: r' →
        xs = ys ∧ r = r' := by
  induction xs with
  | nil =>
    intro ys r r' h
    cases ys with
    | nil => simpa using h
    | cons d ys =>
      simp only [List.flatMap_nil, List.nil_append, List.flatMap_cons, List.append_assoc] at h
      exact absurd h.symm (jsonEscapeChar_ne_quote d _ _)
  | cons c xs ih =>
    intro ys r r' h
    cases ys with
    | nil =>
      simp only [List.flatMap_nil, List.nil_append, List.flatMap_cons, List.append_assoc] at h
      exact absurd h (jsonEscapeChar_ne_quote c _ _)
    | cons d ys =>
      simp only [List.flatMap_cons, List.append_assoc] at h
      obtain ⟨hcd, hrest⟩ := jsonEscapeChar_prefix c d _ _ h
      obtain ⟨hxs, hr⟩ := ih ys r r' hrest
      exact ⟨by rw [hcd, hxs], hr⟩

/-- The text `JSON.stringify` prints for a string determines the string and what follows
it. -/
theorem jsonString_prefix (x y : String) (r r' : List Char)
    (h : (jsonString x).data ++ r = (jsonString y).data ++ r') : x = y ∧ r = r' := by
  simp only [jsonString, List.cons_append, List.append_assoc, List.cons.injEq, true_and,
    List.singleton_append] at h
  obtain ⟨h1, h2⟩ := jsonBody_prefix x.data y.data r r' h
  exact ⟨String.ext h1, h2⟩

/-- A text without a comma, followed by a comma, determines the text and what follows. -/
theorem comma_split (n : List Char) :
    ∀ (m r r' : List Char), ',' ∉ n → ',' ∉ m → n ++ ',' :: r = m ++ ',' :: r' →
      n = m ∧ r = r' := by
  induction n with
  | nil =>
    intro m r r' _ hm h
    cases m with
    | nil => simpa using h
    | cons b m =>
      simp only [List.nil_append, List.cons_append, List.cons.injEq] at h
      exact absurd (by rw [← h.1]; exact List.mem_cons_self _ _) hm
  | cons a n ih =>
    intro m r r' hn hm h
    cases m with
    | nil =>
      simp only [List.nil_append, List.cons_append, List.cons.injEq] at h
      exact absurd (by rw [h.1]; exact List.mem_cons_self _ _) hn
    | cons b m =>
      simp only [List.cons_append, List.cons.injEq] at h
      obtain ⟨h1, h2⟩ := ih m r r' (fun hh => hn (List.mem_cons_of_mem _ hh))
        (fun hh => hm (List.mem_cons_of_mem _ hh)) h.2
      exact ⟨by rw [h.1, h1], h2⟩

end REC

namespace REC
namespace Chaincode

/-- C36 (the digest pre-image is injective on canonical tuples). For two inputs of
`generateEnergyDataHash` whose amounts parse to the finite numbers `q` and `q'`, printed by
the runtime without a comma and differently when they differ, the JSON text passed to the
digest is the same exactly when the canonical tuples are equal: the same `generatorId`, the
same lower-cased trimmed location, the same `generationDate`, the same parsed amount and
the same upper-cased source type. -/
theorem preimage_injective (L : Lib) (a a' s s' t t' l l' g g' : String) (q q' : ℚ)
    (hq : L.parseFloat a = .fin q) (hq' : L.parseFloat a' = .fin q')
    (hc : ',' ∉ (L.numberToString q).data) (hc' : ',' ∉ (L.numberToString q').data)
    (hinj : L.numberToString q = L.numberToString q' → q = q') :
    hashDataJSON L a s t l g = hashDataJSON L a' s' t' l' g' ↔
      g = g' ∧ L.trim (L.toLowerCase l) = L.trim (L.toLowerCase l') ∧ t = t' ∧ q = q'
        ∧ L.toUpperCase s = L.toUpperCase s' := by
  constructor
  · intro h
    have h0 := congrArg String.data h
    simp only [hashDataJSON, String.data_append, hq, hq', jsonNumber, List.append_assoc] at h0
    have h1 := jsonString_prefix _ _ _ _ (List.append_cancel_left h0)
    have h2 := jsonString_prefix _ _ _ _ (List.append_cancel_left h1.2)
    have h3 := jsonString_prefix _ _ _ _ (List.append_cancel_left h2.2)
    have h4 := comma_split _ _ _ _ hc hc' (List.append_cancel_left h3.2)
    have h5 := jsonString_prefix _ _ _ _ (List.append_cancel_left h4.2)
    exact ⟨h1.1, h2.1, h3.1, hinj (String.ext h4.1), h5.1⟩
  · rintro ⟨h1, h2, h3, h4, h5⟩
    simp only [hashDataJSON, hq, hq', h1, h2, h3, h4, h5]

end Chaincode
end REC

namespace REC

/-- Which keys of the four families can be equal: `ENERGY_<id>` is the hash key
`ENERGY_HASH_<hash>` exactly when the id is `HASH_<hash>`; a certificate key is never a
certificate hash key; and keys of different families never coincide. -/
theorem key_families :
    (∀ id h : String, "ENERGY_" ++ id = "ENERGY_HASH_" ++ h ↔ id = "HASH_" ++ h)
      ∧ (∀ id h : String, "CERTIFICATE_" ++ id ≠ "CERT_HASH_" ++ h)
      ∧ (∀ a b : String, "ENERGY_" ++ a ≠ "CERTIFICATE_" ++ b)
      ∧ (∀ a b : String, "ENERGY_" ++ a ≠ "CERT_HASH_" ++ b)
      ∧ (∀ a b : String, "ENERGY_" ++ a ≠ "BUY_REQUEST_" ++ b)
      ∧ (∀ a b : String, "CERTIFICATE_" ++ a ≠ "BUY_REQUEST_" ++ b)
      ∧ (∀ a b : String, "CERT_HASH_" ++ a ≠ "BUY_REQUEST_" ++ b) := by
  refine ⟨?_, ?_, ?_, ?_, ?_, ?_, ?_⟩
  · intro id h
    have hassoc : "ENERGY_HASH_" ++ h = "ENERGY_" ++ ("HASH_" ++ h) := by
      rw [← String.append_assoc]
      rfl
    rw [hassoc]
    exact ⟨string_append_left_cancel, fun hh => by rw [hh]⟩
  · intro id h hh
    exact Chaincode.certHash_ne_certificate h id hh.symm
  all_goals
    intro a b hh
    have h2 := congrArg (fun s => s.data.get? 0) hh
    simp [String.data_append] at h2

namespace Chaincode

/-- The two sample tuples differ in every member of the canonical tuple, and the texts
passed to the digest differ. -/
theorem preimage_injective_witness :
    Node.lib.parseFloat "100" = .fin 100
      ∧ Node.lib.parseFloat "250" = .fin 250
      ∧ (hashDataJSON Node.lib "100" "SOLAR" "2024-01-01" "Jakarta" "G1"
          = hashDataJSON Node.lib "250" "WIND" "2024-01-02" "Bandung" "G2" ↔
        "G1" = "G2"
          ∧ Node.lib.trim (Node.lib.toLowerCase "Jakarta")
            = Node.lib.trim (Node.lib.toLowerCase "Bandung")
          ∧ "2024-01-01" = "2024-01-02" ∧ (100 : ℚ) = 250
          ∧ Node.lib.toUpperCase "SOLAR" = Node.lib.toUpperCase "WIND")
      ∧ hashDataJSON Node.lib "100" "SOLAR" "2024-01-01" "Jakarta" "G1"
        ≠ hashDataJSON Node.lib "250" "WIND" "2024-01-02" "Bandung" "G2" :=
  ⟨by decide!, by decide!,
    preimage_injective Node.lib "100" "250" "SOLAR" "WIND" "2024-01-01" "2024-01-02" "Jakarta"
      "Bandung" "G1" "G2" 100 250 (by decide!) (by decide!) (by decide!) (by decide!)
      (by decide!),
    by decide!⟩

/-- C37, the code at the failing input: the key `ENERGY_<id>` of the id `HASH_<h>`, where
`h` is the hash of the tuple of `E1`, is the hash key `ENERGY_HASH_<h>`. After the tuple of
`E2` is submitted under that id, the hash key of the tuple of `E1` holds a primary record
(of another tuple); the tuple of `E1`, never submitted, is then reported as a duplicate and
its submission under the unused id `E1` fails. -/
theorem key_scheme_collision :
    "ENERGY_" ++ collidingId = "ENERGY_HASH_" ++ recordE1.energyDataHash
      ∧ (getState ledgerSquatted ("ENERGY_HASH_" ++ recordE1.energyDataHash)).map
          (fun d => match d with
            | .energyData e => some (e.energyDataId, e.energyDataHash, e.status)
            | _ => none)
        = some (some (collidingId, recordE2.energyDataHash, "PENDING"))
      ∧ getState ledgerSquatted "ENERGY_E1" = none
      ∧ (checkEnergyDataDuplication Node.lib ledgerSquatted "100" "SOLAR" "2024-01-01"
          "Jakarta" "G1").result
        = .ok
          { isDuplicate := true
            existingEnergyDataId := some collidingId
            hash := recordE1.energyDataHash
            message := "Energy data with identical generation profile already exists" }
      ∧ submitEnergyData Node.lib sampleCtx ledgerSquatted "E1" "100" "SOLAR" "2024-01-01"
          "Jakarta" "G1"
        = ⟨[], .error
            ("Energy data with this generation profile already exists. Existing ID: "
              ++ collidingId ++ ", Hash: " ++ recordE1.energyDataHash)⟩ := by
  decide!

end Chaincode

namespace ChaincodeRec

/-- The method `requestCertificate` of `chaincode/rec` never succeeds: it compares the
member `status` at the top level of the stored document with VERIFIED, and no document of
the package has that member. -/
theorem rec_requestCertificate_fails (L : Lib) (ctx : Ctx) (st : Ledger Doc)
    (certId energyId buyerId sec : String) :
    (requestCertificate L ctx st certId energyId buyerId sec).result.isOk = false := by
  simp only [requestCertificate]
  cases getState st ("CERTIFICATE_" ++ certId) with
  | some d => rfl
  | none =>
    cases getState st ("ENERGY_" ++ energyId) with
    | none => rfl
    | some d =>
      have hd : d.topLevel.status = none := by cases d <;> rfl
      simp only [hd]
      rfl

/-- C38, the code at the failing input: in the world state of `chaincode/rec` in which `E1`
was submitted and verified by the package's own methods, `requestCertificate` for the
unused id `C1` against `E1` writes nothing and fails with the must-be-VERIFIED error,
although the record's `certificationStatus.status` is VERIFIED. -/
theorem rec_requestCertificate_rejects_verified :
    (getState ledgerVerified "ENERGY_E1").map
        (fun d => match d with
          | .energyData e => some e.certificationStatus.status
          | _ => none) = some (some "VERIFIED")
      ∧ getState ledgerVerified "CERTIFICATE_C1" = none
      ∧ requestCertificate Node.lib Chaincode.sampleCtx ledgerVerified "C1" "E1" "B1" ""
        = ⟨[], .error "EnergyData E1 must be VERIFIED before certificate request"⟩ := by
  decide!

end ChaincodeRec
end REC

namespace REC
namespace Chaincode

/-- C39 (malformed security data does not abort a request), as the code has it. For an
unused `certId`, a VERIFIED energy record and a non-empty `securityDataStr` that
`JSON.parse` rejects, `requestCertificate` succeeds whatever the world state holds under
the `CERT_HASH_` keys, writes the certificate and nothing else, and the certificate has
`security.certificateHash = null`, security level MEDIUM, `tamperProof = false`,
`compliance.antiDuplicationVerified = false` and, as serial number, `certId` (for the empty
`certId` the serial number made of the wall-clock year and the transaction id). -/
theorem malformed_security_defaults (L : Lib) (ctx : Ctx) (st : Ledger Doc)
    (certId energyId buyerId amount sec : String) (e : EnergyData)
    (hfree : getState st ("CERTIFICATE_" ++ certId) = none)
    (he : getState st ("ENERGY_" ++ energyId) = some (.energyData e))
    (hs : e.status = "VERIFIED")
    (hne : sec ≠ "")
    (hbad : L.parseSecurityData sec = .invalid) :
    ∃ c, requestCertificate L ctx st certId energyId buyerId amount sec
          = ⟨[("CERTIFICATE_" ++ certId, .certificate c)], .ok c⟩
      ∧ c.security.certificateHash = .null
      ∧ c.security.serialNumber =
        .string (if certId = "" then
          "REC-" ++ L.getFullYear ctx.now ++ "-" ++ substring0 ctx.txId 12
          else certId)
      ∧ c.security.securityLevel = .string "MEDIUM"
      ∧ c.security.tamperProof = some false
      ∧ c.compliance.antiDuplicationVerified = false := by
  have hs' : ¬ e.status ≠ "VERIFIED" := fun h => h hs
  have hp : parseSecurity L ctx certId sec =
      { certificate_hash := .null
        serial_number := .string certId
        security_level := .string "MEDIUM"
        anti_duplication_hash := .null
        tamper_proof := some false
        generated_at := .string (L.toISOString ctx.now) } := by
    simp only [parseSecurity, hne, if_false, hbad]
  have ht : ¬ ((parseSecurity L ctx certId sec).certificate_hash.truthy = true
      ∧ (getState st ("CERT_HASH_"
          ++ (parseSecurity L ctx certId sec).certificate_hash.text L)).isSome = true) := by
    rw [hp]
    simp [JSValue.truthy]
  simp only [requestCertificate, hfree, he]
  rw [if_neg hs', if_neg ht]
  refine ⟨newCertificate L ctx certId energyId buyerId amount e (parseSecurity L ctx certId sec),
    ?_, ?_, ?_, ?_, ?_, ?_⟩
  · simp only [requestWrites, hp, JSValue.truthy]
    rfl
  · simp only [newCertificate, hp, JSValue.toStored]
  · simp only [newCertificate, hp, JSValue.or, JSValue.truthy]
    by_cases hc : certId = "" <;> simp [hc, JSValue.toStored]
  · simp only [newCertificate, hp, JSValue.toStored]
  · simp only [newCertificate, hp]
  · simp only [newCertificate, hp, JSValue.truthy]

/-- On the sample data: a request with the security data `not json` against the verified
`E1` stores certificate `C1` with the default security members and the serial number `C1`. -/
theorem malformed_security_defaults_witness :
    Node.lib.parseSecurityData malformedSecurity = .invalid
      ∧ ∃ c, requestCertificate Node.lib sampleCtx ledgerVerified "C1" "E1" "B1" "50"
            malformedSecurity
          = ⟨[("CERTIFICATE_" ++ "C1", .certificate c)], .ok c⟩
        ∧ c.security.certificateHash = .null
        ∧ c.security.serialNumber =
          .string (if "C1" = "" then
            "REC-" ++ Node.lib.getFullYear sampleCtx.now ++ "-" ++ substring0 sampleCtx.txId 12
            else "C1")
        ∧ c.security.securityLevel = .string "MEDIUM"
        ∧ c.security.tamperProof = some false
        ∧ c.compliance.antiDuplicationVerified = false :=
  ⟨by decide!,
    malformed_security_defaults Node.lib sampleCtx ledgerVerified "C1" "E1" "B1" "50"
      malformedSecurity verifiedE1 (by decide!) (by decide!) (by decide!) (by decide!)
      (by decide!)⟩

/-- C39, the claim as stated fails: the empty string is not valid JSON, and a request with
it as security data succeeds, but no parse is attempted and no default is set: the stored
certificate has the serial number `REC-2024-a3f1c29b7d5e`, not `C1`, and neither a security
level nor a `tamperProof` member. -/
theorem malformed_security_counterexample :
    Node.lib.parseSecurityData "" = .invalid
      ∧ (requestCertificate Node.lib sampleCtx ledgerVerified "C1" "E1" "B1" "50" "").result.isOk
        = true
      ∧ (certificateAt (commit ledgerVerified
          (requestCertificate Node.lib sampleCtx ledgerVerified "C1" "E1" "B1" "50" ""))
          "CERTIFICATE_C1").map
          (fun c => (c.security.certificateHash, c.security.serialNumber,
            c.security.securityLevel, c.security.tamperProof,
            c.compliance.antiDuplicationVerified))
        = some (.undefined, .string "REC-2024-a3f1c29b7d5e", .undefined, none, false) := by
  decide!

/-- The three transitions keep what binds a certificate. -/
theorem Advance.sameBinding {c c' : Certificate} (h : Advance c c') : SameBinding c c' :=
  ⟨h.certificateId, h.buyer, h.generator, h.energyReference, h.security⟩

theorem sameBinding_refl (c : Certificate) : SameBinding c c := ⟨rfl, rfl, rfl, rfl, rfl⟩

theorem sameBinding_trans {c1 c2 c3 : Certificate} (h12 : SameBinding c1 c2)
    (h23 : SameBinding c2 c3) : SameBinding c1 c3 :=
  ⟨h23.certificateId.trans h12.certificateId, h23.buyer.trans h12.buyer,
    h23.generator.trans h12.generator, h23.energyReference.trans h12.energyReference,
    h23.security.trans h12.security⟩

/-- A stored certificate keeps its binding over any sequence of invocations. -/
theorem run_sameBinding (L : Lib) (txs : List (Ctx × Op)) (st : Ledger Doc) {k : String}
    {c : Certificate} (hk : getState st k = some (.certificate c)) :
    ∃ c', getState (run L st txs) k = some (.certificate c') ∧ SameBinding c c' := by
  induction txs generalizing st c with
  | nil => exact ⟨c, hk, sameBinding_refl c⟩
  | cons tx txs ih =>
    obtain ⟨ctx, op⟩ := tx
    rcases (effect_step L ctx st op).get_some hk with h | ⟨e, e', h, _⟩ | ⟨c0, c1, h, hadv, hget⟩
    · exact ih _ h
    · cases h
    · have hc : c = c0 := by injection h
      subst hc
      obtain ⟨c', hc', hb⟩ := ih _ hget
      exact ⟨c', hc', sameBinding_trans hadv.sameBinding hb⟩

/-- A successful invocation that writes one key leaves every other key as it is. -/
theorem commit_single_write {α : Type} (st : Ledger Doc) (key : String) (d : Doc) (a : α)
    (k : String) (hk : k ≠ key) :
    getState (commit st (⟨[(key, d)], .ok a⟩ : TxResult Doc α)) k = getState st k := by
  simp only [commit, applyWrites]
  exact getState_putState_other _ _ _ _ (Ne.symm hk)

/-- A successful `requestCertificate` stores the certificate it returns. -/
theorem requestCertificate_stored {L : Lib} {ctx : Ctx} {st : Ledger Doc}
    {certId energyId buyerId amount sec : String} {c0 : Certificate}
    (hc : (requestCertificate L ctx st certId energyId buyerId amount sec).result = .ok c0) :
    getState (commit st (requestCertificate L ctx st certId energyId buyerId amount sec))
      ("CERTIFICATE_" ++ certId) = some (.certificate c0) := by
  have hok : (requestCertificate L ctx st certId energyId buyerId amount sec).result.isOk
      = true := by
    rw [hc]; rfl
  obtain ⟨e, _, _, heq⟩ := requestCertificate_success hok
  have hcc : newCertificate L ctx certId energyId buyerId amount e
      (parseSecurity L ctx certId sec) = c0 := by
    rw [heq] at hc
    injection hc
  rw [heq, hcc]
  simp only [commit, requestWrites]
  split_ifs with ht
  · simp only [applyWrites]
    rw [getState_putState_other _ _ _ _ (certHash_ne_certificate _ _), getState_putState_same]
  · simp only [applyWrites, getState_putState_same]

/-- C40 (transition frame). Every successful `confirmPayment`, `issueCertificate` and
`completeCertificate` replaces a stored certificate under `CERTIFICATE_<certId>` by the
returned one, which has the same `certificateId`, buyer, generator, energy reference and
security data; it writes no other key, so every other document (energy record, hash index
entry, other certificate) is as before. Hence in every state after a successful
`requestCertificate` the stored certificate has these members as the request stored them. -/
theorem transition_frame (L : Lib) :
    (∀ (ctx : Ctx) (st : Ledger Doc) (certId buyerId pay : String),
      (confirmPayment L ctx st certId buyerId pay).result.isOk = true →
        ∃ c c', getState st ("CERTIFICATE_" ++ certId) = some (.certificate c)
          ∧ confirmPayment L ctx st certId buyerId pay
            = ⟨[("CERTIFICATE_" ++ certId, .certificate c')], .ok c'⟩
          ∧ SameBinding c c'
          ∧ ∀ k, k ≠ "CERTIFICATE_" ++ certId →
            getState (commit st (confirmPayment L ctx st certId buyerId pay)) k
              = getState st k)
      ∧ (∀ (ctx : Ctx) (st : Ledger Doc) (certId issuerId : String),
        (issueCertificate L ctx st certId issuerId).result.isOk = true →
          ∃ c c', getState st ("CERTIFICATE_" ++ certId) = some (.certificate c)
            ∧ issueCertificate L ctx st certId issuerId
              = ⟨[("CERTIFICATE_" ++ certId, .certificate c')], .ok c'⟩
            ∧ SameBinding c c'
            ∧ ∀ k, k ≠ "CERTIFICATE_" ++ certId →
              getState (commit st (issueCertificate L ctx st certId issuerId)) k
                = getState st k)
      ∧ (∀ (ctx : Ctx) (st : Ledger Doc) (certId buyerId : String),
        (completeCertificate L ctx st certId buyerId).result.isOk = true →
          ∃ c c', getState st ("CERTIFICATE_" ++ certId) = some (.certificate c)
            ∧ completeCertificate L ctx st certId buyerId
              = ⟨[("CERTIFICATE_" ++ certId, .certificate c')], .ok c'⟩
            ∧ SameBinding c c'
            ∧ ∀ k, k ≠ "CERTIFICATE_" ++ certId →
              getState (commit st (completeCertificate L ctx st certId buyerId)) k
                = getState st k)
      ∧ ∀ (ctx : Ctx) (st : Ledger Doc) (certId energyId buyerId amount sec : String)
          (c0 : Certificate) (txs : List (Ctx × Op)),
        (requestCertificate L ctx st certId energyId buyerId amount sec).result = .ok c0 →
          ∃ c', getState
              (run L (commit st (requestCertificate L ctx st certId energyId buyerId amount sec))
                txs) ("CERTIFICATE_" ++ certId) = some (.certificate c')
            ∧ SameBinding c0 c' := by
  refine ⟨?_, ?_, ?_, ?_⟩
  · intro ctx st certId buyerId pay hok
    simp only [confirmPayment] at hok ⊢
    cases hk : getState st ("CERTIFICATE_" ++ certId) with
    | none => simp [hk, TxResult.fail, Outcome.isOk] at hok
    | some d =>
      cases d with
      | certificate c =>
        simp only [hk] at hok ⊢
        split_ifs at hok ⊢ with h1 h2
        · simp [TxResult.fail, Outcome.isOk] at hok
        · simp [TxResult.fail, Outcome.isOk] at hok
        · cases hp : paymentDetailsOf L certId pay with
          | none => simp [hp, TxResult.fail, Outcome.isOk] at hok
          | some p =>
            obtain ⟨method, reference⟩ := p
            dsimp only
            exact ⟨c, _, rfl, rfl, ⟨rfl, rfl, rfl, rfl, rfl⟩,
              fun k hne => commit_single_write st _ _ _ k hne⟩
      | energyData e => simp [hk, TxResult.fail, Outcome.isOk] at hok
      | energyHash m => simp [hk, TxResult.fail, Outcome.isOk] at hok
      | certHash m => simp [hk, TxResult.fail, Outcome.isOk] at hok
  · intro ctx st certId issuerId hok
    simp only [issueCertificate] at hok ⊢
    cases hk : getState st ("CERTIFICATE_" ++ certId) with
    | none => simp [hk, TxResult.fail, Outcome.isOk] at hok
    | some d =>
      cases d with
      | certificate c =>
        simp only [hk] at hok ⊢
        split_ifs at hok ⊢ with h1
        · simp [TxResult.fail, Outcome.isOk] at hok
        · exact ⟨c, _, rfl, rfl, ⟨rfl, rfl, rfl, rfl, rfl⟩,
            fun k hne => commit_single_write st _ _ _ k hne⟩
      | energyData e => simp [hk, TxResult.fail, Outcome.isOk] at hok
      | energyHash m => simp [hk, TxResult.fail, Outcome.isOk] at hok
      | certHash m => simp [hk, TxResult.fail, Outcome.isOk] at hok
  · intro ctx st certId buyerId hok
    simp only [completeCertificate] at hok ⊢
    cases hk : getState st ("CERTIFICATE_" ++ certId) with
    | none => simp [hk, TxResult.fail, Outcome.isOk] at hok
    | some d =>
      cases d with
      | certificate c =>
        simp only [hk] at hok ⊢
        split_ifs at hok ⊢ with h1 h2
        · simp [TxResult.fail, Outcome.isOk] at hok
        · simp [TxResult.fail, Outcome.isOk] at hok
        · exact ⟨c, _, rfl, rfl, ⟨rfl, rfl, rfl, rfl, rfl⟩,
            fun k hne => commit_single_write st _ _ _ k hne⟩
      | energyData e => simp [hk, TxResult.fail, Outcome.isOk] at hok
      | energyHash m => simp [hk, TxResult.fail, Outcome.isOk] at hok
      | certHash m => simp [hk, TxResult.fail, Outcome.isOk] at hok
  · intro ctx st certId energyId buyerId amount sec c0 txs hc
    exact run_sameBinding L txs _ (requestCertificate_stored hc)

/-- On the end-to-end scenario: certificate `C1` is requested with the hash `abc123`; after
its payment, issuance and completion the stored certificate has the binding the request
stored, and the payment wrote the certificate key only. -/
theorem transition_frame_witness :
    (∃ c', getState
        (run Node.lib (commit ledgerVerified (requestCertificate Node.lib sampleCtx
          ledgerVerified "C1" "E1" "B1" "50" hashSecurity)) (hashWorkflow.drop 3))
        ("CERTIFICATE_" ++ "C1") = some (.certificate c')
      ∧ SameBinding hashCertificateC1 c')
    ∧ ∃ c c', getState (run Node.lib [] (hashWorkflow.take 3)) ("CERTIFICATE_" ++ "C1")
          = some (.certificate c)
        ∧ confirmPayment Node.lib sampleCtx (run Node.lib [] (hashWorkflow.take 3)) "C1" "B1"
            paymentJson
          = ⟨[("CERTIFICATE_" ++ "C1", .certificate c')], .ok c'⟩
        ∧ SameBinding c c'
        ∧ ∀ k, k ≠ "CERTIFICATE_" ++ "C1" →
          getState (commit (run Node.lib [] (hashWorkflow.take 3))
            (confirmPayment Node.lib sampleCtx (run Node.lib [] (hashWorkflow.take 3)) "C1" "B1"
              paymentJson)) k
            = getState (run Node.lib [] (hashWorkflow.take 3)) k :=
  ⟨(transition_frame Node.lib).2.2.2 sampleCtx ledgerVerified "C1" "E1" "B1" "50" hashSecurity
      hashCertificateC1 (hashWorkflow.drop 3) (by decide!),
    (transition_frame Node.lib).1 sampleCtx (run Node.lib [] (hashWorkflow.take 3)) "C1" "B1"
      paymentJson (by decide!)⟩

end Chaincode
end REC

namespace REC
namespace Chaincode

/-- The text `JSON.stringify` prints for a number is the text it prints for the stored
value of the number. -/
theorem jsonNumber_eq_jsonStored (L : Lib) (n : JSNum) :
    jsonNumber L n = jsonStored L n.toStored := by
  cases n <;> rfl

/-- The text `JSON.stringify` prints for a stored number is the text `ToString` gives. -/
theorem jsonStored_eq_storedToString (L : Lib) (x : Option ℚ) :
    jsonStored L x = storedToString L x := by
  cases x <;> rfl

/-- The JSON text passed to the digest is the same for two inputs exactly when the
canonical tuples are equal, when the printed amounts have no comma. -/
theorem hashDataJSON_eq_iff (L : Lib) (a a' s s' t t' l l' g g' : String)
    (hc : ',' ∉ (jsonNumber L (L.parseFloat a)).data)
    (hc' : ',' ∉ (jsonNumber L (L.parseFloat a')).data) :
    hashDataJSON L a s t l g = hashDataJSON L a' s' t' l' g' ↔
      g = g' ∧ L.trim (L.toLowerCase l) = L.trim (L.toLowerCase l') ∧ t = t'
        ∧ jsonNumber L (L.parseFloat a) = jsonNumber L (L.parseFloat a')
        ∧ L.toUpperCase s = L.toUpperCase s' := by
  constructor
  · intro h
    have h0 := congrArg String.data h
    simp only [hashDataJSON, String.data_append, List.append_assoc] at h0
    have h1 := jsonString_prefix _ _ _ _ (List.append_cancel_left h0)
    have h2 := jsonString_prefix _ _ _ _ (List.append_cancel_left h1.2)
    have h3 := jsonString_prefix _ _ _ _ (List.append_cancel_left h2.2)
    have h4 := comma_split _ _ _ _ hc hc' (List.append_cancel_left h3.2)
    have h5 := jsonString_prefix _ _ _ _ (List.append_cancel_left h4.2)
    exact ⟨h1.1, h2.1, h3.1, String.ext h4.1, h5.1⟩
  · rintro ⟨h1, h2, h3, h4, h5⟩
    simp only [hashDataJSON, h1, h2, h3, h4, h5]

/-- C9 (tamper detection), up to the normalisation of the hash. Let `e` be a record whose
stored hash is not empty and equals the hash recomputed from its members, and let the
stored members be replaced, the stored hash kept, so that the key now holds `e'`. When the
runtime reads the two stored amounts back as they are and prints them without a comma, and
the digest does not collide on the two hashed texts, `verifyEnergyDataIntegrity` returns a
report with `isValid = false` exactly when `generatorId`, `generationDate` or `amount` got
a different value, `location` a value with a different lower-cased trimmed form, or
`sourceType` a value with a different upper-cased form. So every changed generator, date
and amount is reported, and a location or source type that changed only in letter case (or
a location in surrounding white space) is reported as valid. -/
theorem tamper_detection (L : Lib) (st : Ledger Doc) (id : String) (e e' : EnergyData)
    (hstored : getState st ("ENERGY_" ++ id) = some (.energyData e'))
    (hvalid : recalculateHash L e = e.energyDataHash)
    (hne : e.energyDataHash ≠ "")
    (hhash : e'.energyDataHash = e.energyDataHash)
    (hrt : (L.parseFloat (storedToString L e.amount)).toStored = e.amount)
    (hrt' : (L.parseFloat (storedToString L e'.amount)).toStored = e'.amount)
    (hc : ',' ∉ (storedToString L e.amount).data)
    (hc' : ',' ∉ (storedToString L e'.amount).data)
    (hcoll : recalculateHash L e' = recalculateHash L e →
      hashDataJSON L (storedToString L e'.amount) e'.sourceType e'.generationDate e'.location
          e'.generatorId
        = hashDataJSON L (storedToString L e.amount) e.sourceType e.generationDate e.location
          e.generatorId) :
    ∃ r, verifyEnergyDataIntegrity L st id = ⟨[], .ok r⟩
      ∧ (r.isValid = false ↔
        (e'.generatorId ≠ e.generatorId
          ∨ L.trim (L.toLowerCase e'.location) ≠ L.trim (L.toLowerCase e.location)
          ∨ e'.generationDate ≠ e.generationDate
          ∨ e'.amount ≠ e.amount
          ∨ L.toUpperCase e'.sourceType ≠ L.toUpperCase e.sourceType)) := by
  have hne' : e'.energyDataHash ≠ "" := by rw [hhash]; exact hne
  have hrep : verifyEnergyDataIntegrity L st id =
      ⟨[], .ok
        { isValid := decide (recalculateHash L e' = e'.energyDataHash)
          originalHash := some e'.energyDataHash
          recalculatedHash := some (recalculateHash L e')
          message :=
            if decide (recalculateHash L e' = e'.energyDataHash) = true then
              "Energy data integrity verified"
            else "Energy data integrity FAILED - data tampering detected" }⟩ := by
    simp only [verifyEnergyDataIntegrity, hstored, hne', if_false]
  have hj : jsonNumber L (L.parseFloat (storedToString L e.amount))
      = storedToString L e.amount := by
    rw [jsonNumber_eq_jsonStored, hrt, jsonStored_eq_storedToString]
  have hj' : jsonNumber L (L.parseFloat (storedToString L e'.amount))
      = storedToString L e'.amount := by
    rw [jsonNumber_eq_jsonStored, hrt', jsonStored_eq_storedToString]
  have hpre := hashDataJSON_eq_iff L (storedToString L e'.amount) (storedToString L e.amount)
    e'.sourceType e.sourceType e'.generationDate e.generationDate e'.location e.location
    e'.generatorId e.generatorId (by rw [hj']; exact hc') (by rw [hj]; exact hc)
  have hamount : storedToString L e'.amount = storedToString L e.amount ↔
      e'.amount = e.amount := by
    constructor
    · intro h
      rw [← hrt, ← hrt', h]
    · intro h
      rw [h]
  have hsame : recalculateHash L e' = recalculateHash L e ↔
      (e'.generatorId = e.generatorId
        ∧ L.trim (L.toLowerCase e'.location) = L.trim (L.toLowerCase e.location)
        ∧ e'.generationDate = e.generationDate
        ∧ e'.amount = e.amount
        ∧ L.toUpperCase e'.sourceType = L.toUpperCase e.sourceType) := by
    constructor
    · intro h
      obtain ⟨h1, h2, h3, h4, h5⟩ := hpre.1 (hcoll h)
      rw [hj', hj] at h4
      exact ⟨h1, h2, h3, hamount.1 h4, h5⟩
    · rintro ⟨h1, h2, h3, h4, h5⟩
      have h4' : jsonNumber L (L.parseFloat (storedToString L e'.amount))
          = jsonNumber L (L.parseFloat (storedToString L e.amount)) := by
        rw [hj', hj]
        exact hamount.2 h4
      have hp := hpre.2 ⟨h1, h2, h3, h4', h5⟩
      show L.sha256Hex _ = L.sha256Hex _
      exact congrArg L.sha256Hex hp
  refine ⟨_, hrep, ?_⟩
  show decide (recalculateHash L e' = e'.energyDataHash) = false ↔ _
  rw [decide_eq_false_iff_not, hhash, ← hvalid, hsame]
  constructor
  · intro h
    by_contra hcon
    push_neg at hcon
    exact h hcon
  · intro h hall
    obtain ⟨h1, h2, h3, h4, h5⟩ := hall
    rcases h with h | h | h | h | h
    · exact h h1
    · exact h h2
    · exact h h3
    · exact h h4
    · exact h h5

/-- On the sample data: the stored amount of `E1` is changed from 100 to 999, and the
integrity check reports tampering. -/
theorem tamper_detection_witness :
    getState tamperedAmount ("ENERGY_" ++ "E1") =
        some (.energyData { verifiedE1 with amount := some 999 })
      ∧ recalculateHash Node.lib verifiedE1 = verifiedE1.energyDataHash
      ∧ verifiedE1.energyDataHash ≠ ""
      ∧ ∃ r, verifyEnergyDataIntegrity Node.lib tamperedAmount "E1" = ⟨[], .ok r⟩
          ∧ (r.isValid = false ↔
            (verifiedE1.generatorId ≠ verifiedE1.generatorId
              ∨ Node.lib.trim (Node.lib.toLowerCase verifiedE1.location)
                ≠ Node.lib.trim (Node.lib.toLowerCase verifiedE1.location)
              ∨ verifiedE1.generationDate ≠ verifiedE1.generationDate
              ∨ (some 999 : Option ℚ) ≠ verifiedE1.amount
              ∨ Node.lib.toUpperCase verifiedE1.sourceType
                ≠ Node.lib.toUpperCase verifiedE1.sourceType)) :=
  ⟨by decide!, by decide!, by decide!,
    tamper_detection Node.lib tamperedAmount "E1" verifiedE1
      { verifiedE1 with amount := some 999 } (by decide!) (by decide!) (by decide!) rfl
      (by decide!) (by decide!) (by decide!) (by decide!) (by decide!)⟩

/-- C10 (content-dedup, changed field), up to the normalisation of the hash. After
`submitEnergyData(id1, t)` on the empty ledger, `submitEnergyData(id2, t')` with an unused
`id2` succeeds when `t'` differs from `t` in the `generatorId`, in the `generationDate`, in
the parsed amount, in the lower-cased trimmed location or in the upper-cased source type,
provided the runtime prints the two parsed amounts without a comma and differently when
they differ, the digest does not collide on the two hashed texts, and `id1` is not the
text `HASH_<hash of t'>`. -/
theorem changed_field_accepted (L : Lib) (ctx1 ctx2 : Ctx)
    (id1 id2 a s t l g a' s' t' l' g' : String)
    (hfree : getState (commit [] (submitEnergyData L ctx1 [] id1 a s t l g)) ("ENERGY_" ++ id2)
      = none)
    (hchanged : g' ≠ g
      ∨ L.trim (L.toLowerCase l') ≠ L.trim (L.toLowerCase l)
      ∨ t' ≠ t
      ∨ (L.parseFloat a').toStored ≠ (L.parseFloat a).toStored
      ∨ L.toUpperCase s' ≠ L.toUpperCase s)
    (hc : ',' ∉ (jsonNumber L (L.parseFloat a)).data)
    (hc' : ',' ∉ (jsonNumber L (L.parseFloat a')).data)
    (hinj : jsonNumber L (L.parseFloat a') = jsonNumber L (L.parseFloat a) →
      (L.parseFloat a').toStored = (L.parseFloat a).toStored)
    (hcoll : generateEnergyDataHash L a' s' t' l' g' = generateEnergyDataHash L a s t l g →
      hashDataJSON L a' s' t' l' g' = hashDataJSON L a s t l g)
    (hid : id1 ≠ "HASH_" ++ generateEnergyDataHash L a' s' t' l' g') :
    (submitEnergyData L ctx2 (commit [] (submitEnergyData L ctx1 [] id1 a s t l g))
      id2 a' s' t' l' g').result.isOk = true := by
  have hdiff : generateEnergyDataHash L a' s' t' l' g' ≠ generateEnergyDataHash L a s t l g := by
    intro h
    obtain ⟨h1, h2, h3, h4, h5⟩ := (hashDataJSON_eq_iff L a' a s' s t' t l' l g' g hc' hc).1
      (hcoll h)
    rcases hchanged with hg | hl | ht | ha | hs
    · exact hg h1
    · exact hl h2
    · exact ht h3
    · exact ha (hinj h4)
    · exact hs h5
  exact fresh_hash_accepted L ctx1 ctx2 id1 id2 a s t l g a' s' t' l' g' hfree hdiff hid

/-- On the sample data: after `E1`, the tuple with amount 101 instead of 100 is accepted as
`E2`. -/
theorem changed_field_accepted_witness :
    getState (commit [] (submitEnergyData Node.lib sampleCtx [] "E1" "100" "SOLAR" "2024-01-01"
        "Jakarta" "G1")) ("ENERGY_" ++ "E2") = none
      ∧ (Node.lib.parseFloat "101").toStored ≠ (Node.lib.parseFloat "100").toStored
      ∧ "E1" ≠ "HASH_" ++ generateEnergyDataHash Node.lib "101" "SOLAR" "2024-01-01" "Jakarta" "G1"
      ∧ (submitEnergyData Node.lib sampleCtx
          (commit [] (submitEnergyData Node.lib sampleCtx [] "E1" "100" "SOLAR" "2024-01-01"
            "Jakarta" "G1"))
          "E2" "101" "SOLAR" "2024-01-01" "Jakarta" "G1").result.isOk = true :=
  ⟨by decide!, by decide!, by decide!,
    changed_field_accepted Node.lib sampleCtx sampleCtx "E1" "E2" "100" "SOLAR" "2024-01-01"
      "Jakarta" "G1" "101" "SOLAR" "2024-01-01" "Jakarta" "G1" (by decide!)
      (Or.inr (Or.inr (Or.inr (Or.inl (by decide!))))) (by decide!) (by decide!) (by decide!)
      (by decide!) (by decide!)⟩

/-- C10, the claim as stated fails, in two ways. After `E1` with location "Jakarta", the
tuple that differs in exactly one field, the location "jakarta", is rejected as a duplicate
of `E1`. And after the tuple of `E1` with the generator `G2` is submitted under the id
`collidingId`, whose key is the hash key of the tuple of `E1`, the tuple of `E1`, which
differs in exactly one field, is rejected under the unused id `E2`. -/
theorem changed_field_counterexample :
    ((submitEnergyData Node.lib sampleCtx [] "E1" "100" "SOLAR" "2024-01-01" "Jakarta"
        "G1").result.isOk = true
      ∧ getState ledgerE1 "ENERGY_E2" = none
      ∧ "jakarta" ≠ "Jakarta"
      ∧ submitEnergyData Node.lib sampleCtx ledgerE1 "E2" "100" "SOLAR" "2024-01-01" "jakarta"
          "G1" =
        ⟨[], .error ("Energy data with this generation profile already exists. "
          ++ "Existing ID: E1, Hash: "
          ++ "93b9c20ebbf212d4de6972ba1ce8b40380798d7986b6ea8b15edd9adbcea6039")⟩)
    ∧ ((submitEnergyData Node.lib sampleCtx [] collidingId "100" "SOLAR" "2024-01-01" "Jakarta"
        "G2").result.isOk = true
      ∧ getState ledgerOneFieldSquatted "ENERGY_E2" = none
      ∧ "G1" ≠ "G2"
      ∧ (submitEnergyData Node.lib sampleCtx ledgerOneFieldSquatted "E2" "100" "SOLAR"
          "2024-01-01" "Jakarta" "G1").result.isOk = false
      ∧ (submitEnergyData Node.lib sampleCtx ledgerOneFieldSquatted "E2" "100" "SOLAR"
          "2024-01-01" "Jakarta" "G1").writes = []) := by
  decide!

end Chaincode
end REC

namespace REC
namespace Chaincode

/-- C33 (the amount of a stored record), as the code has it. `submitEnergyData` does not
test the amount: whenever the key of the id and the key of the hash hold nothing, whatever
`amount_kwh` is, the submission succeeds, returns the record and writes it under
`ENERGY_<id>` together with its hash mapping, and the amount of the record is what
`parseFloat(amount_kwh)` gives, as JSON keeps it: zero and negative numbers are stored as
they are, and what is not a finite number is stored as `null`. When `id` is not the text
`HASH_<hash>` of the tuple, the record is what `ENERGY_<id>` holds afterwards. -/
theorem amount_stored_unvalidated (L : Lib) (ctx : Ctx) (st : Ledger Doc)
    (id a s t l g : String)
    (hfree : getState st ("ENERGY_" ++ id) = none)
    (hhash : getState st ("ENERGY_HASH_" ++ generateEnergyDataHash L a s t l g) = none) :
    ∃ e m, submitEnergyData L ctx st id a s t l g =
          ⟨[("ENERGY_" ++ id, .energyData e),
            ("ENERGY_HASH_" ++ generateEnergyDataHash L a s t l g, .energyHash m)], .ok e⟩
      ∧ e.amount = (L.parseFloat a).toStored
      ∧ (∀ q, L.parseFloat a = .fin q → e.amount = some q)
      ∧ ((∀ q, L.parseFloat a ≠ .fin q) → e.amount = none)
      ∧ (id ≠ "HASH_" ++ generateEnergyDataHash L a s t l g →
          getState (commit st (submitEnergyData L ctx st id a s t l g)) ("ENERGY_" ++ id)
            = some (.energyData e)) := by
  simp only [submitEnergyData, hfree, hhash]
  refine ⟨_, _, rfl, rfl, ?_, ?_, ?_⟩
  · intro q hq
    simp only [hq, JSNum.toStored]
  · intro hq
    cases hp : L.parseFloat a with
    | fin x => exact absurd hp (hq x)
    | nan => rfl
    | posInf => rfl
    | negInf => rfl
  · intro hid
    have hk : "ENERGY_HASH_" ++ generateEnergyDataHash L a s t l g ≠ "ENERGY_" ++ id := by
      intro h
      have h' : "ENERGY_" ++ ("HASH_" ++ generateEnergyDataHash L a s t l g)
          = "ENERGY_" ++ id := by
        rw [← h, ← String.append_assoc]
        rfl
      exact hid (string_append_left_cancel h').symm
    simp only [commit, applyWrites]
    rw [getState_putState_other _ _ _ _ hk, getState_putState_same]

/-- On the sample data: on the empty ledger the submission of `E1` with the amount `-5`
succeeds and the record is stored with the amount -5. -/
theorem amount_stored_unvalidated_witness :
    Node.lib.parseFloat "-5" = .fin (-5)
      ∧ ∃ e m, submitEnergyData Node.lib sampleCtx [] "E1" "-5" "SOLAR" "2024-01-01" "Jakarta"
            "G1" =
            ⟨[("ENERGY_" ++ "E1", .energyData e),
              ("ENERGY_HASH_" ++ generateEnergyDataHash Node.lib "-5" "SOLAR" "2024-01-01"
                "Jakarta" "G1", .energyHash m)], .ok e⟩
        ∧ e.amount = (Node.lib.parseFloat "-5").toStored
        ∧ (∀ q, Node.lib.parseFloat "-5" = .fin q → e.amount = some q)
        ∧ ((∀ q, Node.lib.parseFloat "-5" ≠ .fin q) → e.amount = none)
        ∧ ("E1" ≠ "HASH_" ++ generateEnergyDataHash Node.lib "-5" "SOLAR" "2024-01-01"
              "Jakarta" "G1" →
            getState (commit [] (submitEnergyData Node.lib sampleCtx [] "E1" "-5" "SOLAR"
              "2024-01-01" "Jakarta" "G1")) ("ENERGY_" ++ "E1") = some (.energyData e)) :=
  ⟨by decide!,
    amount_stored_unvalidated Node.lib sampleCtx [] "E1" "-5" "SOLAR" "2024-01-01" "Jakarta"
      "G1" (by decide!) (by decide!)⟩

end Chaincode
end REC
